import Mathlib

/-!
# Credential lifecycle (`internal/jwt`, `internal/auth`)

A shallow embedding of the `jwt` package (refresh-token rotation, access tokens,
middleware, refresh endpoint) and of the OAuth2 handlers of the `auth` package.

* `uuid.UUID` values are natural numbers; only equality and the zero value
  `uuid.UUID{}` are ever used by the code.
* `time.Time` values are integers: nanoseconds counted from Go's zero time, so
  that the zero `time.Time` is `0`.  `Before` is strict `<`, `Add` is `+`.
* Go's `(Jwt, error)` results are pairs `Jwt × Option Error`; `none` is `nil`.
* The `Querier` interface is a record of state-passing functions over an
  arbitrary store type `σ`; the service is written against that interface, as
  in the source.  Log calls have no effect on results and are left out.
-/

set_option autoImplicit false

namespace jwt

/-- Values of `uuid.UUID`; `0` is `uuid.UUID{}`. -/
abbrev UUID := Nat

/-- Values of `time.Time` (and of `time.Duration`), in nanoseconds. -/
abbrev Time := Int

/-- The constant `time.Minute`, in nanoseconds. -/
def Minute : Time := 60 * 1000000000

/-- The struct `pgtype.Timestamptz` of pgx v5. -/
structure Timestamptz where
  Time : Time
  InfinityModifier : Int
  Valid : Bool
  deriving DecidableEq, Repr

/-- Modelled from the spec: the generated row type `Jwt` is not under `src/`.  Its
fields are the ones the service and the handlers read (`ID`, `UserID`,
`ExpirationTime`, `IsAvailable`), which are the attributes the spec gives a
RefreshToken: unique id, owning user id, expiration timestamp, availability flag. -/
structure Jwt where
  ID : UUID
  UserID : UUID
  ExpirationTime : Timestamptz
  IsAvailable : Bool
  deriving DecidableEq, Repr

/-- The zero value `Jwt{}`. -/
def Jwt.zero : Jwt := ⟨0, 0, ⟨0, 0, false⟩, false⟩

/-- Modelled from the spec: the generated `CreateParams` is not under `src/`; its two
fields are the ones `Service.Create` fills in. -/
structure CreateParams where
  UserID : UUID
  ExpirationTime : Timestamptz
  deriving DecidableEq, Repr

/-- Modelled from the spec: the generated `UpdateParams` is not under `src/`; its two
fields are the ones `Service.Update` fills in. -/
structure UpdateParams where
  ID : UUID
  IsAvailable : Bool
  deriving DecidableEq, Repr

/-- The sentinel errors of `github.com/golang-jwt/jwt/v5` that an error of that
library can match under `errors.Is`. -/
inductive Sentinel where
  | ErrTokenMalformed
  | ErrTokenUnverifiable
  | ErrTokenSignatureInvalid
  | ErrSignatureInvalid
  | ErrTokenInvalidClaims
  | ErrTokenExpired
  | ErrTokenNotValidYet
  deriving DecidableEq, Repr

/-- Go `error` values that reach the services and handlers: those the code makes
itself with `errors.New`, the driver's `pgx.ErrNoRows`, any other failure reported
by the storage layer, an error of the token library (with the sentinels it matches),
and a failure reported by the OAuth2 provider or by another library. -/
inductive Error where
  | errorsNew (text : String)
  | ErrNoRows
  | storage (detail : String)
  | library (kinds : List Sentinel) (detail : String)
  | upstream (detail : String)
  deriving DecidableEq, Repr

/-- The text `err.Error()`. -/
def Error.text : Error → String
  | Error.errorsNew text => text
  | Error.ErrNoRows => "no rows in result set"
  | Error.storage detail => detail
  | Error.library _ detail => detail
  | Error.upstream detail => detail

/-- The test `errors.Is(err, target)` for a sentinel of the token library. -/
def errors.Is (err : Error) (target : Sentinel) : Bool :=
  match err with
  | Error.library ss _ => ss.contains target
  | _ => false

/-- The interface `Querier` of `service.go`, over a store of type `σ`. -/
structure Querier (σ : Type) where
  Create : CreateParams → σ → (Jwt × Option Error) × σ
  Update : UpdateParams → σ → (Jwt × Option Error) × σ
  IsAvailable : UUID → σ → (Jwt × Option Error) × σ

/-- The struct `Service` (the logger is left out). -/
structure Service (σ : Type) where
  expiration : Time
  queries : Querier σ

/-- The two readings of `time.Now()` that one call of `Service.IsAvailable` can
take: `check` on line 161 (expiry test), `issue` on line 179 (new expiration). -/
structure Clock where
  check : Time
  issue : Time
  deriving DecidableEq, Repr

/-- The method `Service.Create`. -/
def Service.Create {σ : Type} (s : Service σ) (userID : UUID) (time : Timestamptz)
    (st : σ) : (Jwt × Option Error) × σ :=
  match s.queries.Create ⟨userID, time⟩ st with
  | ((_, some err), st1) => ((Jwt.zero, some err), st1)
  | ((result, none), st1) => ((result, none), st1)

/-- The method `Service.Update`. -/
def Service.Update {σ : Type} (s : Service σ) (id : UUID) (isAvailable : Bool)
    (st : σ) : (Jwt × Option Error) × σ :=
  match s.queries.Update ⟨id, isAvailable⟩ st with
  | ((_, some err), st1) => ((Jwt.zero, some err), st1)
  | ((result, none), st1) => ((result, none), st1)

/-- The method `Service.IsAvailable`: the rotation of a refresh token. -/
def Service.IsAvailable {σ : Type} (s : Service σ) (now : Clock) (id : UUID)
    (st : σ) : (Jwt × Option Error) × σ :=
  match s.queries.IsAvailable id st with
  | ((_, some err), st1) => ((Jwt.zero, some err), st1)
  | ((result, none), st1) =>
    if !result.IsAvailable then
      ((Jwt.zero, some (Error.errorsNew "refresh token already used")), st1)
    else if result.ExpirationTime.Time < now.check then
      match s.Update id false st1 with
      | (_, st2) => ((Jwt.zero, some (Error.errorsNew "refresh token expired")), st2)
    else
      match s.Update id false st1 with
      | ((_, some err), st2) => ((Jwt.zero, some err), st2)
      | ((_, none), st2) =>
        match s.Create result.UserID ⟨now.issue + 30 * Minute, 0, true⟩ st2 with
        | ((_, some err), st3) => ((Jwt.zero, some err), st3)
        | ((newJwt, none), st3) => ((newJwt, none), st3)

/-! ## The calls a service issues -/

/-- One call of a `Querier` method, with its argument. -/
inductive Call where
  | Create (arg : CreateParams)
  | Update (arg : UpdateParams)
  | IsAvailable (id : UUID)
  deriving DecidableEq, Repr

/-- A querier that behaves as `q` and also appends every call it receives to a list
kept next to the store. -/
def Querier.traced {σ : Type} (q : Querier σ) : Querier (σ × List Call) where
  Create := fun arg st => ((q.Create arg st.1).1, (q.Create arg st.1).2, st.2 ++ [Call.Create arg])
  Update := fun arg st => ((q.Update arg st.1).1, (q.Update arg st.1).2, st.2 ++ [Call.Update arg])
  IsAvailable := fun id st =>
    ((q.IsAvailable id st.1).1, (q.IsAvailable id st.1).2, st.2 ++ [Call.IsAvailable id])

/-- The service `s` with its querier traced. -/
def Service.traced {σ : Type} (s : Service σ) : Service (σ × List Call) :=
  ⟨s.expiration, s.queries.traced⟩

/-! ## The table behind the querier -/

/-- What the storage layer decides on its own during one service call: a failure
to report for each of the three queries (`none`: the query runs), and the id given
to a row inserted by `Create`. -/
structure Env where
  lookupFault : Option Error
  updateFault : Option Error
  createFault : Option Error
  newID : UUID
  deriving DecidableEq, Repr

/-- The environment in which no query fails and new rows get id `newID`. -/
def Env.ok (newID : UUID) : Env := ⟨none, none, none, newID⟩

/-- Modelled from the spec: the generated `Queries.IsAvailable` (and its SQL) is not
under `src/`.  "Look up the record by id. Not-found fails": the first row with that
id, or `pgx.ErrNoRows`; the table is not changed. -/
def Queries.IsAvailable (e : Env) (id : UUID) (db : List Jwt) : (Jwt × Option Error) × List Jwt :=
  match e.lookupFault with
  | some err => ((Jwt.zero, some err), db)
  | none =>
    match db.find? (fun r => r.ID == id) with
    | some r => ((r, none), db)
    | none => ((Jwt.zero, some Error.ErrNoRows), db)

/-- Modelled from the spec: the generated `Queries.Update` (and its SQL) is not under
`src/`.  "mark the record's availability": the availability flag of the row with
that id is set to the given value and the row is returned; other columns and other
rows are kept; a failed query changes nothing. -/
def Queries.Update (e : Env) (arg : UpdateParams) (db : List Jwt) :
    (Jwt × Option Error) × List Jwt :=
  match e.updateFault with
  | some err => ((Jwt.zero, some err), db)
  | none =>
    match db.find? (fun r => r.ID == arg.ID) with
    | some r =>
      (({ r with IsAvailable := arg.IsAvailable }, none),
        db.map (fun x => if x.ID == arg.ID then { x with IsAvailable := arg.IsAvailable } else x))
    | none => ((Jwt.zero, some Error.ErrNoRows), db)

/-- Modelled from the spec: the generated `Queries.Create` (and its SQL) is not under
`src/`.  "inserts a new record with availability=true. Side effect: one new durable
record", with a "unique id": the row gets the id the storage layer generates, and the
insert fails, changing nothing, when that id is already taken. -/
def Queries.Create (e : Env) (arg : CreateParams) (db : List Jwt) :
    (Jwt × Option Error) × List Jwt :=
  match e.createFault with
  | some err => ((Jwt.zero, some err), db)
  | none =>
    if db.any (fun r => r.ID == e.newID) then
      ((Jwt.zero, some (Error.storage "duplicate key value violates unique constraint")), db)
    else
      ((⟨e.newID, arg.UserID, arg.ExpirationTime, true⟩, none),
        db ++ [⟨e.newID, arg.UserID, arg.ExpirationTime, true⟩])

/-- The querier over the table, as the storage layer behaves during one call. -/
def Queries (e : Env) : Querier (List Jwt) where
  Create := Queries.Create e
  Update := Queries.Update e
  IsAvailable := Queries.IsAvailable e

/-- The service of `main.go`: `NewService(logger, 15*time.Minute, jwtQuerier)`. -/
def NewService (e : Env) : Service (List Jwt) := ⟨15 * Minute, Queries e⟩

/-- The table has a row with this id. -/
def stored (db : List Jwt) (id : UUID) : Prop := ∃ r ∈ db, r.ID = id

/-- The table has a row with this id and every such row is unavailable. -/
def unavailable (db : List Jwt) (id : UUID) : Prop :=
  stored db id ∧ ∀ r ∈ db, r.ID = id → r.IsAvailable = false

/-- The row `r` with its availability flag cleared. -/
def invalidated (r : Jwt) : Jwt := { r with IsAvailable := false }

/-! ## One call, query by query

The same method cut at its three queries, so that the queries of two calls can be
run in any order against one store. -/

/-- Where a call of `Service.IsAvailable` stands: before its lookup, before the
update of the expired branch (line 164), before the update of the rotation
(line 172), before the insert (line 179), or returned. -/
inductive Proc where
  | start
  | expired (result : Jwt)
  | valid (result : Jwt)
  | updated (result : Jwt)
  | returned (out : Jwt × Option Error)
  deriving DecidableEq, Repr

/-- The next query of a call of `Service.IsAvailable`, with the code that follows
it up to the query after. -/
def Service.step {σ : Type} (s : Service σ) (now : Clock) (id : UUID) :
    Proc → σ → Proc × σ
  | Proc.start, st =>
    match s.queries.IsAvailable id st with
    | ((_, some err), st1) => (Proc.returned (Jwt.zero, some err), st1)
    | ((result, none), st1) =>
      if !result.IsAvailable then
        (Proc.returned (Jwt.zero, some (Error.errorsNew "refresh token already used")), st1)
      else if result.ExpirationTime.Time < now.check then (Proc.expired result, st1)
      else (Proc.valid result, st1)
  | Proc.expired _, st =>
    match s.Update id false st with
    | (_, st2) => (Proc.returned (Jwt.zero, some (Error.errorsNew "refresh token expired")), st2)
  | Proc.valid result, st =>
    match s.Update id false st with
    | ((_, some err), st2) => (Proc.returned (Jwt.zero, some err), st2)
    | ((_, none), st2) => (Proc.updated result, st2)
  | Proc.updated result, st =>
    match s.Create result.UserID ⟨now.issue + 30 * Minute, 0, true⟩ st with
    | ((_, some err), st3) => (Proc.returned (Jwt.zero, some err), st3)
    | ((newJwt, none), st3) => (Proc.returned (newJwt, none), st3)
  | Proc.returned out, st => (Proc.returned out, st)

/-- A call run alone: its (at most three) queries one after the other. -/
def Service.runAlone {σ : Type} (s : Service σ) (now : Clock) (id : UUID) (st : σ) : Proc × σ :=
  match s.step now id Proc.start st with
  | (p1, st1) =>
    match s.step now id p1 st1 with
    | (p2, st2) => s.step now id p2 st2

/-- Two calls on the same store; the schedule says whose query runs next (`true`: the
first call, `false`: the second). -/
def interleave {σ : Type} (s1 s2 : Service σ) (now1 now2 : Clock) (id1 id2 : UUID) :
    List Bool → Proc × Proc × σ → Proc × Proc × σ
  | [], c => c
  | true :: sched, (p1, p2, st) =>
    interleave s1 s2 now1 now2 id1 id2 sched ((s1.step now1 id1 p1 st).1, p2, (s1.step now1 id1 p1 st).2)
  | false :: sched, (p1, p2, st) =>
    interleave s1 s2 now1 now2 id1 id2 sched (p1, (s2.step now2 id2 p2 st).1, (s2.step now2 id2 p2 st).2)

/-! ## Sequences of calls -/

/-- A call of `Service.Create` or of `Service.IsAvailable`, with what the storage
layer and the clock do during it. -/
inductive Op where
  | Create (e : Env) (userID : UUID) (time : Timestamptz)
  | IsAvailable (e : Env) (now : Clock) (id : UUID)
  deriving DecidableEq, Repr

/-- The call `op` on the table `db`. -/
def Op.run : Op → List Jwt → (Jwt × Option Error) × List Jwt
  | Op.Create e userID time, db => (NewService e).Create userID time db
  | Op.IsAvailable e now id, db => (NewService e).IsAvailable now id db

/-- The table after the calls `ops`, run one after the other from `db`. -/
def runOps : List Op → List Jwt → List Jwt
  | [], db => db
  | op :: ops, db => runOps ops (op.run db).2

/-- The table with every row of id `id` made unavailable. -/
def invalidateAll (id : UUID) (db : List Jwt) : List Jwt :=
  db.map (fun x => if x.ID == id then invalidated x else x)

/-! ## Access tokens: `Service.New` and `Service.Parse` -/

/-- The call `strings.TrimPrefix(s, p)`. -/
def strings.TrimPrefix (s p : String) : String :=
  if p.data.isPrefixOf s.data then ⟨s.data.drop p.data.length⟩ else s

/-- The constant `secret`. -/
def secret : String := "default_secret"

/-- The constant `time.Second`, in nanoseconds. -/
def Second : Time := 1000000000

/-- The struct `claims`, with the fields of the embedded `jwt.RegisteredClaims` that
the service sets (`Audience` is never set); a `*NumericDate` is an optional time. -/
structure claims where
  Message : String
  Id : UUID
  Email : String
  Issuer : String
  Subject : String
  ExpiresAt : Option Time
  NotBefore : Option Time
  IssuedAt : Option Time
  ID : String
  deriving DecidableEq, Repr

/-- The call `jwt.NewNumericDate(t)` of the token library: `t` rounded down to the
library's `TimePrecision`, one second. -/
def NewNumericDate (t : Time) : Option Time := some (t - t % Second)

/-- The parts of `github.com/golang-jwt/jwt/v5` (and of `uuid`) that the service
calls and whose results depend on encodings and on HMAC-SHA256, as parameters:
`SignedString c key` is `jwt.NewWithClaims(jwt.SigningMethodHS256, c).SignedString(key)`;
`verify tokenString key` is `jwt.ParseWithClaims` up to and including the check of the
signature, before the claims are validated; `uuidString` is `uuid.UUID.String`. -/
structure Library where
  SignedString : claims → String → String × Option Error
  verify : String → String → claims × Option Error
  uuidString : UUID → String

/-- The validation of the registered claims that `jwt.ParseWithClaims` runs with its
default validator at the time `now`: the token is expired unless `now` is before
`exp`, and not valid yet when `now` is before `nbf`; `iat` is not checked.  All
failures are joined into one error that matches each of them. -/
def Validate (c : claims) (now : Time) : Option Error :=
  let expired : Bool := match c.ExpiresAt with
    | some exp => !decide (now < exp)
    | none => false
  let early : Bool := match c.NotBefore with
    | some nbf => decide (now < nbf)
    | none => false
  if expired || early then
    some (Error.library
      (Sentinel.ErrTokenInvalidClaims ::
        ((if expired then [Sentinel.ErrTokenExpired] else []) ++
          (if early then [Sentinel.ErrTokenNotValidYet] else [])))
      "token has invalid claims")
  else none

/-- The call `jwt.ParseWithClaims(tokenString, &claims{}, keyFunc)` with a key
function that returns `key`, at the time `now`: the token (`none` when its claims are
not a `*claims`) and the error. -/
def Library.ParseWithClaims (lib : Library) (tokenString key : String) (now : Time) :
    Option claims × Option Error :=
  match lib.verify tokenString key with
  | (c, some err) => (some c, some err)
  | (c, none) =>
    match Validate c now with
    | some err => (some c, some err)
    | none => (some c, none)

/-- The three readings of `time.Now()` in `Service.New` (lines 53, 54 and 55). -/
structure IssueClock where
  exp : Time
  nbf : Time
  iat : Time
  deriving DecidableEq, Repr

/-- The method `Service.New`; `jwtID` is the value of `uuid.New()`. -/
def Service.New {σ : Type} (s : Service σ) (lib : Library) (now : IssueClock) (jwtID : UUID)
    (id : UUID) (email : String) : String × Option Error :=
  match lib.SignedString
      { Message := "This is a Backend-Training JWT token"
        Id := id
        Email := email
        Issuer := "Backend-Training"
        Subject := "Backend-Training Token"
        ExpiresAt := NewNumericDate (now.exp + s.expiration)
        NotBefore := NewNumericDate now.nbf
        IssuedAt := NewNumericDate now.iat
        ID := lib.uuidString jwtID } secret with
  | (_, some err) => ("", some err)
  | (tokenString, none) => (tokenString, none)

/-- The method `Service.Parse`, at the time `now`.  The branches of the `switch`
differ in what they log only. -/
def Service.Parse {σ : Type} (_s : Service σ) (lib : Library) (now : Time)
    (tokenString : String) : UUID × Option Error :=
  match lib.ParseWithClaims (strings.TrimPrefix tokenString "Bearer ") secret now with
  | (_, some err) =>
    if errors.Is err Sentinel.ErrTokenMalformed then (0, some err)
    else if errors.Is err Sentinel.ErrSignatureInvalid then (0, some err)
    else if errors.Is err Sentinel.ErrTokenExpired then (0, some err)
    else if errors.Is err Sentinel.ErrTokenNotValidYet then (0, some err)
    else (0, some err)
  | (none, none) => (0, some (Error.errorsNew "invalid token claims"))
  | (some c, none) => (c.Id, none)

/-- What the service relies on from the token library: a token it has signed verifies
under the same key with the user id and the dates it was given, and does not begin
with the scheme word (it begins with the encoded header). -/
structure Library.Lawful (lib : Library) : Prop where
  roundtrip : ∀ (c : claims) (key tok : String), lib.SignedString c key = (tok, none) →
    ∃ c2, lib.verify tok key = (c2, none) ∧ c2.Id = c.Id ∧
      c2.ExpiresAt = c.ExpiresAt ∧ c2.NotBefore = c.NotBefore
  compact : ∀ (c : claims) (key tok : String), lib.SignedString c key = (tok, none) →
    "Bearer ".data.isPrefixOf tok.data = false

/-- The library cut down to one token: it signs the claims `c0` as `tok0`, refuses to
sign anything else, and verifies `tok0` only. -/
def Library.single (c0 : claims) (tok0 : String) : Library where
  SignedString := fun c _ =>
    if c = c0 then (tok0, none) else ("", some (Error.library [] "signing failed"))
  verify := fun tok _ =>
    if tok = tok0 then (c0, none)
    else (c0, some (Error.library [Sentinel.ErrTokenMalformed] "token is malformed"))
  uuidString := fun u => toString u

end jwt

/-! ## Requests and responses (`net/http`, `context`)

A handler is a function from the response writer, the request and the state of
everything outside the process (stores, provider) to the writer and that state. -/

namespace context

/-- The part of a `context.Context` that the handlers use: string keys, each with the
user id stored under it; the value added last is found first. -/
abbrev Context := List (String × jwt.UUID)

/-- The call `context.WithValue(ctx, key, val)`. -/
def WithValue (ctx : Context) (key : String) (val : jwt.UUID) : Context := (key, val) :: ctx

/-- The call `ctx.Value(key)`; `none` is `nil`. -/
def Value (ctx : Context) (key : String) : Option jwt.UUID := ctx.lookup key

end context

namespace http

/-- The constant `http.StatusOK`. -/
def StatusOK : Nat := 200

/-- The constant `http.StatusCreated`. -/
def StatusCreated : Nat := 201

/-- The constant `http.StatusTemporaryRedirect`. -/
def StatusTemporaryRedirect : Nat := 307

/-- The constant `http.StatusBadRequest`. -/
def StatusBadRequest : Nat := 400

/-- The constant `http.StatusUnauthorized`. -/
def StatusUnauthorized : Nat := 401

/-- The constant `http.StatusInternalServerError`. -/
def StatusInternalServerError : Nat := 500

/-- The first value stored under a key, or the empty string: `Header.Get`,
`URL.Query().Get` and `PathValue`. -/
def Get (kv : List (String × String)) (key : String) : String := (kv.lookup key).getD ""

/-- The parts of an `*http.Request` that the handlers read. -/
structure Request where
  Header : List (String × String)
  Path : List (String × String)
  Query : List (String × String)
  Body : String
  ctx : context.Context
  deriving DecidableEq, Repr

/-- The call `r.WithContext(ctx)`. -/
def Request.WithContext (r : Request) (ctx : context.Context) : Request := { r with ctx := ctx }

/-- An `http.ResponseWriter`: the header map as it stood when the status line was
sent, the status (`none` until it is sent) and the body written so far. -/
structure ResponseWriter where
  header : List (String × String)
  status : Option Nat
  body : String
  deriving DecidableEq, Repr

/-- The writer of a request that has not been answered yet. -/
def ResponseWriter.fresh : ResponseWriter := ⟨[], none, ""⟩

/-- The call `w.Header().Set(key, value)`; it has no effect on the response once the
status line is sent. -/
def ResponseWriter.Set (w : ResponseWriter) (key value : String) : ResponseWriter :=
  match w.status with
  | none => { w with header := (key, value) :: w.header.filter (fun kv => kv.1 != key) }
  | some _ => w

/-- The call `w.WriteHeader(code)`; a second call is ignored. -/
def ResponseWriter.WriteHeader (w : ResponseWriter) (code : Nat) : ResponseWriter :=
  match w.status with
  | none => { w with status := some code }
  | some _ => w

/-- The call `w.Write(text)`, which sends status 200 first when none was sent. -/
def ResponseWriter.Write (w : ResponseWriter) (text : String) : ResponseWriter :=
  { w.WriteHeader StatusOK with body := w.body ++ text }

/-- The call `http.Error(w, error, code)`. -/
def Error (w : ResponseWriter) (error : String) (code : Nat) : ResponseWriter :=
  (((w.Set "Content-Type" "text/plain; charset=utf-8").Set "X-Content-Type-Options"
    "nosniff").WriteHeader code).Write (error ++ "\n")

/-- The call `http.Redirect(w, r, url, code)`: the target goes into the `Location`
header as it is passed (the escaping of non-ASCII bytes, the resolution of a relative
path and the short HTML body that `net/http` adds are left out). -/
def Redirect (w : ResponseWriter) (url : String) (code : Nat) : ResponseWriter :=
  (w.Set "Location" url).WriteHeader code

/-- A handler over the outside state `α`. -/
abbrev HandlerFunc (α : Type) := ResponseWriter → Request → α → ResponseWriter × α

/-- The handler `next` with a count of its invocations kept next to the state. -/
def HandlerFunc.counted {α : Type} (next : HandlerFunc α) : HandlerFunc (α × Nat) :=
  fun w r a => ((next w r a.1).1, (next w r a.1).2, a.2 + 1)

end http

namespace user

/-- Modelled from the spec: the generated row type `User` is not under `src/`.  The spec
gives a User a unique id, an email and a creation timestamp; the handlers read `ID` and
`Email`. -/
structure User where
  ID : jwt.UUID
  Email : String
  CreatedAt : jwt.Timestamptz
  deriving DecidableEq, Repr

/-- The zero value `User{}`. -/
def User.zero : User := ⟨0, "", ⟨0, 0, false⟩⟩

end user

namespace jwt

/-! ## The middleware (`internal/jwt/middleware.go`) -/

/-- The constant `UserContextKey`. -/
def UserContextKey : String := "user"

/-- The interface `Verifier`. -/
structure Verifier where
  Parse : String → UUID × Option Error

/-- The struct `Middleware` (the logger is left out). -/
structure Middleware where
  verifier : Verifier

/-- The method `Middleware.HandlerFunc`. -/
def Middleware.HandlerFunc {α : Type} (m : Middleware) (next : http.HandlerFunc α) :
    http.HandlerFunc α :=
  fun w r a =>
    if http.Get r.Header "Authorization" == "" then
      (http.Error w "Unauthorized" http.StatusUnauthorized, a)
    else
      match m.verifier.Parse (http.Get r.Header "Authorization") with
      | (_, some _) => (http.Error w "Unauthorized" http.StatusUnauthorized, a)
      | (id, none) => next w (r.WithContext (context.WithValue r.ctx UserContextKey id)) a

/-! ## The refresh endpoint (`internal/jwt/handler.go`) -/

/-- The interface `jwtService` of `handler.go`, over the outside state `α`. -/
structure jwtService (α : Type) where
  Create : UUID → Timestamptz → α → (Jwt × Option Error) × α
  Update : UUID → Bool → α → (Jwt × Option Error) × α
  IsAvailable : UUID → α → (Jwt × Option Error) × α
  New : UUID → String → α → (String × Option Error) × α

/-- The interface `userService` of `handler.go`. -/
structure userService (α : Type) where
  GetByID : UUID → α → (user.User × Option Error) × α

/-- The struct `RefreshRequest`. -/
structure RefreshRequest where
  RefreshToken : String
  deriving DecidableEq, Repr

/-- The struct `RefreshResponse`. -/
structure RefreshResponse where
  AccessToken : String
  RefreshToken : String
  deriving DecidableEq, Repr

/-- The library calls of the handler, as parameters: `Decode body` is
`json.NewDecoder(r.Body).Decode(&req)`; `Struct` is `validator.Struct` for the tags
`required,uuid`; `Parse` is `uuid.Parse`; `uuidString` is `uuid.UUID.String`; `Encode resp` is
`json.NewEncoder(w).Encode(resp)`, as the text it writes and its error. -/
structure Wire where
  Decode : String → RefreshRequest × Option Error
  Struct : RefreshRequest → Option Error
  Parse : String → UUID × Option Error
  uuidString : UUID → String
  Encode : RefreshResponse → String × Option Error

/-- The struct `Handler` (the logger is left out; the validator is in `Wire`). -/
structure Handler (α : Type) where
  jwtService : jwtService α
  userService : userService α

/-- The method `Handler.Refresh`. -/
def Handler.Refresh {α : Type} (h : Handler α) (wire : Wire) : http.HandlerFunc α :=
  fun w r a =>
    match wire.Decode r.Body with
    | (_, some _) => (http.Error w "Invalid request body" http.StatusBadRequest, a)
    | (req, none) =>
      match wire.Struct req with
      | some _ => (http.Error w "Validation failed" http.StatusBadRequest, a)
      | none =>
        match wire.Parse req.RefreshToken with
        | (_, some _) => (http.Error w "Invalid refresh token format" http.StatusBadRequest, a)
        | (tokenID, none) =>
          match h.jwtService.IsAvailable tokenID a with
          | ((_, some _), a1) =>
            (http.Error w "Invalid or expired refresh token" http.StatusUnauthorized, a1)
          | ((newRefreshToken, none), a1) =>
            match h.userService.GetByID newRefreshToken.UserID a1 with
            | ((_, some _), a2) =>
              (http.Error w "Failed to create new access token"
                http.StatusInternalServerError, a2)
            | ((User, none), a2) =>
              match h.jwtService.New newRefreshToken.UserID User.Email a2 with
              | ((_, some _), a3) =>
                (http.Error w "Failed to create new access token"
                  http.StatusInternalServerError, a3)
              | ((newAccessToken, none), a3) =>
                match wire.Encode ⟨newAccessToken, wire.uuidString newRefreshToken.ID⟩ with
                | (text, some _) =>
                  (http.Error
                    (((w.Set "Content-Type" "application/json").WriteHeader
                      http.StatusOK).Write text)
                    "Failed to encode response" http.StatusInternalServerError, a3)
                | (text, none) =>
                  ((((w.Set "Content-Type" "application/json").WriteHeader
                    http.StatusOK).Write text), a3)

/-- The service `s` as `main.go` hands it to the handler, on an outside state made of
the service's store and the rest: rotation at the clock `now`, minting with the token
library `lib` at the clock `issue` with the token id `jwtID`. -/
def Service.wired {σ υ : Type} (s : Service σ) (lib : Library) (now : Clock)
    (issue : IssueClock) (jwtID : UUID) : jwtService (σ × υ) where
  Create := fun userID time a => ((s.Create userID time a.1).1, (s.Create userID time a.1).2, a.2)
  Update := fun id flag a => ((s.Update id flag a.1).1, (s.Update id flag a.1).2, a.2)
  IsAvailable := fun id a => ((s.IsAvailable now id a.1).1, (s.IsAvailable now id a.1).2, a.2)
  New := fun id email a => (s.New lib issue jwtID id email, a)

/-- A wire that knows one request: the body `body` decodes to the refresh token
`token`, which is the text of the id `id`; the response is written as JSON. -/
def Wire.single (body token : String) (id : UUID) : Wire where
  Decode := fun b =>
    if b = body then (⟨token⟩, none) else (⟨""⟩, some (Error.upstream "unexpected EOF"))
  Struct := fun req =>
    if req.RefreshToken = "" then some (Error.upstream "RefreshToken is required") else none
  Parse := fun t =>
    if t = token then (id, none) else (0, some (Error.upstream "invalid UUID format"))
  uuidString := fun u => if u = id then token else toString u
  Encode := fun resp =>
    ("\x7b\"access_token\":\"" ++ resp.AccessToken ++ "\",\"refresh_token\":\"" ++
      resp.RefreshToken ++ "\"\x7d\n", none)

/-- A user service over a state that it does not use, answering every lookup with the
same result. -/
def userService.fixed {α : Type} (result : user.User × Option Error) : userService α where
  GetByID := fun _ a => (result, a)

end jwt

/-! ## The OAuth2 flows (`internal/auth/handler.go`) -/

namespace auth

open jwt (UUID Time Timestamptz Jwt Error Minute)

/-- The struct `oauthprovider.UserInfo`, as `GoogleConfig.GetUserInfo` fills it. -/
structure UserInfo where
  ID : String
  Email : String
  Name : String
  deriving DecidableEq, Repr

/-- The interface `jwtService` of the `auth` package. -/
structure jwtService (α : Type) where
  New : UUID → String → α → (String × Option Error) × α

/-- The interface `userService` of the `auth` package. -/
structure userService (α : Type) where
  Create : String → α → (user.User × Option Error) × α
  ExistsByEmail : String → α → (Bool × Option Error) × α
  GetByEmail : String → α → (user.User × Option Error) × α

/-- The interface `OAuthProvider`; an `*oauth2.Token` is a string, and `AuthCodeURL state`
is `Config().AuthCodeURL(state, oauth2.AccessTypeOffline)`. -/
structure OAuthProvider (α : Type) where
  Name : String
  AuthCodeURL : String → String
  Exchange : String → α → (String × Option Error) × α
  GetUserInfo : String → α → (UserInfo × Option Error) × α

/-- The interface `refreshTokenService`. -/
structure refreshTokenService (α : Type) where
  Create : UUID → Timestamptz → α → (Jwt × Option Error) × α

/-- The struct `Handler` (the logger is left out); `provider name` is the map lookup
`h.provider[name]`, and `uuidString` is `uuid.UUID.String`. -/
structure Handler (α : Type) where
  baseURL : String
  jwtService : jwtService α
  userService : userService α
  provider : String → Option (OAuthProvider α)
  rtService : refreshTokenService α
  uuidString : UUID → String

/-- The method `Handler.Login`. -/
def Handler.Login {α : Type} (h : Handler α) : http.HandlerFunc α :=
  fun w r a =>
    match h.provider (http.Get r.Path "provider") with
    | none => (http.Error w "Unsupported OAuth2 provider" http.StatusBadRequest, a)
    | some provider =>
      let redirectTo :=
        if http.Get r.Query "c" == "" then h.baseURL ++ "/api/oauth/debug/token"
        else http.Get r.Query "c"
      let redirectTo :=
        if http.Get r.Query "r" != "" then redirectTo ++ "?r=" ++ http.Get r.Query "r"
        else redirectTo
      (http.Redirect w (provider.AuthCodeURL redirectTo) http.StatusTemporaryRedirect, a)

/-- Lines 151 to 193 of `Handler.Callback`: what it does once `dbUser` is known; `now` is
the reading of `time.Now()` on line 179. -/
def Handler.issue {α : Type} (h : Handler α) (now : Time) (redirectTo : String)
    (userInfo : UserInfo) (dbUser : user.User) : http.ResponseWriter → α →
    http.ResponseWriter × α :=
  fun w a =>
    match h.jwtService.New dbUser.ID dbUser.Email a with
    | ((_, some err), a1) =>
      (http.Redirect w (redirectTo ++ "?error=" ++ err.text) http.StatusTemporaryRedirect, a1)
    | ((jwtToken, none), a1) =>
      match h.userService.ExistsByEmail userInfo.Email a1 with
      | ((_, some err), a2) =>
        (http.Redirect w (redirectTo ++ "?error=" ++ err.text) http.StatusTemporaryRedirect, a2)
      | ((exist, none), a2) =>
        match (if !exist then h.userService.Create userInfo.Email a2
            else ((user.User.zero, none), a2)) with
        | ((_, some _), a3) =>
          (http.Error w "Failed to create user" http.StatusInternalServerError, a3)
        | ((_, none), a3) =>
          match h.rtService.Create dbUser.ID ⟨now + 30 * Minute, 0, true⟩ a3 with
          | ((_, some err), a4) =>
            (http.Redirect w (redirectTo ++ "?error=" ++ err.text)
              http.StatusTemporaryRedirect, a4)
          | ((newRefreshToken, none), a4) =>
            (http.Redirect w
              (redirectTo ++ "?access_token=" ++ jwtToken ++ "&refresh_token=" ++
                h.uuidString newRefreshToken.ID)
              http.StatusTemporaryRedirect, a4)

/-- The method `Handler.Callback`; `now` is the reading of `time.Now()` on line 179. -/
def Handler.Callback {α : Type} (h : Handler α) (now : Time) : http.HandlerFunc α :=
  fun w r a =>
    match h.provider (http.Get r.Path "provider") with
    | none => (http.Error w "Unsupported OAuth2 provider" http.StatusBadRequest, a)
    | some provider =>
      let redirectTo :=
        if http.Get r.Query "state" == "" then h.baseURL ++ "/api/oauth/debug/token"
        else http.Get r.Query "state"
      if http.Get r.Query "error" != "" then
        (http.Redirect w (redirectTo ++ "?error=" ++ http.Get r.Query "error")
          http.StatusTemporaryRedirect, a)
      else if http.Get r.Query "code" == "" then
        (http.Redirect w (redirectTo ++ "?error=" ++ "missing_code")
          http.StatusTemporaryRedirect, a)
      else
        match provider.Exchange (http.Get r.Query "code") a with
        | ((_, some err), a1) =>
          (http.Redirect w (redirectTo ++ "?error=" ++ err.text)
            http.StatusTemporaryRedirect, a1)
        | ((token, none), a1) =>
          match provider.GetUserInfo token a1 with
          | ((_, some err), a2) =>
            (http.Redirect w (redirectTo ++ "?error=" ++ err.text)
              http.StatusTemporaryRedirect, a2)
          | ((userInfo, none), a2) =>
            match h.userService.GetByEmail userInfo.Email a2 with
            | ((_, some _), a3) =>
              match h.userService.Create userInfo.Email a3 with
              | ((_, some err), a4) =>
                (http.Redirect w (redirectTo ++ "?error=" ++ err.text)
                  http.StatusTemporaryRedirect, a4)
              | ((dbUser, none), a4) => h.issue now redirectTo userInfo dbUser w a4
            | ((dbUser, none), a3) => h.issue now redirectTo userInfo dbUser w a3

end auth

/-! ## The user store (`internal/user/service.go`) -/

namespace user

open jwt (UUID Timestamptz Error)

/-- The interface `Querier` of the `user` package, over a store of type `σ`. -/
structure Querier (σ : Type) where
  Create : String → σ → (User × Option Error) × σ
  ExistsByEmail : String → σ → (Bool × Option Error) × σ
  GetByEmail : String → σ → (User × Option Error) × σ
  GetByID : UUID → σ → (User × Option Error) × σ

/-- The struct `Service` (the logger is left out). -/
structure Service (σ : Type) where
  queries : Querier σ

/-- The method `Service.Create`. -/
def Service.Create {σ : Type} (s : Service σ) (email : String) (st : σ) :
    (User × Option Error) × σ :=
  match s.queries.Create email st with
  | ((_, some err), st1) => ((User.zero, some err), st1)
  | ((result, none), st1) => ((result, none), st1)

/-- The method `Service.ExistsByEmail`. -/
def Service.ExistsByEmail {σ : Type} (s : Service σ) (email : String) (st : σ) :
    (Bool × Option Error) × σ :=
  match s.queries.ExistsByEmail email st with
  | ((_, some err), st1) => ((false, some err), st1)
  | ((result, none), st1) => ((result, none), st1)

/-- The method `Service.GetByEmail`. -/
def Service.GetByEmail {σ : Type} (s : Service σ) (email : String) (st : σ) :
    (User × Option Error) × σ :=
  match s.queries.GetByEmail email st with
  | ((_, some err), st1) => ((User.zero, some err), st1)
  | ((result, none), st1) => ((result, none), st1)

/-- The method `Service.GetByID`. -/
def Service.GetByID {σ : Type} (s : Service σ) (id : UUID) (st : σ) :
    (User × Option Error) × σ :=
  match s.queries.GetByID id st with
  | ((_, some err), st1) => ((User.zero, some err), st1)
  | ((result, none), st1) => ((result, none), st1)

/-- What the storage layer decides on its own during one request: a failure to report
for each query (`none`: the query runs), and the id and creation time given to a row
inserted by `Create`. -/
structure Env where
  createFault : Option Error
  existsFault : Option Error
  getByEmailFault : Option Error
  getByIDFault : Option Error
  newID : UUID
  createdAt : Timestamptz
  deriving DecidableEq, Repr

/-- The environment in which no query fails and new rows get id `newID`. -/
def Env.ok (newID : UUID) : Env := ⟨none, none, none, none, newID, ⟨0, 0, true⟩⟩

/-- Modelled from the spec: the generated `Queries.Create` of the `user` package (and
its SQL) is not under `src/`.  A user has a "unique id" and an "email (unique,
case-sensitive as stored)", the uniqueness being "enforced at the storage boundary":
the insert fails, changing nothing, when the email or the generated id is taken. -/
def Queries.Create (e : Env) (email : String) (db : List User) :
    (User × Option Error) × List User :=
  match e.createFault with
  | some err => ((User.zero, some err), db)
  | none =>
    if db.any (fun u => u.Email == email) || db.any (fun u => u.ID == e.newID) then
      ((User.zero, some (Error.storage "duplicate key value violates unique constraint")), db)
    else ((⟨e.newID, email, e.createdAt⟩, none), db ++ [⟨e.newID, email, e.createdAt⟩])

/-- Modelled from the spec: the generated `Queries.ExistsByEmail` is not under `src/`
("exists-by-email"): whether a row has that email; the table is not changed. -/
def Queries.ExistsByEmail (e : Env) (email : String) (db : List User) :
    (Bool × Option Error) × List User :=
  match e.existsFault with
  | some err => ((false, some err), db)
  | none => ((db.any (fun u => u.Email == email), none), db)

/-- Modelled from the spec: the generated `Queries.GetByEmail` is not under `src/`
("get-by-email"): the first row with that email, or `pgx.ErrNoRows`. -/
def Queries.GetByEmail (e : Env) (email : String) (db : List User) :
    (User × Option Error) × List User :=
  match e.getByEmailFault with
  | some err => ((User.zero, some err), db)
  | none =>
    match db.find? (fun u => u.Email == email) with
    | some u => ((u, none), db)
    | none => ((User.zero, some Error.ErrNoRows), db)

/-- Modelled from the spec: the generated `Queries.GetByID` is not under `src/`
("get-by-id"): the first row with that id, or `pgx.ErrNoRows`. -/
def Queries.GetByID (e : Env) (id : UUID) (db : List User) :
    (User × Option Error) × List User :=
  match e.getByIDFault with
  | some err => ((User.zero, some err), db)
  | none =>
    match db.find? (fun u => u.ID == id) with
    | some u => ((u, none), db)
    | none => ((User.zero, some Error.ErrNoRows), db)

/-- The querier over the user table, as the storage layer behaves during one request. -/
def Queries (e : Env) : Querier (List User) where
  Create := Queries.Create e
  ExistsByEmail := Queries.ExistsByEmail e
  GetByEmail := Queries.GetByEmail e
  GetByID := Queries.GetByID e

/-- The service of `main.go`: `user.NewService(logger, userQuerier)`. -/
def NewService (e : Env) : Service (List User) := ⟨Queries e⟩

end user

/-! ## URLs as the receiver of a redirect reads them (`net/url`) -/

namespace url

/-- The pieces of a text between the occurrences of a separator. -/
def split (sep : Char) : List Char → List (List Char)
  | [] => [[]]
  | c :: cs =>
    if c = sep then [] :: split sep cs
    else
      match split sep cs with
      | [] => [[c]]
      | piece :: pieces => (c :: piece) :: pieces

/-- The query parameters of a URL: the text between the first `?` and a `#`, cut at
every `&`, each non-empty piece cut at its first `=` into name and value (the
percent-decoding of `net/url` is left out). -/
def Query (u : String) : List (String × String) :=
  (((split '&' (((u.data.takeWhile (fun c => c != '#')).dropWhile
      (fun c => c != '?')).drop 1)).filter (fun piece => !piece.isEmpty)).map
    (fun piece =>
      (String.mk (piece.takeWhile (fun c => c != '=')),
        String.mk ((piece.dropWhile (fun c => c != '=')).drop 1))))

end url

namespace jwt

/-- A user service on its own state `υ`, as the handler sees it on an outside state made
of the token store and that state. -/
def userService.onRest {σ υ : Type} (us : userService υ) : userService (σ × υ) where
  GetByID := fun id a => ((us.GetByID id a.2).1, a.1, (us.GetByID id a.2).2)

/-- The library cut down to one token, with the first check of its parser kept: a text
that is not made of three segments separated by `.` is reported as malformed; of the
texts with three segments it verifies `tok0` only, and reports the signature of every
other one as invalid (an error that matches `ErrTokenSignatureInvalid` and
`ErrSignatureInvalid`).  It signs the claims `c0` as `tok0` and nothing else. -/
def Library.compact (c0 : claims) (tok0 : String) : Library where
  SignedString := fun c _ =>
    if c = c0 then (tok0, none) else ("", some (Error.library [] "signing failed"))
  verify := fun tok _ =>
    if (url.split '.' tok.data).length ≠ 3 then
      (c0, some (Error.library [Sentinel.ErrTokenMalformed]
        "token is malformed: token contains an invalid number of segments"))
    else if tok = tok0 then (c0, none)
    else
      (c0, some (Error.library [Sentinel.ErrTokenSignatureInvalid, Sentinel.ErrSignatureInvalid]
        "token signature is invalid: signature is invalid"))
  uuidString := fun u => toString u

end jwt

/-! ## The identity fetch (`internal/auth/oauthprovider/google.go`) -/

namespace oauthprovider

open jwt (Error)

/-- The struct `googleUserResponse`. -/
structure googleUserResponse where
  Sub : String
  Name : String
  GivenName : String
  FamilyName : String
  Picture : String
  Email : String
  EmailVerified : Bool
  Locale : String
  deriving DecidableEq, Repr

/-- The fields of an `*http.Response` that a caller can read after `client.Get`. -/
structure Response where
  StatusCode : Nat
  Body : String
  deriving DecidableEq, Repr

/-- What `GetUserInfo` calls outside the repository: `Get token url` is
`g.config.Client(ctx, token).Get(url)`, and `Decode body` is
`json.NewDecoder(body).Decode` into a zero `googleUserResponse`. -/
structure Client where
  Get : String → String → Response × Option Error
  Decode : String → googleUserResponse × Option Error

/-- The method `GoogleConfig.GetUserInfo` (lines 54 to 77); the status code of the
response is read nowhere. -/
def GoogleConfig.GetUserInfo (c : Client) (token : String) : auth.UserInfo × Option Error :=
  match c.Get token "https://www.googleapis.com/oauth2/v3/userinfo" with
  | (_, some err) => (⟨"", "", ""⟩, some err)
  | (resp, none) =>
    match c.Decode resp.Body with
    | (_, some err) => (⟨"", "", ""⟩, some err)
    | (userInfo, none) => (⟨userInfo.Sub, userInfo.Email, userInfo.Name⟩, none)

end oauthprovider

namespace auth

open jwt (UUID Time Timestamptz Jwt Error Minute)

/-- The calls of one request that leave the process, with what they answer: the
provider's `AuthCodeURL`, `Exchange` and `GetUserInfo`, the user store, the token store,
the token library and the clock of `Service.New`, and the value of `uuid.New()`. -/
structure Env where
  authCodeURL : String → String
  exchange : String → String × Option Error
  userinfo : String → UserInfo × Option Error
  users : user.Env
  tokens : jwt.Env
  lib : jwt.Library
  issue : jwt.IssueClock
  jwtID : UUID

/-- The handler of `main.go`, `auth.NewHandler(logger, baseURL, jwtService, userService,
jwtService)` with the one provider "google", on an outside state made of the user table
and the refresh-token table. -/
def NewHandler (baseURL : String) (e : Env) : Handler (List user.User × List Jwt) where
  baseURL := baseURL
  jwtService :=
    ⟨fun id email a => ((jwt.NewService e.tokens).New e.lib e.issue e.jwtID id email, a)⟩
  userService :=
    ⟨fun email a =>
        (((user.NewService e.users).Create email a.1).1,
          ((user.NewService e.users).Create email a.1).2, a.2),
      fun email a =>
        (((user.NewService e.users).ExistsByEmail email a.1).1,
          ((user.NewService e.users).ExistsByEmail email a.1).2, a.2),
      fun email a =>
        (((user.NewService e.users).GetByEmail email a.1).1,
          ((user.NewService e.users).GetByEmail email a.1).2, a.2)⟩
  provider := fun name =>
    if name = "google" then
      some ⟨"google", e.authCodeURL, fun code a => (e.exchange code, a),
        fun token a => (e.userinfo token, a)⟩
    else none
  rtService :=
    ⟨fun userID time a =>
      (((jwt.NewService e.tokens).Create userID time a.2).1, a.1,
        ((jwt.NewService e.tokens).Create userID time a.2).2)⟩
  uuidString := e.lib.uuidString

/-- An environment in which no call fails: the provider answers every code with the
identity of `email`, the user store gives a new user the id `userID`, the token store
gives a new record the id `tokenID`, and the token library signs the claims of that
user as `tok`. -/
def Env.reliable (email : String) (userID tokenID : UUID) (tok : String) : Env where
  authCodeURL := fun state => "https://accounts.google.com/o/oauth2/auth?state=" ++ state
  exchange := fun _ => ("ya29", none)
  userinfo := fun _ => (⟨"sub", email, "A"⟩, none)
  users := user.Env.ok userID
  tokens := jwt.Env.ok tokenID
  lib := jwt.Library.single
    ⟨"This is a Backend-Training JWT token", userID, email, "Backend-Training",
      "Backend-Training Token", jwt.NewNumericDate (100 * jwt.Second + 15 * Minute),
      jwt.NewNumericDate (100 * jwt.Second), jwt.NewNumericDate (100 * jwt.Second), "5"⟩ tok
  issue := ⟨100 * jwt.Second, 100 * jwt.Second, 100 * jwt.Second⟩
  jwtID := 5

/-- The handler `h` with the refresh-token service `s` of the `jwt` package in the place
of `rtService`, as `main.go` passes it, on an outside state made of the state of `h`, the
token store of `s` and the list of the calls that `s` issues to its querier; the other
services of `h` leave the token store and that list alone. -/
def Handler.withTokens {α σ : Type} (h : Handler α) (s : jwt.Service σ) :
    Handler (α × σ × List jwt.Call) where
  baseURL := h.baseURL
  jwtService :=
    ⟨fun id email a => ((h.jwtService.New id email a.1).1, (h.jwtService.New id email a.1).2, a.2)⟩
  userService :=
    ⟨fun email a =>
        ((h.userService.Create email a.1).1, (h.userService.Create email a.1).2, a.2),
      fun email a =>
        ((h.userService.ExistsByEmail email a.1).1, (h.userService.ExistsByEmail email a.1).2,
          a.2),
      fun email a =>
        ((h.userService.GetByEmail email a.1).1, (h.userService.GetByEmail email a.1).2, a.2)⟩
  provider := fun name =>
    match h.provider name with
    | none => none
    | some p =>
      some ⟨p.Name, p.AuthCodeURL,
        fun code a => ((p.Exchange code a.1).1, (p.Exchange code a.1).2, a.2),
        fun token a => ((p.GetUserInfo token a.1).1, (p.GetUserInfo token a.1).2, a.2)⟩
  rtService :=
    ⟨fun userID time a => ((s.traced.Create userID time a.2).1, a.1,
      (s.traced.Create userID time a.2).2)⟩
  uuidString := h.uuidString

/-- The target that `Handler.Callback` redirects to, before anything is appended: the
`state` of the request, or the debug endpoint when the state is empty (lines 102 to
106). -/
def target (baseURL : String) (r : http.Request) : String :=
  if http.Get r.Query "state" == "" then baseURL ++ "/api/oauth/debug/token"
  else http.Get r.Query "state"

/-- A callback has succeeded when its response sends the browser to the target with the
tokens appended. -/
def succeeded (baseURL : String) (r : http.Request) (resp : http.ResponseWriter) : Prop :=
  ∃ rest : String,
    http.Get resp.header "Location" = target baseURL r ++ "?access_token=" ++ rest

end auth

/-! ## Bookmarks (`internal/bookmark/service.go`) -/

namespace bookmark

open jwt (UUID Error)

/-- The struct `ExistParams`. -/
structure ExistParams where
  UserID : UUID
  FormID : UUID
  deriving DecidableEq, Repr

/-- The struct `DeleteParams`. -/
structure DeleteParams where
  UserID : UUID
  FormID : UUID
  deriving DecidableEq, Repr

/-- The struct `CreateParams`. -/
structure CreateParams where
  UserID : UUID
  FormID : UUID
  deriving DecidableEq, Repr

/-- The methods of the interface `Querier` that `ToggleBookmark` calls, over a store of
type `σ`; `β` is the generated row type `Bookmark`, of which nothing is read. -/
structure Querier (σ β : Type) where
  Create : CreateParams → σ → (β × Option Error) × σ
  Delete : DeleteParams → σ → Option Error × σ
  Exist : ExistParams → σ → (Bool × Option Error) × σ

/-- The struct `Service` (the logger is left out). -/
structure Service (σ β : Type) where
  queries : Querier σ β

/-- The method `Service.ToggleBookmark`. -/
def Service.ToggleBookmark {σ β : Type} (s : Service σ β) (userID formID : UUID) (st : σ) :
    (Bool × Option Error) × σ :=
  match s.queries.Exist ⟨userID, formID⟩ st with
  | ((_, some err), st1) => ((false, some err), st1)
  | ((exists_, none), st1) =>
    if exists_ then
      match s.queries.Delete ⟨userID, formID⟩ st1 with
      | (some err, st2) => ((false, some err), st2)
      | (none, st2) => ((false, none), st2)
    else
      match s.queries.Create ⟨userID, formID⟩ st1 with
      | ((_, some err), st2) => ((false, some err), st2)
      | ((_, none), st2) => ((true, none), st2)

/-- One call of a `Querier` method, with its argument. -/
inductive Call where
  | Create (arg : CreateParams)
  | Delete (arg : DeleteParams)
  | Exist (arg : ExistParams)
  deriving DecidableEq, Repr

/-- A querier that behaves as `q` and also appends every call it receives to a list
kept next to the store. -/
def Querier.traced {σ β : Type} (q : Querier σ β) : Querier (σ × List Call) β where
  Create := fun arg st => ((q.Create arg st.1).1, (q.Create arg st.1).2, st.2 ++ [Call.Create arg])
  Delete := fun arg st => ((q.Delete arg st.1).1, (q.Delete arg st.1).2, st.2 ++ [Call.Delete arg])
  Exist := fun arg st => ((q.Exist arg st.1).1, (q.Exist arg st.1).2, st.2 ++ [Call.Exist arg])

end bookmark

/-! ## Forms (`internal/form/handler.go`) -/

namespace pgtype

/-- The struct `pgtype.Text` of pgx v5. -/
structure Text where
  String : String
  Valid : Bool
  deriving DecidableEq, Repr

end pgtype

namespace form

open jwt (UUID Time Timestamptz Error)

/-- The struct `Request`. -/
structure Request where
  Title : String
  Description : String
  deriving DecidableEq, Repr

/-- The struct `UpdateRequest`. -/
structure UpdateRequest where
  ID : String
  Title : String
  Description : String
  deriving DecidableEq, Repr

/-- The struct `Response`. -/
structure Response where
  ID : String
  Title : String
  Description : String
  IsBookmarked : Bool
  CreatedAt : Time
  deriving DecidableEq, Repr

/-- The generated row type `Form`, which is not under `src/`: its fields are the ones
the handler reads and the tests of `handler_test.go` fill in. -/
structure Form where
  ID : UUID
  Title : String
  Description : pgtype.Text
  AuthorID : pgtype.Text
  CreatedAt : Timestamptz
  deriving DecidableEq, Repr

/-- The interface `Store`, over the outside state `α`. -/
structure Store (α : Type) where
  Create : String → String → UUID → α → (Form × Option Error) × α
  List : α → (List Form × Option Error) × α
  Update : UUID → String → String → α → (Form × Option Error) × α
  Delete : UUID → α → Option Error × α
  IsBookmarked : UUID → UUID → α → (Bool × Option Error) × α

/-- The struct `Handler` (the logger is left out; the validator is `Struct` below). -/
structure Handler (α : Type) where
  store : Store α

/-- The library calls of the handlers whose results depend on JSON and on the text of
ids, as parameters: `Decode body` and `DecodeUpdate body` are
`json.NewDecoder(r.Body).Decode(&req)`, as the request left in `req` and the error;
`Parse` is `uuid.Parse`; `uuidString` is `uuid.UUID.String`; `Encode` and `EncodeList` are
`json.NewEncoder(w).Encode(resp)`, as the text written and the error. -/
structure Wire where
  Decode : String → Request × Option Error
  DecodeUpdate : String → UpdateRequest × Option Error
  Parse : String → UUID × Option Error
  uuidString : UUID → String
  Encode : Response → String × Option Error
  EncodeList : List Response → String × Option Error

/-- The call `h.validator.Struct(req)` for a `Request`: the tag `required` fails on an
empty string. -/
def Struct (req : Request) : Option Error :=
  if req.Title = "" || req.Description = "" then
    some (Error.upstream "Field validation failed on the 'required' tag")
  else none

/-- The call `h.validator.Struct(req)` for an `UpdateRequest`. -/
def StructUpdate (req : UpdateRequest) : Option Error :=
  if req.ID = "" || req.Title = "" || req.Description = "" then
    some (Error.upstream "Field validation failed on the 'required' tag")
  else none

/-- The method `Handler.Create`.  After a failed decode the handler writes its 400 and,
having no `return` there (lines 66 to 69), goes on with the request left in `req`, on
the writer `w1`. -/
def Handler.Create {α : Type} (h : Handler α) (wire : Wire) : http.HandlerFunc α :=
  fun w r a =>
    match wire.Decode r.Body with
    | (req, err) =>
      let w1 := match err with
        | some _ => http.Error w "Invalid request body" http.StatusBadRequest
        | none => w
      match Struct req with
      | some _ => (http.Error w1 "Validation failed" http.StatusBadRequest, a)
      | none =>
        match context.Value r.ctx jwt.UserContextKey with
        | none => (http.Error w1 "Invalid user context" http.StatusInternalServerError, a)
        | some token =>
          match h.store.Create req.Title req.Description token a with
          | ((_, some _), a1) =>
            (http.Error w1 "Failed to create form" http.StatusInternalServerError, a1)
          | ((newForm, none), a1) =>
            match wire.Encode ⟨wire.uuidString newForm.ID, newForm.Title,
                newForm.Description.String, false, newForm.CreatedAt.Time⟩ with
            | (text, some _) =>
              (http.Error
                (((w1.Set "Content-Type" "application/json").WriteHeader
                  http.StatusCreated).Write text)
                "Failed to encode response" http.StatusInternalServerError, a1)
            | (text, none) =>
              ((((w1.Set "Content-Type" "application/json").WriteHeader
                http.StatusCreated).Write text), a1)

/-- The loop of `Handler.List` (lines 120 to 134): the entries gathered so far and the
forms still to visit; `none` when a check fails. -/
def Handler.entries {α : Type} (h : Handler α) (wire : Wire) (userId : UUID) :
    List Form → List Response → α → Option (List Response) × α
  | [], resp, a => (some resp, a)
  | form :: rest, resp, a =>
    match h.store.IsBookmarked form.ID userId a with
    | ((_, some _), a1) => (none, a1)
    | ((bookmarked, none), a1) =>
      Handler.entries h wire userId rest
        (resp ++ [⟨wire.uuidString form.ID, form.Title, form.Description.String, bookmarked,
          form.CreatedAt.Time⟩]) a1

/-- The method `Handler.List`; `none` is the panic of the unchecked type assertion on
line 118 when the context holds no user id. -/
def Handler.List {α : Type} (h : Handler α) (wire : Wire) (w : http.ResponseWriter)
    (r : http.Request) (a : α) : Option (http.ResponseWriter × α) :=
  match h.store.List a with
  | ((_, some _), a1) =>
    some (http.Error w "Failed to list forms" http.StatusInternalServerError, a1)
  | ((forms, none), a1) =>
    match context.Value r.ctx jwt.UserContextKey with
    | none => none
    | some userId =>
      match h.entries wire userId forms [] a1 with
      | (none, a2) =>
        some (http.Error w "Failed to check bookmark" http.StatusInternalServerError, a2)
      | (some resp, a2) =>
        match wire.EncodeList resp with
        | (text, some _) =>
          some (http.Error
            (((w.Set "Content-Type" "application/json").WriteHeader http.StatusOK).Write text)
            "Failed to encode response" http.StatusInternalServerError, a2)
        | (text, none) =>
          some ((((w.Set "Content-Type" "application/json").WriteHeader
            http.StatusOK).Write text), a2)

/-- The method `Handler.Update`; the error of `uuid.Parse` is overwritten before it is
read (lines 161 and 162). -/
def Handler.Update {α : Type} (h : Handler α) (wire : Wire) : http.HandlerFunc α :=
  fun w r a =>
    match wire.DecodeUpdate r.Body with
    | (_, some _) => (http.Error w "Invalid request body" http.StatusBadRequest, a)
    | (req, none) =>
      match StructUpdate req with
      | some _ => (http.Error w "Validation failed" http.StatusBadRequest, a)
      | none =>
        match h.store.Update (wire.Parse req.ID).1 req.Title req.Description a with
        | ((_, some _), a1) =>
          (http.Error w "Failed to update form" http.StatusInternalServerError, a1)
        | ((updateForm, none), a1) =>
          match wire.Encode ⟨wire.uuidString updateForm.ID, updateForm.Title,
              updateForm.Description.String, false, updateForm.CreatedAt.Time⟩ with
          | (text, some _) =>
            (http.Error
              (((w.Set "Content-Type" "application/json").WriteHeader http.StatusOK).Write text)
              "Failed to encode response" http.StatusInternalServerError, a1)
          | (text, none) =>
            ((((w.Set "Content-Type" "application/json").WriteHeader
              http.StatusOK).Write text), a1)

/-- A store with a count of the calls of `Create` kept next to the state. -/
def Store.counted {α : Type} (st : Store α) : Store (α × Nat) where
  Create := fun name description authorId a =>
    ((st.Create name description authorId a.1).1,
      (st.Create name description authorId a.1).2, a.2 + 1)
  List := fun a => ((st.List a.1).1, (st.List a.1).2, a.2)
  Update := fun id name description a =>
    ((st.Update id name description a.1).1, (st.Update id name description a.1).2, a.2)
  Delete := fun id a => ((st.Delete id a.1).1, (st.Delete id a.1).2, a.2)
  IsBookmarked := fun formId userId a =>
    ((st.IsBookmarked formId userId a.1).1, (st.IsBookmarked formId userId a.1).2, a.2)

end form

namespace jwt

/-! ## The branches of `Service.IsAvailable`, for any querier -/

section generic
variable {σ : Type} (s : Service σ) (now : Clock) (id : UUID)

theorem Service.IsAvailable_lookup_err {st st1 : σ} {r : Jwt} {err : Error}
    (h : s.queries.IsAvailable id st = ((r, some err), st1)) :
    s.IsAvailable now id st = ((Jwt.zero, some err), st1) := by
  simp only [Service.IsAvailable, h]

theorem Service.IsAvailable_used {st st1 : σ} {r : Jwt}
    (h : s.queries.IsAvailable id st = ((r, none), st1)) (hr : r.IsAvailable = false) :
    s.IsAvailable now id st =
      ((Jwt.zero, some (Error.errorsNew "refresh token already used")), st1) := by
  simp [Service.IsAvailable, h, hr]

theorem Service.IsAvailable_expired {st st1 : σ} {r : Jwt}
    (h : s.queries.IsAvailable id st = ((r, none), st1)) (hr : r.IsAvailable = true)
    (hx : r.ExpirationTime.Time < now.check) :
    s.IsAvailable now id st =
      ((Jwt.zero, some (Error.errorsNew "refresh token expired")), (s.Update id false st1).2) := by
  simp [Service.IsAvailable, h, hr, hx]

theorem Service.IsAvailable_update_err {st st1 st2 : σ} {r u : Jwt} {err : Error}
    (h : s.queries.IsAvailable id st = ((r, none), st1)) (hr : r.IsAvailable = true)
    (hx : ¬ r.ExpirationTime.Time < now.check)
    (hu : s.queries.Update ⟨id, false⟩ st1 = ((u, some err), st2)) :
    s.IsAvailable now id st = ((Jwt.zero, some err), st2) := by
  simp [Service.IsAvailable, Service.Update, h, hr, hx, hu]

theorem Service.IsAvailable_create_err {st st1 st2 st3 : σ} {r u c : Jwt} {err : Error}
    (h : s.queries.IsAvailable id st = ((r, none), st1)) (hr : r.IsAvailable = true)
    (hx : ¬ r.ExpirationTime.Time < now.check)
    (hu : s.queries.Update ⟨id, false⟩ st1 = ((u, none), st2))
    (hc : s.queries.Create ⟨r.UserID, ⟨now.issue + 30 * Minute, 0, true⟩⟩ st2 =
      ((c, some err), st3)) :
    s.IsAvailable now id st = ((Jwt.zero, some err), st3) := by
  simp [Service.IsAvailable, Service.Update, Service.Create, h, hr, hx, hu, hc]

theorem Service.IsAvailable_create_ok {st st1 st2 st3 : σ} {r u c : Jwt}
    (h : s.queries.IsAvailable id st = ((r, none), st1)) (hr : r.IsAvailable = true)
    (hx : ¬ r.ExpirationTime.Time < now.check)
    (hu : s.queries.Update ⟨id, false⟩ st1 = ((u, none), st2))
    (hc : s.queries.Create ⟨r.UserID, ⟨now.issue + 30 * Minute, 0, true⟩⟩ st2 =
      ((c, none), st3)) :
    s.IsAvailable now id st = ((c, none), st3) := by
  simp [Service.IsAvailable, Service.Update, Service.Create, h, hr, hx, hu, hc]

end generic

theorem find_some {db : List Jwt} {id : UUID} {r : Jwt}
    (h : db.find? (fun x => x.ID == id) = some r) : r.ID = id ∧ r ∈ db := by
  have h1 := List.find?_some h
  have h2 := List.mem_of_find?_eq_some h
  exact ⟨by simpa using h1, h2⟩

theorem find_none {db : List Jwt} {id : UUID} :
    db.find? (fun x => x.ID == id) = none ↔ ∀ r ∈ db, r.ID ≠ id := by
  simp [List.find?_eq_none]

theorem any_invalidateAll (id n : UUID) (db : List Jwt) :
    (invalidateAll id db).any (fun x => x.ID == n) = db.any (fun x => x.ID == n) := by
  induction db with
  | nil => rfl
  | cons a t ih =>
    simp only [invalidateAll, List.map_cons, List.any_cons] at ih ⊢
    rw [ih]
    by_cases h : a.ID = id <;> simp [h, invalidated]

section table
variable (e : Env)

theorem lookup_fault {err : Error} (h : e.lookupFault = some err) (id : UUID) (db : List Jwt) :
    (NewService e).queries.IsAvailable id db = ((Jwt.zero, some err), db) := by
  simp [NewService, Queries, Queries.IsAvailable, h]

theorem lookup_missing (h : e.lookupFault = none) {id : UUID} {db : List Jwt}
    (hf : db.find? (fun x => x.ID == id) = none) :
    (NewService e).queries.IsAvailable id db = ((Jwt.zero, some Error.ErrNoRows), db) := by
  simp [NewService, Queries, Queries.IsAvailable, h, hf]

theorem lookup_found (h : e.lookupFault = none) {id : UUID} {db : List Jwt} {r : Jwt}
    (hf : db.find? (fun x => x.ID == id) = some r) :
    (NewService e).queries.IsAvailable id db = ((r, none), db) := by
  simp [NewService, Queries, Queries.IsAvailable, h, hf]

theorem update_fault {err : Error} (h : e.updateFault = some err) (arg : UpdateParams)
    (db : List Jwt) :
    (NewService e).queries.Update arg db = ((Jwt.zero, some err), db) := by
  simp [NewService, Queries, Queries.Update, h]

theorem update_found (h : e.updateFault = none) {id : UUID} {db : List Jwt} {r : Jwt}
    (hf : db.find? (fun x => x.ID == id) = some r) :
    (NewService e).queries.Update ⟨id, false⟩ db = ((invalidated r, none), invalidateAll id db) := by
  simp [NewService, Queries, Queries.Update, h, hf, invalidated, invalidateAll]

theorem create_fault {err : Error} (h : e.createFault = some err) (arg : CreateParams)
    (db : List Jwt) :
    (NewService e).queries.Create arg db = ((Jwt.zero, some err), db) := by
  simp [NewService, Queries, Queries.Create, h]

theorem create_taken (h : e.createFault = none) (arg : CreateParams) {db : List Jwt}
    (hn : db.any (fun x => x.ID == e.newID) = true) :
    (NewService e).queries.Create arg db =
      ((Jwt.zero, some (Error.storage "duplicate key value violates unique constraint")), db) := by
  simp only [NewService, Queries, Queries.Create, h, hn, if_true]

theorem create_fresh (h : e.createFault = none) (arg : CreateParams) {db : List Jwt}
    (hn : db.any (fun x => x.ID == e.newID) = false) :
    (NewService e).queries.Create arg db =
      ((⟨e.newID, arg.UserID, arg.ExpirationTime, true⟩, none),
        db ++ [⟨e.newID, arg.UserID, arg.ExpirationTime, true⟩]) := by
  simp only [NewService, Queries, Queries.Create, h, hn]
  simp

end table

theorem table_success {e : Env} {now : Clock} {id : UUID} {db db1 : List Jwt} {out : Jwt}
    (h : (NewService e).IsAvailable now id db = ((out, none), db1)) :
    ∃ r, e.lookupFault = none ∧ e.updateFault = none ∧ e.createFault = none ∧
      db.find? (fun x => x.ID == id) = some r ∧ r.IsAvailable = true ∧
      ¬ r.ExpirationTime.Time < now.check ∧
      db.any (fun x => x.ID == e.newID) = false ∧
      out = ⟨e.newID, r.UserID, ⟨now.issue + 30 * Minute, 0, true⟩, true⟩ ∧
      db1 = invalidateAll id db ++ [out] := by
  rcases hl : e.lookupFault with _ | err
  swap
  · rw [Service.IsAvailable_lookup_err _ now id (lookup_fault e hl id db)] at h
    simp at h
  rcases hf : db.find? (fun x => x.ID == id) with _ | r
  · rw [Service.IsAvailable_lookup_err _ now id (lookup_missing e hl hf)] at h
    simp at h
  have hlook := lookup_found e hl hf
  rcases ha : r.IsAvailable with _ | _
  · rw [Service.IsAvailable_used _ now id hlook ha] at h
    simp at h
  by_cases hx : r.ExpirationTime.Time < now.check
  · rw [Service.IsAvailable_expired _ now id hlook ha hx] at h
    simp at h
  rcases hu : e.updateFault with _ | err
  swap
  · rw [Service.IsAvailable_update_err _ now id hlook ha hx (update_fault e hu _ db)] at h
    simp at h
  have hupd := update_found e hu hf
  rcases hc : e.createFault with _ | err
  swap
  · rw [Service.IsAvailable_create_err _ now id hlook ha hx hupd (create_fault e hc _ _)] at h
    simp at h
  rcases hn : db.any (fun x => x.ID == e.newID) with _ | _
  swap
  · have hn2 := (any_invalidateAll id e.newID db).trans hn
    rw [Service.IsAvailable_create_err _ now id hlook ha hx hupd (create_taken e hc _ hn2)] at h
    simp at h
  have hn2 := (any_invalidateAll id e.newID db).trans hn
  rw [Service.IsAvailable_create_ok _ now id hlook ha hx hupd (create_fresh e hc _ hn2)] at h
  simp only [Prod.mk.injEq, and_true] at h
  refine ⟨r, ?_, ?_, ?_, ?_, ?_, hx, ?_, h.1.symm, by rw [← h.2, ← h.1]⟩ <;>
    first | assumption | rfl

/-! ## Rows that stay unavailable -/

theorem unavailable_find {db : List Jwt} {id : UUID} (h : unavailable db id) :
    ∃ r, db.find? (fun x => x.ID == id) = some r ∧ r.IsAvailable = false := by
  obtain ⟨⟨r0, hr0, hid⟩, hall⟩ := h
  rcases hf : db.find? (fun x => x.ID == id) with _ | r
  · exact absurd hid (find_none.mp hf r0 hr0)
  · obtain ⟨h1, h2⟩ := find_some hf
    exact ⟨r, hf, hall r h2 h1⟩

theorem unavailable_call {db : List Jwt} {id : UUID} (h : unavailable db id) (e : Env)
    (now : Clock) :
    ((NewService e).IsAvailable now id db).1.1 = Jwt.zero ∧
    ((NewService e).IsAvailable now id db).1.2 ≠ none ∧
    ((NewService e).IsAvailable now id db).2 = db ∧
    (e.lookupFault = none → ((NewService e).IsAvailable now id db).1.2 =
      some (Error.errorsNew "refresh token already used")) := by
  obtain ⟨r, hf, hr⟩ := unavailable_find h
  rcases hl : e.lookupFault with _ | err
  · rw [Service.IsAvailable_used _ now id (lookup_found e hl hf) hr]
    simp
  · rw [Service.IsAvailable_lookup_err _ now id (lookup_fault e hl id db)]
    simp

theorem mem_invalidateAll {id : UUID} {db : List Jwt} {x : Jwt} (h : x ∈ invalidateAll id db) :
    ∃ y ∈ db, y.ID = x.ID ∧ (x = y ∨ x = invalidated y) := by
  simp only [invalidateAll, List.mem_map] at h
  obtain ⟨y, hy, hxy⟩ := h
  by_cases hc : y.ID = id
  · simp [hc] at hxy
    exact ⟨y, hy, by rw [← hxy]; rfl, Or.inr hxy.symm⟩
  · simp [hc] at hxy
    exact ⟨y, hy, by rw [hxy], Or.inl hxy.symm⟩

theorem stored_invalidateAll {id id2 : UUID} {db : List Jwt} (h : stored db id) :
    stored (invalidateAll id2 db) id := by
  obtain ⟨r, hr, hid⟩ := h
  by_cases hc : r.ID = id2
  · refine ⟨invalidated r, ?_, hid⟩
    simp only [invalidateAll, List.mem_map]
    exact ⟨r, hr, by simp [hc]⟩
  · refine ⟨r, ?_, hid⟩
    simp only [invalidateAll, List.mem_map]
    exact ⟨r, hr, by simp [hc]⟩

theorem unavailable_invalidateAll {id : UUID} (id2 : UUID) {db : List Jwt}
    (h : unavailable db id) : unavailable (invalidateAll id2 db) id := by
  refine ⟨stored_invalidateAll h.1, ?_⟩
  intro x hx hid
  obtain ⟨y, hy, hyx, hcase⟩ := mem_invalidateAll hx
  rcases hcase with rfl | rfl
  · exact h.2 _ hy hid
  · rfl

theorem unavailable_append {id : UUID} {db : List Jwt} (h : unavailable db id) {new : Jwt}
    (hn : db.any (fun x => x.ID == new.ID) = false) : unavailable (db ++ [new]) id := by
  obtain ⟨⟨r0, hr0, hid0⟩, hall⟩ := h
  refine ⟨⟨r0, List.mem_append_left _ hr0, hid0⟩, ?_⟩
  intro x hx hid
  rcases List.mem_append.mp hx with hx | hx
  · exact hall x hx hid
  · exfalso
    have hxn : x = new := by simpa using hx
    subst hxn
    have : db.any (fun y => y.ID == x.ID) = true := by
      simp only [List.any_eq_true]
      exact ⟨r0, hr0, by simp [hid0, hid]⟩
    rw [hn] at this
    exact Bool.false_ne_true this

/-- The table a call of `Service.IsAvailable` leaves behind is the old table, or the
old table with the rows of that id made unavailable, or the latter followed by one
row whose id was not in the table. -/
theorem table_after_IsAvailable (e : Env) (now : Clock) (id : UUID) (db : List Jwt) :
    ((NewService e).IsAvailable now id db).2 = db ∨
    ((NewService e).IsAvailable now id db).2 = invalidateAll id db ∨
    ∃ new, (invalidateAll id db).any (fun x => x.ID == new.ID) = false ∧
      ((NewService e).IsAvailable now id db).2 = invalidateAll id db ++ [new] := by
  rcases hl : e.lookupFault with _ | err
  swap
  · rw [Service.IsAvailable_lookup_err _ now id (lookup_fault e hl id db)]
    exact Or.inl rfl
  rcases hf : db.find? (fun x => x.ID == id) with _ | r
  · rw [Service.IsAvailable_lookup_err _ now id (lookup_missing e hl hf)]
    exact Or.inl rfl
  have hlook := lookup_found e hl hf
  rcases ha : r.IsAvailable with _ | _
  · rw [Service.IsAvailable_used _ now id hlook ha]
    exact Or.inl rfl
  rcases hu : e.updateFault with _ | err
  swap
  · by_cases hx : r.ExpirationTime.Time < now.check
    · rw [Service.IsAvailable_expired _ now id hlook ha hx]
      simp [Service.Update, update_fault e hu]
    · rw [Service.IsAvailable_update_err _ now id hlook ha hx (update_fault e hu _ db)]
      exact Or.inl rfl
  have hupd := update_found e hu hf
  by_cases hx : r.ExpirationTime.Time < now.check
  · rw [Service.IsAvailable_expired _ now id hlook ha hx]
    simp [Service.Update, hupd]
  rcases hc : e.createFault with _ | err
  swap
  · rw [Service.IsAvailable_create_err _ now id hlook ha hx hupd (create_fault e hc _ _)]
    exact Or.inr (Or.inl rfl)
  rcases hn : (invalidateAll id db).any (fun x => x.ID == e.newID) with _ | _
  · rw [Service.IsAvailable_create_ok _ now id hlook ha hx hupd (create_fresh e hc _ hn)]
    exact Or.inr (Or.inr ⟨_, hn, rfl⟩)
  · rw [Service.IsAvailable_create_err _ now id hlook ha hx hupd (create_taken e hc _ hn)]
    exact Or.inr (Or.inl rfl)

theorem table_after_Create (e : Env) (userID : UUID) (time : Timestamptz) (db : List Jwt) :
    ((NewService e).Create userID time db).2 = db ∨
    ∃ new, db.any (fun x => x.ID == new.ID) = false ∧
      ((NewService e).Create userID time db).2 = db ++ [new] := by
  rcases hc : e.createFault with _ | err
  · rcases hn : db.any (fun x => x.ID == e.newID) with _ | _
    · simp only [Service.Create, create_fresh e hc _ hn]
      exact Or.inr ⟨_, hn, rfl⟩
    · simp [Service.Create, create_taken e hc _ hn]
  · simp [Service.Create, create_fault e hc]

theorem unavailable_run {id : UUID} {db : List Jwt} (h : unavailable db id) (op : Op) :
    unavailable (op.run db).2 id := by
  cases op with
  | Create e userID time =>
    rcases table_after_Create e userID time db with h1 | ⟨new, hn, h1⟩
    · simp only [Op.run, h1]; exact h
    · simp only [Op.run, h1]; exact unavailable_append h hn
  | IsAvailable e now id2 =>
    rcases table_after_IsAvailable e now id2 db with h1 | h1 | ⟨new, hn, h1⟩
    · simp only [Op.run, h1]; exact h
    · simp only [Op.run, h1]; exact unavailable_invalidateAll id2 h
    · simp only [Op.run, h1]
      exact unavailable_append (unavailable_invalidateAll id2 h) hn

theorem unavailable_runOps {id : UUID} (ops : List Op) :
    ∀ {db : List Jwt}, unavailable db id → unavailable (runOps ops db) id := by
  induction ops with
  | nil => intro db h; exact h
  | cons op ops ih => intro db h; exact ih (unavailable_run h op)

theorem unavailable_of_success {e : Env} {now : Clock} {id : UUID} {db db1 : List Jwt}
    {out : Jwt} (h : (NewService e).IsAvailable now id db = ((out, none), db1)) :
    unavailable db1 id := by
  obtain ⟨r, -, -, -, hf, -, -, hn, hout, hdb⟩ := table_success h
  obtain ⟨hid, hmem⟩ := find_some hf
  have hun : unavailable (invalidateAll id db) id := by
    refine ⟨stored_invalidateAll ⟨r, hmem, hid⟩, ?_⟩
    intro x hx hxid
    simp only [invalidateAll, List.mem_map] at hx
    obtain ⟨y, hy, hyx⟩ := hx
    by_cases hc : y.ID = id
    · simp [hc] at hyx
      rw [← hyx]; rfl
    · simp [hc] at hyx
      rw [hyx] at hc
      exact absurd hxid hc
  rw [hdb]
  refine unavailable_append hun ?_
  rw [any_invalidateAll, hout]
  exact hn

theorem lookup_ok {e : Env} {id : UUID} {db st1 : List Jwt} {r : Jwt}
    (h : (NewService e).queries.IsAvailable id db = ((r, none), st1)) :
    e.lookupFault = none ∧ db.find? (fun x => x.ID == id) = some r ∧ st1 = db := by
  rcases hl : e.lookupFault with _ | err
  · rcases hf : db.find? (fun x => x.ID == id) with _ | r2
    · rw [lookup_missing e hl hf] at h
      simp at h
    · rw [lookup_found e hl hf] at h
      simp only [Prod.mk.injEq, and_true] at h
      exact ⟨rfl, by rw [hf, h.1], h.2.symm⟩
  · rw [lookup_fault e hl] at h
    simp at h

theorem find_invalidateAll {id : UUID} {db : List Jwt} {r : Jwt}
    (h : db.find? (fun x => x.ID == id) = some r) :
    (invalidateAll id db).find? (fun x => x.ID == id) = some (invalidated r) := by
  induction db with
  | nil => simp at h
  | cons a t ih =>
    by_cases hc : a.ID = id
    · simp [hc] at h
      simp [invalidateAll, hc, invalidated, ← h]
    · have hp : ¬ ((fun x : Jwt => x.ID == id) a = true) := by simpa using hc
      rw [List.find?_cons_of_neg t hp] at h
      have hstep : invalidateAll id (a :: t) = a :: invalidateAll id t := by
        simp [invalidateAll, hc]
      have hb : (a.ID == id) = false := by simpa using hc
      rw [hstep]
      simp only [List.find?_cons, hb]
      exact ih h

theorem unavailable_invalidateAll_self {id : UUID} {db : List Jwt} (h : stored db id) :
    unavailable (invalidateAll id db) id := by
  refine ⟨stored_invalidateAll h, ?_⟩
  intro x hx hxid
  simp only [invalidateAll, List.mem_map] at hx
  obtain ⟨y, hy, hyx⟩ := hx
  by_cases hc : y.ID = id
  · simp [hc] at hyx
    rw [← hyx]; rfl
  · simp [hc] at hyx
    rw [hyx] at hc
    exact absurd hxid hc

theorem length_invalidateAll (id : UUID) (db : List Jwt) :
    (invalidateAll id db).length = db.length := by
  simp [invalidateAll]

/-! ## The method, query by query -/

/-- The queries of a call of `Service.IsAvailable` run one after the other give what
the method gives. -/
theorem Service.runAlone_eq {σ : Type} (s : Service σ) (now : Clock) (id : UUID) (st : σ) :
    s.runAlone now id st =
      (Proc.returned (s.IsAvailable now id st).1, (s.IsAvailable now id st).2) := by
  rcases hq : s.queries.IsAvailable id st with ⟨⟨r, _ | err⟩, st1⟩
  swap
  · simp [Service.runAlone, Service.step, Service.IsAvailable, hq]
  rcases ha : r.IsAvailable with _ | _
  · simp [Service.runAlone, Service.step, Service.IsAvailable, hq, ha]
  by_cases hx : r.ExpirationTime.Time < now.check
  · simp [Service.runAlone, Service.step, Service.IsAvailable, hq, ha, hx]
  rcases hu : s.queries.Update ⟨id, false⟩ st1 with ⟨⟨u, _ | err⟩, st2⟩
  swap
  · simp [Service.runAlone, Service.step, Service.IsAvailable, Service.Update, hq, ha, hx, hu]
  rcases hc : s.queries.Create ⟨r.UserID, ⟨now.issue + 30 * Minute, 0, true⟩⟩ st2 with
    ⟨⟨c, _ | err⟩, st3⟩
  · simp [Service.runAlone, Service.step, Service.IsAvailable, Service.Update, Service.Create,
      hq, ha, hx, hu, hc]
  · simp [Service.runAlone, Service.step, Service.IsAvailable, Service.Update, Service.Create,
      hq, ha, hx, hu, hc]

/-- The queries a call of `Service.IsAvailable` issues: the lookup, then possibly the
update that clears the flag of that id, then possibly one insert. -/
theorem Service.IsAvailable_calls {σ : Type} (s : Service σ) (now : Clock) (id : UUID)
    (st : σ) (log : List Call) :
    (s.traced.IsAvailable now id (st, log)).2.2 = log ++ [Call.IsAvailable id] ∨
    (s.traced.IsAvailable now id (st, log)).2.2 =
      log ++ [Call.IsAvailable id, Call.Update ⟨id, false⟩] ∨
    ∃ arg, (s.traced.IsAvailable now id (st, log)).2.2 =
      log ++ [Call.IsAvailable id, Call.Update ⟨id, false⟩, Call.Create arg] := by
  rcases hq : s.queries.IsAvailable id st with ⟨⟨r, _ | err⟩, st1⟩
  swap
  · simp [Service.IsAvailable, Service.traced, Querier.traced, hq]
  rcases ha : r.IsAvailable with _ | _
  · simp [Service.IsAvailable, Service.traced, Querier.traced, hq, ha]
  rcases hu : s.queries.Update ⟨id, false⟩ st1 with ⟨⟨u, _ | err⟩, st2⟩
  swap
  · by_cases hx : r.ExpirationTime.Time < now.check
    · simp [Service.IsAvailable, Service.Update, Service.traced, Querier.traced, hq, ha, hx, hu]
    · simp [Service.IsAvailable, Service.Update, Service.traced, Querier.traced, hq, ha, hx, hu]
  by_cases hx : r.ExpirationTime.Time < now.check
  · simp [Service.IsAvailable, Service.Update, Service.traced, Querier.traced, hq, ha, hx, hu]
  rcases hc : s.queries.Create ⟨r.UserID, ⟨now.issue + 30 * Minute, 0, true⟩⟩ st2 with
    ⟨⟨c, _ | err⟩, st3⟩
  · simp [Service.IsAvailable, Service.Update, Service.Create, Service.traced, Querier.traced,
      hq, ha, hx, hu, hc]
  · simp [Service.IsAvailable, Service.Update, Service.Create, Service.traced, Querier.traced,
      hq, ha, hx, hu, hc]

/-! ## The claims -/

/-- C1: once `Service.IsAvailable` has succeeded on a token id, every later call on that
id fails, whatever calls of `Service.Create` and `Service.IsAvailable` ran in between
(none, for the call run on the resulting store itself): it returns the zero record and
leaves the table as it found it, and its error is "refresh token already used" whenever
its lookup is answered by the table. -/
theorem IsAvailable_redeems_once (e : Env) (now : Clock) (id : UUID) (db db1 : List Jwt)
    (out : Jwt) (h : (NewService e).IsAvailable now id db = ((out, none), db1))
    (ops : List Op) (e2 : Env) (now2 : Clock) :
    ((NewService e2).IsAvailable now2 id (runOps ops db1)).1.1 = Jwt.zero ∧
    ((NewService e2).IsAvailable now2 id (runOps ops db1)).1.2 ≠ none ∧
    ((NewService e2).IsAvailable now2 id (runOps ops db1)).2 = runOps ops db1 ∧
    (e2.lookupFault = none →
      ((NewService e2).IsAvailable now2 id (runOps ops db1)).1.2 =
        some (Error.errorsNew "refresh token already used")) :=
  unavailable_call (unavailable_runOps ops (unavailable_of_success h)) e2 now2

/-- C1, at a table with one available token: the first call succeeds, and a call on the
same id fails with "refresh token already used", both on the resulting table and
after the successor has been rotated in its turn. -/
theorem IsAvailable_redeems_once_witness :
    (NewService (Env.ok 2)).IsAvailable ⟨50, 51⟩ 1 [⟨1, 7, ⟨100, 0, true⟩, true⟩] =
      ((⟨2, 7, ⟨51 + 30 * Minute, 0, true⟩, true⟩, none),
        [⟨1, 7, ⟨100, 0, true⟩, false⟩, ⟨2, 7, ⟨51 + 30 * Minute, 0, true⟩, true⟩]) ∧
    ((NewService (Env.ok 3)).IsAvailable ⟨60, 61⟩ 1
      (runOps []
        [⟨1, 7, ⟨100, 0, true⟩, false⟩, ⟨2, 7, ⟨51 + 30 * Minute, 0, true⟩, true⟩])).1.2 =
        some (Error.errorsNew "refresh token already used") ∧
    ((NewService (Env.ok 4)).IsAvailable ⟨70, 71⟩ 1
      (runOps [Op.IsAvailable (Env.ok 3) ⟨60, 61⟩ 2]
        [⟨1, 7, ⟨100, 0, true⟩, false⟩, ⟨2, 7, ⟨51 + 30 * Minute, 0, true⟩, true⟩])).1.2 =
        some (Error.errorsNew "refresh token already used") :=
  ⟨by decide,
    (IsAvailable_redeems_once (Env.ok 2) ⟨50, 51⟩ 1 [⟨1, 7, ⟨100, 0, true⟩, true⟩] _ _
      rfl [] (Env.ok 3) ⟨60, 61⟩).2.2.2 rfl,
    (IsAvailable_redeems_once (Env.ok 2) ⟨50, 51⟩ 1 [⟨1, 7, ⟨100, 0, true⟩, true⟩] _ _
      rfl [Op.IsAvailable (Env.ok 3) ⟨60, 61⟩ 2] (Env.ok 4) ⟨70, 71⟩).2.2.2 rfl⟩

/-- C2: when the lookup returns a record whose availability flag is false, the call
returns the zero record and "refresh token already used", whatever the clock and
the record's expiration; the only query it issues is the lookup, so the store is
the one the lookup left. -/
theorem IsAvailable_already_used {σ : Type} (s : Service σ) (now : Clock) (id : UUID)
    (st st1 : σ) (log : List Call) (r : Jwt)
    (hlookup : s.queries.IsAvailable id st = ((r, none), st1))
    (hflag : r.IsAvailable = false) :
    s.traced.IsAvailable now id (st, log) =
      ((Jwt.zero, some (Error.errorsNew "refresh token already used")),
        (st1, log ++ [Call.IsAvailable id])) := by
  apply Service.IsAvailable_used _ now id _ hflag
  simp [Service.traced, Querier.traced, hlookup]

/-- C2, at a table whose only token is unavailable and long expired: the table is
unchanged and one lookup was issued. -/
theorem IsAvailable_already_used_witness :
    (NewService (Env.ok 2)).traced.IsAvailable ⟨500, 501⟩ 1
        ([⟨1, 7, ⟨100, 0, true⟩, false⟩], []) =
      ((Jwt.zero, some (Error.errorsNew "refresh token already used")),
        ([⟨1, 7, ⟨100, 0, true⟩, false⟩], [Call.IsAvailable 1])) :=
  IsAvailable_already_used (NewService (Env.ok 2)) ⟨500, 501⟩ 1 [⟨1, 7, ⟨100, 0, true⟩, false⟩]
    [⟨1, 7, ⟨100, 0, true⟩, false⟩] [] ⟨1, 7, ⟨100, 0, true⟩, false⟩ (by decide) rfl

/-- C3 as stated fails when the expiration equals the current time: the token
`1` is available, its expiration `100` is at (not after) the clock reading `100`, and
the call does not fail with "refresh token expired" but succeeds and returns the
successor `2`. -/
theorem IsAvailable_expiry_boundary_counterexample :
    (NewService (Env.ok 2)).queries.IsAvailable 1 [⟨1, 7, ⟨100, 0, true⟩, true⟩] =
      ((⟨1, 7, ⟨100, 0, true⟩, true⟩, none), [⟨1, 7, ⟨100, 0, true⟩, true⟩]) ∧
    (⟨1, 7, ⟨100, 0, true⟩, true⟩ : Jwt).IsAvailable = true ∧
    (⟨1, 7, ⟨100, 0, true⟩, true⟩ : Jwt).ExpirationTime.Time ≤ (⟨100, 100⟩ : Clock).check ∧
    (NewService (Env.ok 2)).IsAvailable ⟨100, 100⟩ 1 [⟨1, 7, ⟨100, 0, true⟩, true⟩] =
      ((⟨2, 7, ⟨100 + 30 * Minute, 0, true⟩, true⟩, none),
        [⟨1, 7, ⟨100, 0, true⟩, false⟩, ⟨2, 7, ⟨100 + 30 * Minute, 0, true⟩, true⟩]) := by
  decide

/-- C3, amended: when the lookup returns an available record whose expiration is
strictly before the current time, the call returns the zero record and "refresh
token expired", whether or not its update succeeds; it issues the lookup and one
update that clears the flag, and no insert. -/
theorem IsAvailable_expired_fails {σ : Type} (s : Service σ) (now : Clock) (id : UUID)
    (st st1 : σ) (log : List Call) (r : Jwt)
    (hlookup : s.queries.IsAvailable id st = ((r, none), st1))
    (hflag : r.IsAvailable = true) (hexp : r.ExpirationTime.Time < now.check) :
    s.traced.IsAvailable now id (st, log) =
      ((Jwt.zero, some (Error.errorsNew "refresh token expired")),
        ((s.queries.Update ⟨id, false⟩ st1).2,
          log ++ [Call.IsAvailable id, Call.Update ⟨id, false⟩])) := by
  have h : s.traced.queries.IsAvailable id (st, log) =
      ((r, none), (st1, log ++ [Call.IsAvailable id])) := by
    simp [Service.traced, Querier.traced, hlookup]
  rw [Service.IsAvailable_expired _ now id h hflag hexp]
  simp only [Service.Update, Service.traced, Querier.traced]
  split <;> simp_all

/-- C3, amended, at a table whose only token is available and expired. -/
theorem IsAvailable_expired_fails_witness :
    (NewService (Env.ok 2)).traced.IsAvailable ⟨101, 102⟩ 1
        ([⟨1, 7, ⟨100, 0, true⟩, true⟩], []) =
      ((Jwt.zero, some (Error.errorsNew "refresh token expired")),
        ([⟨1, 7, ⟨100, 0, true⟩, false⟩], [Call.IsAvailable 1, Call.Update ⟨1, false⟩])) :=
  IsAvailable_expired_fails (NewService (Env.ok 2)) ⟨101, 102⟩ 1 [⟨1, 7, ⟨100, 0, true⟩, true⟩]
    [⟨1, 7, ⟨100, 0, true⟩, true⟩] [] ⟨1, 7, ⟨100, 0, true⟩, true⟩ (by decide) rfl (by decide)

/-- C4 as stated fails when the update of the expired branch fails: the token `1` is
available and expired, the call returns "refresh token expired", and the record is
still available in the table afterwards (a follow-up lookup returns it with its flag
set). -/
theorem IsAvailable_expired_flag_counterexample :
    (NewService ⟨none, some (Error.storage "connection reset"), none, 2⟩).IsAvailable
        ⟨101, 102⟩ 1 [⟨1, 7, ⟨100, 0, true⟩, true⟩] =
      ((Jwt.zero, some (Error.errorsNew "refresh token expired")),
        [⟨1, 7, ⟨100, 0, true⟩, true⟩]) ∧
    (NewService (Env.ok 3)).queries.IsAvailable 1 [⟨1, 7, ⟨100, 0, true⟩, true⟩] =
      ((⟨1, 7, ⟨100, 0, true⟩, true⟩, none), [⟨1, 7, ⟨100, 0, true⟩, true⟩]) := by
  decide

/-- C4, amended: when the lookup returns an available record whose expiration is
before the current time, the call returns "refresh token expired" and the table has
as many rows as before (no successor); and when the update of that branch does not
fail, the table afterwards is the old one with the rows of that id made unavailable,
the id is unavailable in it, and a follow-up lookup returns the record with its flag
cleared and its other fields as they were. -/
theorem IsAvailable_expired_invalidates (e : Env) (now : Clock) (id : UUID) (db : List Jwt)
    (r : Jwt) (hlookup : (NewService e).queries.IsAvailable id db = ((r, none), db))
    (hflag : r.IsAvailable = true) (hexp : r.ExpirationTime.Time < now.check) :
    ((NewService e).IsAvailable now id db).1 =
      (Jwt.zero, some (Error.errorsNew "refresh token expired")) ∧
    ((NewService e).IsAvailable now id db).2.length = db.length ∧
    (e.updateFault = none →
      ((NewService e).IsAvailable now id db).2 = invalidateAll id db ∧
      unavailable (invalidateAll id db) id ∧
      ∀ e2 : Env, e2.lookupFault = none →
        (NewService e2).queries.IsAvailable id (invalidateAll id db) =
          ((invalidated r, none), invalidateAll id db)) := by
  obtain ⟨hl, hf, -⟩ := lookup_ok hlookup
  obtain ⟨hid, hmem⟩ := find_some hf
  rw [Service.IsAvailable_expired _ now id hlookup hflag hexp]
  refine ⟨rfl, ?_, ?_⟩
  · rcases hu : e.updateFault with _ | err
    · simp [Service.Update, update_found e hu hf, length_invalidateAll]
    · simp [Service.Update, update_fault e hu]
  · intro hu
    refine ⟨by simp [Service.Update, update_found e hu hf], ?_, ?_⟩
    · exact unavailable_invalidateAll_self ⟨r, hmem, hid⟩
    · intro e2 he2
      exact lookup_found e2 he2 (find_invalidateAll hf)

/-- C4, amended, at a table whose only token is available and expired, with a
storage layer that does not fail. -/
theorem IsAvailable_expired_invalidates_witness :
    ((NewService (Env.ok 2)).IsAvailable ⟨101, 102⟩ 1 [⟨1, 7, ⟨100, 0, true⟩, true⟩]).1 =
      (Jwt.zero, some (Error.errorsNew "refresh token expired")) ∧
    ((NewService (Env.ok 2)).IsAvailable ⟨101, 102⟩ 1 [⟨1, 7, ⟨100, 0, true⟩, true⟩]).2 =
      invalidateAll 1 [⟨1, 7, ⟨100, 0, true⟩, true⟩] ∧
    invalidateAll 1 [⟨1, 7, ⟨100, 0, true⟩, true⟩] = [⟨1, 7, ⟨100, 0, true⟩, false⟩] :=
  ⟨(IsAvailable_expired_invalidates (Env.ok 2) ⟨101, 102⟩ 1 [⟨1, 7, ⟨100, 0, true⟩, true⟩]
      ⟨1, 7, ⟨100, 0, true⟩, true⟩ (by decide) rfl (by decide)).1,
    ((IsAvailable_expired_invalidates (Env.ok 2) ⟨101, 102⟩ 1 [⟨1, 7, ⟨100, 0, true⟩, true⟩]
      ⟨1, 7, ⟨100, 0, true⟩, true⟩ (by decide) rfl (by decide)).2.2 rfl).1,
    by decide⟩

/-- C5: when the lookup returns an available record that is not expired and the call
succeeds, the record it returns has an id other than the redeemed one, the user id of
the redeemed record, and an expiration 30 minutes after the clock reading taken for
it, hence strictly later than that reading and, the clock not running backwards,
than the reading of the expiry test. -/
theorem IsAvailable_successor (e : Env) (now : Clock) (id : UUID) (db db1 : List Jwt)
    (r out : Jwt) (hlookup : (NewService e).queries.IsAvailable id db = ((r, none), db))
    (hflag : r.IsAvailable = true) (hexp : ¬ r.ExpirationTime.Time < now.check)
    (h : (NewService e).IsAvailable now id db = ((out, none), db1)) :
    out.ID ≠ id ∧ out.ID ≠ r.ID ∧ out.UserID = r.UserID ∧
    out.ExpirationTime = ⟨now.issue + 30 * Minute, 0, true⟩ ∧
    now.issue < out.ExpirationTime.Time ∧
    (now.check ≤ now.issue → now.check < out.ExpirationTime.Time) ∧
    out.IsAvailable = true := by
  obtain ⟨-, hf, -⟩ := lookup_ok hlookup
  obtain ⟨r2, -, -, -, hf2, -, -, hn, hout, -⟩ := table_success h
  rw [hf] at hf2
  have hr : r2 = r := (Option.some.inj hf2).symm
  subst hr
  obtain ⟨hid, hmem⟩ := find_some hf
  have hne : e.newID ≠ id := by
    intro hc
    have : db.any (fun x => x.ID == e.newID) = true := by
      simp only [List.any_eq_true]
      exact ⟨r2, hmem, by simp [hid, hc]⟩
    rw [hn] at this
    exact Bool.false_ne_true this
  have hpos : (0 : Int) < 30 * Minute := by decide
  subst hout
  refine ⟨hne, by rw [hid]; exact hne, rfl, rfl, ?_, ?_, rfl⟩
  · exact lt_add_of_pos_right _ hpos
  · intro hmono
    exact lt_of_le_of_lt hmono (lt_add_of_pos_right _ hpos)

/-- C5, at a table with one available token that expires after the call. -/
theorem IsAvailable_successor_witness :
    (NewService (Env.ok 2)).IsAvailable ⟨50, 51⟩ 1 [⟨1, 7, ⟨100, 0, true⟩, true⟩] =
      ((⟨2, 7, ⟨51 + 30 * Minute, 0, true⟩, true⟩, none),
        [⟨1, 7, ⟨100, 0, true⟩, false⟩, ⟨2, 7, ⟨51 + 30 * Minute, 0, true⟩, true⟩]) ∧
    (2 : UUID) ≠ 1 ∧ (7 : UUID) = 7 ∧ (51 : Time) < 51 + 30 * Minute :=
  ⟨rfl,
    (IsAvailable_successor (Env.ok 2) ⟨50, 51⟩ 1 [⟨1, 7, ⟨100, 0, true⟩, true⟩]
      [⟨1, 7, ⟨100, 0, true⟩, false⟩, ⟨2, 7, ⟨51 + 30 * Minute, 0, true⟩, true⟩]
      ⟨1, 7, ⟨100, 0, true⟩, true⟩ ⟨2, 7, ⟨51 + 30 * Minute, 0, true⟩, true⟩
      rfl rfl (by decide) rfl).1,
    (IsAvailable_successor (Env.ok 2) ⟨50, 51⟩ 1 [⟨1, 7, ⟨100, 0, true⟩, true⟩]
      [⟨1, 7, ⟨100, 0, true⟩, false⟩, ⟨2, 7, ⟨51 + 30 * Minute, 0, true⟩, true⟩]
      ⟨1, 7, ⟨100, 0, true⟩, true⟩ ⟨2, 7, ⟨51 + 30 * Minute, 0, true⟩, true⟩
      rfl rfl (by decide) rfl).2.2.1,
    (IsAvailable_successor (Env.ok 2) ⟨50, 51⟩ 1 [⟨1, 7, ⟨100, 0, true⟩, true⟩]
      [⟨1, 7, ⟨100, 0, true⟩, false⟩, ⟨2, 7, ⟨51 + 30 * Minute, 0, true⟩, true⟩]
      ⟨1, 7, ⟨100, 0, true⟩, true⟩ ⟨2, 7, ⟨51 + 30 * Minute, 0, true⟩, true⟩
      rfl rfl (by decide) rfl).2.2.2.2.1⟩

/-- C6: on a table with no row of the given id the call returns the zero record and an
error, leaves the table unchanged and issues the lookup only; the error is the
not-found error of the lookup, `pgx.ErrNoRows`, whenever the lookup is answered by the
table. -/
theorem IsAvailable_unknown_id (e : Env) (now : Clock) (id : UUID) (db : List Jwt)
    (log : List Call) (hmissing : ∀ r ∈ db, r.ID ≠ id) :
    ((NewService e).traced.IsAvailable now id (db, log)).1.1 = Jwt.zero ∧
    ((NewService e).traced.IsAvailable now id (db, log)).1.2 ≠ none ∧
    ((NewService e).traced.IsAvailable now id (db, log)).2 = (db, log ++ [Call.IsAvailable id]) ∧
    (e.lookupFault = none →
      ((NewService e).traced.IsAvailable now id (db, log)).1.2 = some Error.ErrNoRows) := by
  have hf := find_none.mpr hmissing
  rcases hl : e.lookupFault with _ | err
  · have h : (NewService e).traced.queries.IsAvailable id (db, log) =
        ((Jwt.zero, some Error.ErrNoRows), (db, log ++ [Call.IsAvailable id])) := by
      simp [Service.traced, Querier.traced, lookup_missing e hl hf]
    rw [Service.IsAvailable_lookup_err _ now id h]
    simp
  · have h : (NewService e).traced.queries.IsAvailable id (db, log) =
        ((Jwt.zero, some err), (db, log ++ [Call.IsAvailable id])) := by
      simp [Service.traced, Querier.traced, lookup_fault e hl]
    rw [Service.IsAvailable_lookup_err _ now id h]
    simp

/-- C6, at a table that holds token `1` only, asked for token `9`. -/
theorem IsAvailable_unknown_id_witness :
    (∀ r ∈ [(⟨1, 7, ⟨100, 0, true⟩, true⟩ : Jwt)], r.ID ≠ 9) ∧
    (NewService (Env.ok 2)).traced.IsAvailable ⟨50, 51⟩ 9 ([⟨1, 7, ⟨100, 0, true⟩, true⟩], []) =
      ((Jwt.zero, some Error.ErrNoRows),
        ([⟨1, 7, ⟨100, 0, true⟩, true⟩], [Call.IsAvailable 9])) :=
  ⟨by decide, by
    have h := IsAvailable_unknown_id (Env.ok 2) ⟨50, 51⟩ 9 [⟨1, 7, ⟨100, 0, true⟩, true⟩] []
      (by decide)
    exact Prod.ext (Prod.ext h.1 (h.2.2.2 rfl)) h.2.2.1⟩

/-- C7 as stated fails when the insert fails: the token `1` is available and not
expired, the call returns the storage error of the insert, and the record is left
unavailable in the table, with no successor. -/
theorem IsAvailable_insert_failure_counterexample :
    (NewService ⟨none, none, some (Error.storage "connection reset"), 2⟩).IsAvailable
        ⟨50, 51⟩ 1 [⟨1, 7, ⟨100, 0, true⟩, true⟩] =
      ((Jwt.zero, some (Error.storage "connection reset")),
        [⟨1, 7, ⟨100, 0, true⟩, false⟩]) ∧
    (NewService (Env.ok 3)).queries.IsAvailable 1 [⟨1, 7, ⟨100, 0, true⟩, false⟩] =
      ((⟨1, 7, ⟨100, 0, true⟩, false⟩, none), [⟨1, 7, ⟨100, 0, true⟩, false⟩]) := by
  decide

/-- C7, amended: when the lookup returns an available record that is not expired and
the call returns an error, the call returns the zero record and no row is added; the
table is unchanged (the flag still set) when the error is that of the update, and
otherwise the update has run, the error is that of the insert, and the table is the
old one with the rows of that id made unavailable. -/
theorem IsAvailable_failed_rotation (e : Env) (now : Clock) (id : UUID) (db : List Jwt)
    (r : Jwt) (err : Error)
    (hlookup : (NewService e).queries.IsAvailable id db = ((r, none), db))
    (hflag : r.IsAvailable = true) (hexp : ¬ r.ExpirationTime.Time < now.check)
    (h : ((NewService e).IsAvailable now id db).1.2 = some err) :
    ((NewService e).IsAvailable now id db).1.1 = Jwt.zero ∧
    ((NewService e).IsAvailable now id db).2.length = db.length ∧
    ((e.updateFault = some err ∧ ((NewService e).IsAvailable now id db).2 = db) ∨
     (e.updateFault = none ∧
      ((NewService e).IsAvailable now id db).2 = invalidateAll id db ∧
      unavailable (invalidateAll id db) id)) := by
  obtain ⟨hl, hf, -⟩ := lookup_ok hlookup
  obtain ⟨hid, hmem⟩ := find_some hf
  rcases hu : e.updateFault with _ | uerr
  swap
  · rw [Service.IsAvailable_update_err _ now id hlookup hflag hexp (update_fault e hu _ db)]
      at h ⊢
    simp only [Option.some.injEq] at h
    exact ⟨rfl, rfl, Or.inl ⟨by rw [h], rfl⟩⟩
  have hupd := update_found e hu hf
  have hun := unavailable_invalidateAll_self ⟨r, hmem, hid⟩
  rcases hc : e.createFault with _ | cerr
  swap
  · rw [Service.IsAvailable_create_err _ now id hlookup hflag hexp hupd
      (create_fault e hc _ _)]
    exact ⟨rfl, length_invalidateAll id db, Or.inr ⟨rfl, rfl, hun⟩⟩
  rcases hn : (invalidateAll id db).any (fun x => x.ID == e.newID) with _ | _
  · rw [Service.IsAvailable_create_ok _ now id hlookup hflag hexp hupd
      (create_fresh e hc _ hn)] at h
    simp at h
  · rw [Service.IsAvailable_create_err _ now id hlookup hflag hexp hupd
      (create_taken e hc _ hn)]
    exact ⟨rfl, length_invalidateAll id db, Or.inr ⟨rfl, rfl, hun⟩⟩

/-- C7, amended, at a table with one available token and a storage layer that fails
the update: the table is unchanged. -/
theorem IsAvailable_failed_rotation_witness :
    ((NewService ⟨none, some (Error.storage "connection reset"), none, 2⟩).IsAvailable
        ⟨50, 51⟩ 1 [⟨1, 7, ⟨100, 0, true⟩, true⟩]).1.2 =
      some (Error.storage "connection reset") ∧
    ((NewService ⟨none, some (Error.storage "connection reset"), none, 2⟩).IsAvailable
        ⟨50, 51⟩ 1 [⟨1, 7, ⟨100, 0, true⟩, true⟩]).2.length = 1 :=
  ⟨rfl,
    (IsAvailable_failed_rotation ⟨none, some (Error.storage "connection reset"), none, 2⟩
      ⟨50, 51⟩ 1 [⟨1, 7, ⟨100, 0, true⟩, true⟩] ⟨1, 7, ⟨100, 0, true⟩, true⟩
      (Error.storage "connection reset") rfl rfl (by decide) rfl).2.1⟩

/-- C8 fails on the code: two calls on the available, unexpired token `1` whose queries
alternate (lookup, lookup, update, update, insert, insert) both succeed, and the table
ends with two successors of the one token. -/
theorem IsAvailable_concurrent_double_success :
    interleave (NewService (Env.ok 2)) (NewService (Env.ok 3)) ⟨50, 51⟩ ⟨50, 51⟩ 1 1
        [true, false, true, false, true, false]
        (Proc.start, Proc.start, [⟨1, 7, ⟨100, 0, true⟩, true⟩]) =
      (Proc.returned (⟨2, 7, ⟨51 + 30 * Minute, 0, true⟩, true⟩, none),
        Proc.returned (⟨3, 7, ⟨51 + 30 * Minute, 0, true⟩, true⟩, none),
        [⟨1, 7, ⟨100, 0, true⟩, false⟩, ⟨2, 7, ⟨51 + 30 * Minute, 0, true⟩, true⟩,
          ⟨3, 7, ⟨51 + 30 * Minute, 0, true⟩, true⟩]) := by
  decide

/-- C9: a successful call leaves the old table with the rows of the redeemed id made
unavailable, followed by the returned record, whose id was not in the table: one row
more, every old row in its place with its id, user id and expiration, the rows of
another id untouched. -/
theorem IsAvailable_frame (e : Env) (now : Clock) (id : UUID) (db db1 : List Jwt) (out : Jwt)
    (h : (NewService e).IsAvailable now id db = ((out, none), db1)) :
    db1 = invalidateAll id db ++ [out] ∧
    db1.length = db.length + 1 ∧
    (∀ x ∈ db, x.ID ≠ out.ID) ∧
    db1[db.length]? = some out ∧
    ∀ (i : Nat) (x : Jwt), db[i]? = some x →
      ∃ y, db1[i]? = some y ∧ y.ID = x.ID ∧ y.UserID = x.UserID ∧
        y.ExpirationTime = x.ExpirationTime ∧
        (x.ID ≠ id → y = x) ∧ (x.ID = id → y.IsAvailable = false) := by
  obtain ⟨r, -, -, -, hf, -, -, hn, hout, hdb⟩ := table_success h
  have hlen := length_invalidateAll id db
  refine ⟨hdb, ?_, ?_, ?_, ?_⟩
  · rw [hdb]; simp [hlen]
  · intro x hx hc
    have : db.any (fun y => y.ID == e.newID) = true := by
      simp only [List.any_eq_true]
      exact ⟨x, hx, by simp [hc, hout]⟩
    rw [hn] at this
    exact Bool.false_ne_true this
  · rw [hdb, ← hlen]; simp
  · intro i x hi
    have hlt : i < db.length := by
      rcases Nat.lt_or_ge i db.length with hlt | hge
      · exact hlt
      · rw [List.getElem?_eq_none hge] at hi
        exact absurd hi (by simp)
    have hget : db1[i]? = some (if x.ID == id then invalidated x else x) := by
      rw [hdb, List.getElem?_append_left (by rw [hlen]; exact hlt)]
      simp [invalidateAll, hi]
    by_cases hc : x.ID = id
    · refine ⟨invalidated x, by simpa [hc] using hget, rfl, rfl, rfl, ?_, fun _ => rfl⟩
      intro hne; exact absurd hc hne
    · exact ⟨x, by simpa [hc] using hget, rfl, rfl, rfl, fun _ => rfl,
        fun he => absurd he hc⟩

/-- C9, at a table with two tokens of which the first is redeemed. -/
theorem IsAvailable_frame_witness :
    (NewService (Env.ok 3)).IsAvailable ⟨50, 51⟩ 1
        [⟨1, 7, ⟨100, 0, true⟩, true⟩, ⟨2, 8, ⟨90, 0, true⟩, true⟩] =
      ((⟨3, 7, ⟨51 + 30 * Minute, 0, true⟩, true⟩, none),
        [⟨1, 7, ⟨100, 0, true⟩, false⟩, ⟨2, 8, ⟨90, 0, true⟩, true⟩,
          ⟨3, 7, ⟨51 + 30 * Minute, 0, true⟩, true⟩]) ∧
    ([⟨1, 7, ⟨100, 0, true⟩, false⟩, ⟨2, 8, ⟨90, 0, true⟩, true⟩,
        ⟨3, 7, ⟨51 + 30 * Minute, 0, true⟩, true⟩] : List Jwt).length = 2 + 1 :=
  ⟨rfl,
    (IsAvailable_frame (Env.ok 3) ⟨50, 51⟩ 1
      [⟨1, 7, ⟨100, 0, true⟩, true⟩, ⟨2, 8, ⟨90, 0, true⟩, true⟩]
      [⟨1, 7, ⟨100, 0, true⟩, false⟩, ⟨2, 8, ⟨90, 0, true⟩, true⟩,
        ⟨3, 7, ⟨51 + 30 * Minute, 0, true⟩, true⟩]
      ⟨3, 7, ⟨51 + 30 * Minute, 0, true⟩, true⟩ rfl).2.1⟩

/-- C10: a token id that is unavailable in the table stays unavailable after any
sequence of calls of `Service.Create` and `Service.IsAvailable`, and every call of
`Service.IsAvailable` on it then fails, returning the zero record and leaving the
table as it is, with "refresh token already used" whenever its lookup is answered by
the table; and the only update a call of `Service.IsAvailable` issues clears the flag. -/
theorem unavailable_forever (db : List Jwt) (id : UUID) (h : unavailable db id)
    (ops : List Op) :
    unavailable (runOps ops db) id ∧
    (∀ (e : Env) (now : Clock),
      ((NewService e).IsAvailable now id (runOps ops db)).1.1 = Jwt.zero ∧
      ((NewService e).IsAvailable now id (runOps ops db)).1.2 ≠ none ∧
      ((NewService e).IsAvailable now id (runOps ops db)).2 = runOps ops db ∧
      (e.lookupFault = none →
        ((NewService e).IsAvailable now id (runOps ops db)).1.2 =
          some (Error.errorsNew "refresh token already used"))) ∧
    (∀ (e : Env) (now : Clock) (id2 : UUID) (db2 : List Jwt) (arg : UpdateParams),
      Call.Update arg ∈ ((NewService e).traced.IsAvailable now id2 (db2, [])).2.2 →
        arg.IsAvailable = false) := by
  refine ⟨unavailable_runOps ops h, fun e now => unavailable_call (unavailable_runOps ops h) e now,
    ?_⟩
  intro e now id2 db2 arg hmem
  rcases Service.IsAvailable_calls (NewService e) now id2 db2 [] with hc | hc | ⟨a, hc⟩ <;>
    rw [hc] at hmem <;> simp at hmem <;> rw [hmem]

/-- C10, at a table with the used token `1` and the available token `2`, through a
rotation of `2`, a new token for user `7`, and an attempt on `1`. -/
theorem unavailable_forever_witness :
    unavailable [⟨1, 7, ⟨100, 0, true⟩, false⟩, ⟨2, 7, ⟨100, 0, true⟩, true⟩] 1 ∧
    unavailable (runOps [Op.IsAvailable (Env.ok 3) ⟨50, 51⟩ 2,
        Op.Create (Env.ok 4) 7 ⟨90, 0, true⟩, Op.IsAvailable (Env.ok 5) ⟨60, 61⟩ 1]
      [⟨1, 7, ⟨100, 0, true⟩, false⟩, ⟨2, 7, ⟨100, 0, true⟩, true⟩]) 1 :=
  ⟨⟨⟨_, List.mem_cons_self _ _, rfl⟩, by decide⟩,
    (unavailable_forever [⟨1, 7, ⟨100, 0, true⟩, false⟩, ⟨2, 7, ⟨100, 0, true⟩, true⟩] 1
      ⟨⟨_, List.mem_cons_self _ _, rfl⟩, by decide⟩ _).1⟩

/-! ## Access tokens -/

theorem TrimPrefix_keep {t : String} (h : "Bearer ".data.isPrefixOf t.data = false) :
    strings.TrimPrefix t "Bearer " = t := by
  simp [strings.TrimPrefix, h]

theorem TrimPrefix_strip (t : String) : strings.TrimPrefix ("Bearer " ++ t) "Bearer " = t := by
  have h : "Bearer ".data.isPrefixOf ("Bearer " ++ t).data = true := by
    rw [String.data_append]
    simp
  unfold strings.TrimPrefix
  rw [if_pos h]
  simp [String.data_append]

theorem NewNumericDate_le (t : Time) : ∃ d, NewNumericDate t = some d ∧ d ≤ t := by
  refine ⟨t - t % Second, rfl, ?_⟩
  have h : 0 ≤ t % Second := Int.emod_nonneg t (by decide)
  exact sub_le_self t h

theorem Validate_ok {c : claims} {now exp nbf : Time} (he : c.ExpiresAt = some exp)
    (hn : c.NotBefore = some nbf) (h1 : now < exp) (h2 : nbf ≤ now) : Validate c now = none := by
  have h3 : ¬ now < nbf := not_lt.mpr h2
  simp [Validate, he, hn, h1, h3]

theorem Validate_expired (c : claims) (now : Time) {exp : Time} (he : c.ExpiresAt = some exp)
    (h1 : exp ≤ now) :
    ∃ err, Validate c now = some err ∧ errors.Is err Sentinel.ErrTokenExpired = true ∧
      errors.Is err Sentinel.ErrTokenMalformed = false ∧
      errors.Is err Sentinel.ErrSignatureInvalid = false := by
  have h3 : ¬ now < exp := not_lt.mpr h1
  rcases hn : c.NotBefore with _ | nbf
  · simp [Validate, he, hn, h3, errors.Is]
  · by_cases h4 : now < nbf <;> simp [Validate, he, hn, h3, h4, errors.Is]

theorem New_ok {σ : Type} {s : Service σ} {lib : Library} {now : IssueClock} {jwtID id : UUID}
    {email tok : String} (hlib : lib.Lawful) (h : s.New lib now jwtID id email = (tok, none)) :
    "Bearer ".data.isPrefixOf tok.data = false ∧
    ∃ c, lib.verify tok secret = (c, none) ∧ c.Id = id ∧
      c.ExpiresAt = NewNumericDate (now.exp + s.expiration) ∧
      c.NotBefore = NewNumericDate now.nbf := by
  unfold Service.New at h
  split at h
  · simp at h
  · rename_i tokenString hs
    simp only [Prod.mk.injEq, and_true] at h
    subst h
    obtain ⟨c2, h1, h2, h3, h4⟩ := hlib.roundtrip _ _ _ hs
    exact ⟨hlib.compact _ _ _ hs, c2, h1, h2, h3, h4⟩

theorem Library.single_lawful (c0 : claims) (tok0 : String)
    (h : "Bearer ".data.isPrefixOf tok0.data = false) : (Library.single c0 tok0).Lawful := by
  constructor
  · intro c key tok hs
    simp only [Library.single] at hs
    split at hs
    · rename_i hc
      simp only [Prod.mk.injEq, and_true] at hs
      subst hs
      subst hc
      exact ⟨c, by simp [Library.single], rfl, rfl, rfl⟩
    · simp at hs
  · intro c key tok hs
    simp only [Library.single] at hs
    split at hs
    · simp only [Prod.mk.injEq, and_true] at hs
      subst hs
      exact h
    · simp at hs

/-- C11: with a token library that verifies what it signs, a token returned by
`Service.New` for a user id and an email parses to exactly that user id, with no
error, at every time from the reading taken for `nbf` on and before the token's `exp`
claim (the reading taken for it plus the configured lifetime, in whole seconds). -/
theorem Parse_New {σ : Type} (s : Service σ) (lib : Library) (hlib : lib.Lawful)
    (now : IssueClock) (jwtID id : UUID) (email tok : String)
    (hnew : s.New lib now jwtID id email = (tok, none))
    (t exp : Time) (hexp : NewNumericDate (now.exp + s.expiration) = some exp)
    (hafter : now.nbf ≤ t) (hbefore : t < exp) :
    s.Parse lib t tok = (id, none) := by
  obtain ⟨hpre, c, hv, hid, he, hn⟩ := New_ok hlib hnew
  obtain ⟨nbf, hnbf, hle⟩ := NewNumericDate_le now.nbf
  have hval : Validate c t = none :=
    Validate_ok (he.trans hexp) (hn.trans hnbf) hbefore (le_trans hle hafter)
  simp [Service.Parse, TrimPrefix_keep hpre, Library.ParseWithClaims, hv, hval, hid]

/-- C11, for user `7`: a token issued just after 100 s with a lifetime of 15 minutes
parses to `7` at the reading taken for `nbf` and in the last nanosecond before 1000 s. -/
theorem Parse_New_witness :
    (NewService (Env.ok 0)).Parse
        (Library.single ⟨"This is a Backend-Training JWT token", 7, "a@example.com",
          "Backend-Training", "Backend-Training Token", some (1000 * Second),
          some (100 * Second), some (100 * Second), "5"⟩ "eyJ.e30.c2ln")
        (100 * Second + 8) "eyJ.e30.c2ln" = (7, none) ∧
    (NewService (Env.ok 0)).Parse
        (Library.single ⟨"This is a Backend-Training JWT token", 7, "a@example.com",
          "Backend-Training", "Backend-Training Token", some (1000 * Second),
          some (100 * Second), some (100 * Second), "5"⟩ "eyJ.e30.c2ln")
        (999 * Second + 999999999) "eyJ.e30.c2ln" = (7, none) :=
  ⟨Parse_New (NewService (Env.ok 0)) _ (Library.single_lawful _ _ (by decide))
      ⟨100 * Second + 7, 100 * Second + 8, 100 * Second + 9⟩ 5 7 "a@example.com" "eyJ.e30.c2ln"
      (by decide) (100 * Second + 8) (1000 * Second) (by decide) (by decide) (by decide),
    Parse_New (NewService (Env.ok 0)) _ (Library.single_lawful _ _ (by decide))
      ⟨100 * Second + 7, 100 * Second + 8, 100 * Second + 9⟩ 5 7 "a@example.com" "eyJ.e30.c2ln"
      (by decide) (999 * Second + 999999999) (1000 * Second) (by decide) (by decide)
      (by decide)⟩

/-- C12: with a token library that verifies what it signs, a token returned by
`Service.New` at the reading `now.exp` by a service of lifetime `s.expiration` parses,
at every time strictly after `now.exp + s.expiration`, to the nil user id and an error
that matches `jwt.ErrTokenExpired`. -/
theorem Parse_expired {σ : Type} (s : Service σ) (lib : Library) (hlib : lib.Lawful)
    (now : IssueClock) (jwtID id : UUID) (email tok : String)
    (hnew : s.New lib now jwtID id email = (tok, none))
    (t : Time) (hlate : now.exp + s.expiration < t) :
    (s.Parse lib t tok).1 = 0 ∧
    ∃ err, (s.Parse lib t tok).2 = some err ∧ errors.Is err Sentinel.ErrTokenExpired = true := by
  obtain ⟨hpre, c, hv, -, he, -⟩ := New_ok hlib hnew
  obtain ⟨exp, hexp, hle⟩ := NewNumericDate_le (now.exp + s.expiration)
  obtain ⟨err, hval, hIs, hm, hs⟩ :=
    Validate_expired c t (he.trans hexp) (le_of_lt (lt_of_le_of_lt hle hlate))
  refine ⟨?_, err, ?_, hIs⟩ <;>
    simp [Service.Parse, TrimPrefix_keep hpre, Library.ParseWithClaims, hv, hval, hIs, hm, hs]

/-- C12, for the token of user `7` issued just after 100 s with a lifetime of 15
minutes: one nanosecond after the lifetime has elapsed the token is expired. -/
theorem Parse_expired_witness :
    ((NewService (Env.ok 0)).Parse
        (Library.single ⟨"This is a Backend-Training JWT token", 7, "a@example.com",
          "Backend-Training", "Backend-Training Token", some (1000 * Second),
          some (100 * Second), some (100 * Second), "5"⟩ "eyJ.e30.c2ln")
        (1000 * Second + 8) "eyJ.e30.c2ln").1 = 0 :=
  (Parse_expired (NewService (Env.ok 0)) _ (Library.single_lawful _ _ (by decide))
      ⟨100 * Second + 7, 100 * Second + 8, 100 * Second + 9⟩ 5 7 "a@example.com" "eyJ.e30.c2ln"
      (by decide) (1000 * Second + 8) (by decide)).1

/-- C14: for a token string that does not begin with "Bearer ", `Service.Parse` gives
for the string with "Bearer " put in front what it gives for the string itself, user
id and error alike: one leading "Bearer " is removed before the library sees the
string. -/
theorem Parse_Bearer {σ : Type} (s : Service σ) (lib : Library) (now : Time) (t : String)
    (h : "Bearer ".data.isPrefixOf t.data = false) :
    s.Parse lib now ("Bearer " ++ t) = s.Parse lib now t ∧
    strings.TrimPrefix ("Bearer " ++ t) "Bearer " = t := by
  refine ⟨?_, TrimPrefix_strip t⟩
  simp only [Service.Parse, TrimPrefix_strip, TrimPrefix_keep h]

/-- C14, for the token of user `7`, with and without the scheme word. -/
theorem Parse_Bearer_witness :
    (NewService (Env.ok 0)).Parse
        (Library.single ⟨"This is a Backend-Training JWT token", 7, "a@example.com",
          "Backend-Training", "Backend-Training Token", some (1000 * Second),
          some (100 * Second), some (100 * Second), "5"⟩ "eyJ.e30.c2ln")
        (500 * Second) ("Bearer " ++ "eyJ.e30.c2ln") = (7, none) :=
  ((Parse_Bearer (NewService (Env.ok 0))
      (Library.single ⟨"This is a Backend-Training JWT token", 7, "a@example.com",
          "Backend-Training", "Backend-Training Token", some (1000 * Second),
          some (100 * Second), some (100 * Second), "5"⟩ "eyJ.e30.c2ln")
      (500 * Second) "eyJ.e30.c2ln" (by decide)).1).trans (by decide)

/-- The library `Library.compact` verifies what it signs when its one token has three
segments and does not begin with the scheme word. -/
theorem Library.compact_lawful (c0 : claims) (tok0 : String)
    (h3 : (url.split '.' tok0.data).length = 3)
    (h : "Bearer ".data.isPrefixOf tok0.data = false) : (Library.compact c0 tok0).Lawful := by
  constructor
  · intro c key tok hs
    simp only [Library.compact] at hs
    split at hs
    · rename_i hc
      simp only [Prod.mk.injEq, and_true] at hs
      subst hs
      subst hc
      exact ⟨c, by simp [Library.compact, h3], rfl, rfl, rfl⟩
    · simp at hs
  · intro c key tok hs
    simp only [Library.compact] at hs
    split at hs
    · simp only [Prod.mk.injEq, and_true] at hs
      subst hs
      exact h
    · simp at hs

/-- C13 as stated fails: `Service.New` issues the token `eyJ.e30.c2ln`; with the byte
`3` of its payload segment changed to `.` the text has four segments, the library
reports it as malformed, and `Service.Parse` returns that error as it is: it matches
`jwt.ErrTokenMalformed` and not `jwt.ErrSignatureInvalid`. -/
theorem Parse_tampered_malformed_counterexample :
    (NewService (Env.ok 0)).New
        (Library.compact ⟨"This is a Backend-Training JWT token", 7, "a@example.com",
          "Backend-Training", "Backend-Training Token", some (1000 * Second),
          some (100 * Second), some (100 * Second), "5"⟩ "eyJ.e30.c2ln")
        ⟨100 * Second + 7, 100 * Second + 8, 100 * Second + 9⟩ 5 7 "a@example.com" =
      ("eyJ" ++ "." ++ "e30" ++ "." ++ "c2ln", none) ∧
    "e.0".data = "e30".data.set 1 '.' ∧
    (NewService (Env.ok 0)).Parse
        (Library.compact ⟨"This is a Backend-Training JWT token", 7, "a@example.com",
          "Backend-Training", "Backend-Training Token", some (1000 * Second),
          some (100 * Second), some (100 * Second), "5"⟩ "eyJ.e30.c2ln")
        (100 * Second + 8) ("eyJ" ++ "." ++ "e.0" ++ "." ++ "c2ln") =
      (0, some (Error.library [Sentinel.ErrTokenMalformed]
        "token is malformed: token contains an invalid number of segments")) ∧
    errors.Is (Error.library [Sentinel.ErrTokenMalformed]
        "token is malformed: token contains an invalid number of segments")
      Sentinel.ErrSignatureInvalid = false ∧
    errors.Is (Error.library [Sentinel.ErrTokenMalformed]
        "token is malformed: token contains an invalid number of segments")
      Sentinel.ErrTokenMalformed = true := by
  decide

/-- C13, amended: for every presented token, so for every token of `Service.New` with
one byte of its payload or signature changed, `Service.Parse` returns what the library's
verification reports.  When the library rejects the token, `Service.Parse` fails with
the nil user id and the library's error unchanged: of the invalid-signature kind when
the library finds the signature not to match, of the malformed kind when the change
leaves no well-formed token.  It succeeds only on a token that the library verifies. -/
theorem Parse_tampered {σ : Type} (s : Service σ) (lib : Library) (now : Time)
    (t : String) :
    (∀ c err, lib.verify (strings.TrimPrefix t "Bearer ") secret = (c, some err) →
      s.Parse lib now t = (0, some err)) ∧
    (∀ c err, lib.verify (strings.TrimPrefix t "Bearer ") secret = (c, some err) →
      errors.Is err Sentinel.ErrSignatureInvalid = true →
      ∃ err2, s.Parse lib now t = (0, some err2) ∧
        errors.Is err2 Sentinel.ErrSignatureInvalid = true) ∧
    (∀ id, s.Parse lib now t = (id, none) →
      ∃ c, lib.verify (strings.TrimPrefix t "Bearer ") secret = (c, none) ∧ c.Id = id) := by
  have hrej : ∀ c err, lib.verify (strings.TrimPrefix t "Bearer ") secret = (c, some err) →
      s.Parse lib now t = (0, some err) := by
    intro c err hv
    simp only [Service.Parse, Library.ParseWithClaims, hv]
    split_ifs <;> rfl
  refine ⟨hrej, fun c err hv hk => ⟨err, hrej c err hv, hk⟩, ?_⟩
  intro id hp
  rcases hv : lib.verify (strings.TrimPrefix t "Bearer ") secret with ⟨c, _ | err⟩
  · refine ⟨c, rfl, ?_⟩
    rcases hval : Validate c now with _ | verr
    · simp only [Service.Parse, Library.ParseWithClaims, hv, hval, Prod.mk.injEq, and_true] at hp
      exact hp
    · simp only [Service.Parse, Library.ParseWithClaims, hv, hval] at hp
      split_ifs at hp <;> simp at hp
  · rw [hrej c err hv] at hp
    simp at hp

/-- C13, amended, for the token `eyJ.e30.c2ln` of user `7`: with the last byte of the
signature changed the library reports an invalid signature and `Service.Parse` fails
with that error. -/
theorem Parse_tampered_witness :
    "c2lo".data = "c2ln".data.set 3 'o' ∧
    (NewService (Env.ok 0)).Parse
        (Library.compact ⟨"This is a Backend-Training JWT token", 7, "a@example.com",
          "Backend-Training", "Backend-Training Token", some (1000 * Second),
          some (100 * Second), some (100 * Second), "5"⟩ "eyJ.e30.c2ln")
        (100 * Second + 8) ("eyJ" ++ "." ++ "e30" ++ "." ++ "c2lo") =
      (0, some (Error.library [Sentinel.ErrTokenSignatureInvalid, Sentinel.ErrSignatureInvalid]
        "token signature is invalid: signature is invalid")) :=
  ⟨by decide,
    (Parse_tampered (NewService (Env.ok 0))
      (Library.compact ⟨"This is a Backend-Training JWT token", 7, "a@example.com",
        "Backend-Training", "Backend-Training Token", some (1000 * Second),
        some (100 * Second), some (100 * Second), "5"⟩ "eyJ.e30.c2ln")
      (100 * Second + 8) ("eyJ" ++ "." ++ "e30" ++ "." ++ "c2lo")).1
      ⟨"This is a Backend-Training JWT token", 7, "a@example.com",
        "Backend-Training", "Backend-Training Token", some (1000 * Second),
        some (100 * Second), some (100 * Second), "5"⟩ _ (by decide)⟩

/-! ## Responses -/

theorem Error_fresh {w : http.ResponseWriter} (hw : w.status = none) (error : String)
    (code : Nat) :
    (http.Error w error code).status = some code ∧
    (http.Error w error code).body = w.body ++ (error ++ "\n") := by
  simp [http.Error, http.ResponseWriter.Set, http.ResponseWriter.WriteHeader,
    http.ResponseWriter.Write, hw]

/-- C15: through `Middleware.HandlerFunc`, a request whose `Authorization` header is
empty or is refused by the verifier is answered with `http.Error` 401 (status 401 on a
writer not yet used) and the wrapped handler is not invoked; any other request is
handed to the wrapped handler, invoked once, with a context in which `UserContextKey`
holds the user id that `Parse` returned. -/
theorem HandlerFunc_gate {α : Type} (m : Middleware) (next : http.HandlerFunc α)
    (w : http.ResponseWriter) (r : http.Request) (a : α) (n : Nat) :
    ((http.Get r.Header "Authorization" = "" ∨
        (m.verifier.Parse (http.Get r.Header "Authorization")).2 ≠ none) →
      m.HandlerFunc next.counted w r (a, n) =
        (http.Error w "Unauthorized" http.StatusUnauthorized, (a, n)) ∧
      (w.status = none →
        (m.HandlerFunc next.counted w r (a, n)).1.status = some 401)) ∧
    (∀ id : UUID, http.Get r.Header "Authorization" ≠ "" →
      m.verifier.Parse (http.Get r.Header "Authorization") = (id, none) →
      m.HandlerFunc next.counted w r (a, n) =
        ((next w (r.WithContext (context.WithValue r.ctx UserContextKey id)) a).1,
          (next w (r.WithContext (context.WithValue r.ctx UserContextKey id)) a).2, n + 1) ∧
      context.Value (r.WithContext (context.WithValue r.ctx UserContextKey id)).ctx
        UserContextKey = some id) := by
  constructor
  · intro hbad
    have heq : m.HandlerFunc next.counted w r (a, n) =
        (http.Error w "Unauthorized" http.StatusUnauthorized, (a, n)) := by
      rcases hbad with hempty | herr
      · simp [Middleware.HandlerFunc, hempty]
      · by_cases hempty : http.Get r.Header "Authorization" = ""
        · simp [Middleware.HandlerFunc, hempty]
        · rcases hp : m.verifier.Parse (http.Get r.Header "Authorization") with ⟨id, _ | err⟩
          · rw [hp] at herr
            exact absurd rfl herr
          · simp [Middleware.HandlerFunc, hempty, hp]
    refine ⟨heq, fun hw => ?_⟩
    rw [heq]
    exact (Error_fresh hw _ _).1
  · intro id hne hp
    refine ⟨?_, ?_⟩
    · simp [Middleware.HandlerFunc, hne, hp, http.HandlerFunc.counted]
    · simp [http.Request.WithContext, context.WithValue, context.Value, List.lookup]

/-- C15, for a verifier that accepts the header "Bearer t" as user `7` and a handler
that writes "ok": a request without the header is answered 401 and the handler is not
counted; with the header the handler is counted once and sees user `7`. -/
theorem HandlerFunc_gate_witness :
    (Middleware.HandlerFunc
        ⟨⟨fun t => if t = "Bearer t" then (7, none) else (0, some (Error.errorsNew "bad"))⟩⟩
        (http.HandlerFunc.counted (fun w _ (a : Unit) => (w.Write "ok", a)))
        http.ResponseWriter.fresh ⟨[], [], [], "", []⟩ ((), 0)).1.status = some 401 ∧
    Middleware.HandlerFunc
        ⟨⟨fun t => if t = "Bearer t" then (7, none) else (0, some (Error.errorsNew "bad"))⟩⟩
        (http.HandlerFunc.counted (fun w _ (a : Unit) => (w.Write "ok", a)))
        http.ResponseWriter.fresh ⟨[("Authorization", "Bearer t")], [], [], "", []⟩ ((), 0) =
      (⟨[], some 200, "ok"⟩, ((), 1)) :=
  ⟨((HandlerFunc_gate
        ⟨⟨fun t => if t = "Bearer t" then (7, none) else (0, some (Error.errorsNew "bad"))⟩⟩
        (fun w _ (a : Unit) => (w.Write "ok", a))
        http.ResponseWriter.fresh ⟨[], [], [], "", []⟩ () 0).1 (Or.inl (by decide))).2 rfl,
    ((HandlerFunc_gate
        ⟨⟨fun t => if t = "Bearer t" then (7, none) else (0, some (Error.errorsNew "bad"))⟩⟩
        (fun w _ (a : Unit) => (w.Write "ok", a))
        http.ResponseWriter.fresh ⟨[("Authorization", "Bearer t")], [], [], "", []⟩ () 0).2 7
        (by decide) (by decide)).1⟩

/-- C16: for a request that decodes, validates and carries a UUID, whatever error the
rotation returns, `Handler.Refresh` answers with `http.Error` 401 and the fixed text
"Invalid or expired refresh token", in which the error does not appear; the outside
state is the one the rotation left, neither the user lookup nor the minting being
reached. -/
theorem Refresh_rotation_failure {α : Type} (h : Handler α) (wire : Wire)
    (w : http.ResponseWriter) (r : http.Request) (a a1 : α) (req : RefreshRequest)
    (tokenID : UUID) (j : Jwt) (err : Error)
    (hdec : wire.Decode r.Body = (req, none)) (hval : wire.Struct req = none)
    (hparse : wire.Parse req.RefreshToken = (tokenID, none))
    (hrot : h.jwtService.IsAvailable tokenID a = ((j, some err), a1)) :
    h.Refresh wire w r a =
      (http.Error w "Invalid or expired refresh token" http.StatusUnauthorized, a1) ∧
    (w.status = none →
      (h.Refresh wire w r a).1.status = some 401 ∧
      (h.Refresh wire w r a).1.body = w.body ++ "Invalid or expired refresh token\n") := by
  have heq : h.Refresh wire w r a =
      (http.Error w "Invalid or expired refresh token" http.StatusUnauthorized, a1) := by
    simp [Handler.Refresh, hdec, hval, hparse, hrot]
  refine ⟨heq, fun hw => ?_⟩
  rw [heq]
  exact Error_fresh hw _ _

/-- C16, on a table with the used token `1` and the expired token `2`: asking for `1`
(already used), for `2` (expired) and for `9` (unknown) gives the same response. -/
theorem Refresh_rotation_failure_witness :
    (Handler.Refresh
        ⟨(NewService (Env.ok 3)).wired (Library.single ⟨"", 0, "", "", "", none, none, none, ""⟩ "t")
          ⟨500, 501⟩ ⟨500, 500, 500⟩ 5, userService.fixed (user.User.zero, none)⟩
        (Wire.single "one" "id-1" 1) http.ResponseWriter.fresh ⟨[], [], [], "one", []⟩
        ([⟨1, 7, ⟨900, 0, true⟩, false⟩, ⟨2, 7, ⟨100, 0, true⟩, true⟩], ())).1 =
      http.Error http.ResponseWriter.fresh "Invalid or expired refresh token" 401 ∧
    (Handler.Refresh
        ⟨(NewService (Env.ok 3)).wired (Library.single ⟨"", 0, "", "", "", none, none, none, ""⟩ "t")
          ⟨500, 501⟩ ⟨500, 500, 500⟩ 5, userService.fixed (user.User.zero, none)⟩
        (Wire.single "two" "id-2" 2) http.ResponseWriter.fresh ⟨[], [], [], "two", []⟩
        ([⟨1, 7, ⟨900, 0, true⟩, false⟩, ⟨2, 7, ⟨100, 0, true⟩, true⟩], ())).1 =
      http.Error http.ResponseWriter.fresh "Invalid or expired refresh token" 401 ∧
    (Handler.Refresh
        ⟨(NewService (Env.ok 3)).wired (Library.single ⟨"", 0, "", "", "", none, none, none, ""⟩ "t")
          ⟨500, 501⟩ ⟨500, 500, 500⟩ 5, userService.fixed (user.User.zero, none)⟩
        (Wire.single "nine" "id-9" 9) http.ResponseWriter.fresh ⟨[], [], [], "nine", []⟩
        ([⟨1, 7, ⟨900, 0, true⟩, false⟩, ⟨2, 7, ⟨100, 0, true⟩, true⟩], ())).1 =
      http.Error http.ResponseWriter.fresh "Invalid or expired refresh token" 401 :=
  ⟨congrArg Prod.fst (Refresh_rotation_failure _ (Wire.single "one" "id-1" 1)
      http.ResponseWriter.fresh ⟨[], [], [], "one", []⟩ _ _ ⟨"id-1"⟩ 1 Jwt.zero
      (Error.errorsNew "refresh token already used") (by decide) (by decide) (by decide)
      rfl).1,
    congrArg Prod.fst (Refresh_rotation_failure _ (Wire.single "two" "id-2" 2)
      http.ResponseWriter.fresh ⟨[], [], [], "two", []⟩ _ _ ⟨"id-2"⟩ 2 Jwt.zero
      (Error.errorsNew "refresh token expired") (by decide) (by decide) (by decide)
      rfl).1,
    congrArg Prod.fst (Refresh_rotation_failure _ (Wire.single "nine" "id-9" 9)
      http.ResponseWriter.fresh ⟨[], [], [], "nine", []⟩ _ _ ⟨"id-9"⟩ 9 Jwt.zero
      Error.ErrNoRows (by decide) (by decide) (by decide) rfl).1⟩

/-- C19: when the body does not decode, or the decoded request fails validation, or
its refresh token is refused by `uuid.Parse`, `Handler.Refresh` answers with
`http.Error` 400 (status 400 on a writer not yet used) and the outside state is
untouched, whatever the services are: none of them is reached. -/
theorem Refresh_malformed {α : Type} (h : Handler α) (wire : Wire)
    (w : http.ResponseWriter) (r : http.Request) (a : α)
    (hbad : (wire.Decode r.Body).2 ≠ none ∨
      wire.Struct (wire.Decode r.Body).1 ≠ none ∨
      (wire.Parse (wire.Decode r.Body).1.RefreshToken).2 ≠ none) :
    (∃ text, h.Refresh wire w r a = (http.Error w text http.StatusBadRequest, a)) ∧
    (h.Refresh wire w r a).2 = a ∧
    (w.status = none → (h.Refresh wire w r a).1.status = some 400) := by
  have hex : ∃ text, h.Refresh wire w r a = (http.Error w text http.StatusBadRequest, a) := by
    rcases hd : wire.Decode r.Body with ⟨req, _ | derr⟩
    swap
    · exact ⟨"Invalid request body", by simp [Handler.Refresh, hd]⟩
    rcases hv : wire.Struct req with _ | verr
    swap
    · exact ⟨"Validation failed", by simp [Handler.Refresh, hd, hv]⟩
    rcases hp : wire.Parse req.RefreshToken with ⟨tokenID, _ | perr⟩
    swap
    · exact ⟨"Invalid refresh token format", by simp [Handler.Refresh, hd, hv, hp]⟩
    simp [hd, hv, hp] at hbad
  obtain ⟨text, heq⟩ := hex
  refine ⟨⟨text, heq⟩, by rw [heq], fun hw => ?_⟩
  rw [heq]
  exact (Error_fresh hw _ _).1

/-- C19, for a body without a refresh token, on a table with the available token `1`:
status 400 and the table as it was. -/
theorem Refresh_malformed_witness :
    ((Handler.Refresh
        ⟨(NewService (Env.ok 3)).wired (Library.single ⟨"", 0, "", "", "", none, none, none, ""⟩ "t")
          ⟨50, 51⟩ ⟨50, 50, 50⟩ 5, userService.fixed (user.User.zero, none)⟩
        (Wire.single "one" "" 1) http.ResponseWriter.fresh ⟨[], [], [], "one", []⟩
        ([⟨1, 7, ⟨900, 0, true⟩, true⟩], ())).2 = ([⟨1, 7, ⟨900, 0, true⟩, true⟩], ())) ∧
    ((Handler.Refresh
        ⟨(NewService (Env.ok 3)).wired (Library.single ⟨"", 0, "", "", "", none, none, none, ""⟩ "t")
          ⟨50, 51⟩ ⟨50, 50, 50⟩ 5, userService.fixed (user.User.zero, none)⟩
        (Wire.single "one" "" 1) http.ResponseWriter.fresh ⟨[], [], [], "one", []⟩
        ([⟨1, 7, ⟨900, 0, true⟩, true⟩], ())).1.status = some 400) :=
  ⟨(Refresh_malformed _ (Wire.single "one" "" 1) http.ResponseWriter.fresh
      ⟨[], [], [], "one", []⟩ _ (Or.inr (Or.inl (by decide)))).2.1,
    (Refresh_malformed _ (Wire.single "one" "" 1) http.ResponseWriter.fresh
      ⟨[], [], [], "one", []⟩ _ (Or.inr (Or.inl (by decide)))).2.2 rfl⟩

/-- C17 fails on the code: on a table with the available, unexpired token `1`, a
storage failure of the lookup, of the update or of the insert makes `Handler.Refresh`
answer 401 with "Invalid or expired refresh token", not 500; only a failure of the
user lookup is answered 500. -/
theorem Refresh_storage_failure :
    (Handler.Refresh
        ⟨(NewService ⟨some (Error.storage "connection refused"), none, none, 2⟩).wired
          (Library.single ⟨"", 0, "", "", "", none, none, none, ""⟩ "t")
          ⟨50, 51⟩ ⟨50, 50, 50⟩ 5, userService.fixed (⟨7, "a@example.com", ⟨0, 0, true⟩⟩, none)⟩
        (Wire.single "one" "id-1" 1) http.ResponseWriter.fresh ⟨[], [], [], "one", []⟩
        ([⟨1, 7, ⟨900, 0, true⟩, true⟩], ())).1 =
      http.Error http.ResponseWriter.fresh "Invalid or expired refresh token" 401 ∧
    (Handler.Refresh
        ⟨(NewService ⟨none, some (Error.storage "connection refused"), none, 2⟩).wired
          (Library.single ⟨"", 0, "", "", "", none, none, none, ""⟩ "t")
          ⟨50, 51⟩ ⟨50, 50, 50⟩ 5, userService.fixed (⟨7, "a@example.com", ⟨0, 0, true⟩⟩, none)⟩
        (Wire.single "one" "id-1" 1) http.ResponseWriter.fresh ⟨[], [], [], "one", []⟩
        ([⟨1, 7, ⟨900, 0, true⟩, true⟩], ())).1 =
      http.Error http.ResponseWriter.fresh "Invalid or expired refresh token" 401 ∧
    (Handler.Refresh
        ⟨(NewService ⟨none, none, some (Error.storage "connection refused"), 2⟩).wired
          (Library.single ⟨"", 0, "", "", "", none, none, none, ""⟩ "t")
          ⟨50, 51⟩ ⟨50, 50, 50⟩ 5, userService.fixed (⟨7, "a@example.com", ⟨0, 0, true⟩⟩, none)⟩
        (Wire.single "one" "id-1" 1) http.ResponseWriter.fresh ⟨[], [], [], "one", []⟩
        ([⟨1, 7, ⟨900, 0, true⟩, true⟩], ())).1 =
      http.Error http.ResponseWriter.fresh "Invalid or expired refresh token" 401 ∧
    (http.Error http.ResponseWriter.fresh "Invalid or expired refresh token" 401).status =
      some 401 ∧
    (Handler.Refresh
        ⟨(NewService (Env.ok 2)).wired
          (Library.single ⟨"", 0, "", "", "", none, none, none, ""⟩ "t")
          ⟨50, 51⟩ ⟨50, 50, 50⟩ 5,
          userService.fixed (user.User.zero, some (Error.storage "connection refused"))⟩
        (Wire.single "one" "id-1" 1) http.ResponseWriter.fresh ⟨[], [], [], "one", []⟩
        ([⟨1, 7, ⟨900, 0, true⟩, true⟩], ())).1.status = some 500 := by
  decide

/-- C18: on the table, when rotation succeeds with the record `j`, the user lookup for
`j.UserID` succeeds with `usr`, minting for `j.UserID` and `usr.Email` succeeds with
`tok` and the response encodes, `Handler.Refresh` answers 200 with content type
`application/json` and, as body, the encoding of the response whose `access_token` is
`tok` and whose `refresh_token` is the text of `j.ID`; `j` belongs to the user of the
redeemed record and has another id. -/
theorem Refresh_success {υ : Type} (e : Env) (lib : Library) (now : Clock) (issue : IssueClock)
    (jwtID : UUID) (us : userService (List Jwt × υ)) (wire : Wire)
    (w : http.ResponseWriter) (r : http.Request) (db db1 : List Jwt) (u0 : υ)
    (a2 : List Jwt × υ) (req : RefreshRequest) (tokenID : UUID) (j : Jwt) (usr : user.User)
    (tok text : String)
    (hdec : wire.Decode r.Body = (req, none)) (hval : wire.Struct req = none)
    (hparse : wire.Parse req.RefreshToken = (tokenID, none))
    (hrot : (NewService e).IsAvailable now tokenID db = ((j, none), db1))
    (huser : us.GetByID j.UserID (db1, u0) = ((usr, none), a2))
    (hnew : (NewService e).New lib issue jwtID j.UserID usr.Email = (tok, none))
    (henc : wire.Encode ⟨tok, wire.uuidString j.ID⟩ = (text, none))
    (hw : w.status = none) :
    (Handler.Refresh ⟨(NewService e).wired lib now issue jwtID, us⟩ wire w r (db, u0)).1.status =
      some 200 ∧
    (Handler.Refresh ⟨(NewService e).wired lib now issue jwtID, us⟩ wire w r (db, u0)).1.body =
      w.body ++ text ∧
    http.Get (Handler.Refresh ⟨(NewService e).wired lib now issue jwtID, us⟩ wire w r
      (db, u0)).1.header "Content-Type" = "application/json" ∧
    (Handler.Refresh ⟨(NewService e).wired lib now issue jwtID, us⟩ wire w r (db, u0)).2 = a2 ∧
    ∃ old, db.find? (fun x => x.ID == tokenID) = some old ∧ j.UserID = old.UserID ∧
      j.ID ≠ tokenID := by
  have heq : Handler.Refresh ⟨(NewService e).wired lib now issue jwtID, us⟩ wire w r (db, u0) =
      ((((w.Set "Content-Type" "application/json").WriteHeader http.StatusOK).Write text),
        a2) := by
    simp [Handler.Refresh, hdec, hval, hparse, Service.wired, hrot, huser, hnew, henc]
  obtain ⟨old, -, -, -, hf, -, -, hn, hout, -⟩ := table_success hrot
  obtain ⟨hid, hmem⟩ := find_some hf
  have hne : j.ID ≠ tokenID := by
    intro hc
    have hc2 : e.newID = tokenID := by
      rw [hout] at hc
      exact hc
    have : db.any (fun x => x.ID == e.newID) = true := by
      simp only [List.any_eq_true]
      exact ⟨old, hmem, by simp [hid, hc2]⟩
    rw [hn] at this
    exact Bool.false_ne_true this
  rw [heq]
  refine ⟨?_, ?_, ?_, rfl, old, hf, by rw [hout], hne⟩
  · simp [http.ResponseWriter.Set, http.ResponseWriter.WriteHeader, http.ResponseWriter.Write,
      hw, http.StatusOK]
  · simp [http.ResponseWriter.Set, http.ResponseWriter.WriteHeader, http.ResponseWriter.Write,
      hw]
  · simp [http.ResponseWriter.Set, http.ResponseWriter.WriteHeader, http.ResponseWriter.Write,
      hw, http.Get, List.lookup]

/-- C18, on a table with the available token `1` of user `7`, whose email is
"a@example.com": the response carries the token minted for `7` and that email, and the
text of the new id `2`. -/
theorem Refresh_success_witness :
    (Handler.Refresh
        ⟨(NewService (Env.ok 2)).wired
          (Library.single ⟨"This is a Backend-Training JWT token", 7, "a@example.com",
            "Backend-Training", "Backend-Training Token", some (1000 * Second),
            some (100 * Second), some (100 * Second), "5"⟩ "eyJ.e30.c2ln")
          ⟨50, 51⟩ ⟨100 * Second + 7, 100 * Second + 8, 100 * Second + 9⟩ 5,
          userService.fixed (⟨7, "a@example.com", ⟨0, 0, true⟩⟩, none)⟩
        (Wire.single "one" "id-1" 1) http.ResponseWriter.fresh ⟨[], [], [], "one", []⟩
        ([⟨1, 7, ⟨900, 0, true⟩, true⟩], ())).1.body =
      "" ++ "\x7b\"access_token\":\"eyJ.e30.c2ln\",\"refresh_token\":\"2\"\x7d\n" :=
  (Refresh_success (Env.ok 2) _ ⟨50, 51⟩ ⟨100 * Second + 7, 100 * Second + 8, 100 * Second + 9⟩
      5 (userService.fixed (⟨7, "a@example.com", ⟨0, 0, true⟩⟩, none))
      (Wire.single "one" "id-1" 1) http.ResponseWriter.fresh ⟨[], [], [], "one", []⟩
      [⟨1, 7, ⟨900, 0, true⟩, true⟩] _ () _ ⟨"id-1"⟩ 1 _ ⟨7, "a@example.com", ⟨0, 0, true⟩⟩
      "eyJ.e30.c2ln" _ (by decide) (by decide) (by decide) rfl rfl (by decide) rfl rfl).2.1

end jwt

/-! ## The user table -/

namespace user

open jwt (UUID Timestamptz Error)

/-- The lookup by email leaves the table as it was, and a user it returns is the first
row of the table with that email. -/
theorem GetByEmail_table (e : Env) (email : String) (db : List User) :
    ((NewService e).GetByEmail email db).2 = db ∧
    ∀ u, ((NewService e).GetByEmail email db).1 = (u, none) →
      db.find? (fun x => x.Email == email) = some u := by
  rcases hf : e.getByEmailFault with _ | err
  · rcases hd : db.find? (fun x => x.Email == email) with _ | u0
    · simp [NewService, Service.GetByEmail, Queries, Queries.GetByEmail, hf, hd]
    · simp [NewService, Service.GetByEmail, Queries, Queries.GetByEmail, hf, hd]
  · simp [NewService, Service.GetByEmail, Queries, Queries.GetByEmail, hf]

/-- The existence check leaves the table as it was. -/
theorem ExistsByEmail_table (e : Env) (email : String) (db : List User) :
    ((NewService e).ExistsByEmail email db).2 = db := by
  rcases hf : e.existsFault with _ | err <;>
    simp [NewService, Service.ExistsByEmail, Queries, Queries.ExistsByEmail, hf]

/-- The insert of a user either fails and changes nothing, or appends the one new row,
which has the email asked for, to a table that held no row of that email. -/
theorem Create_user_table (e : Env) (email : String) (db : List User) :
    (((NewService e).Create email db).1.2 ≠ none ∧ ((NewService e).Create email db).2 = db) ∨
    (db.any (fun x => x.Email == email) = false ∧
      ((NewService e).Create email db).1 = (⟨e.newID, email, e.createdAt⟩, none) ∧
      ((NewService e).Create email db).2 = db ++ [⟨e.newID, email, e.createdAt⟩]) := by
  rcases hf : e.createFault with _ | err
  · rcases h1 : db.any (fun x => x.Email == email) with _ | _
    · rcases h2 : db.any (fun x => x.ID == e.newID) with _ | _
      · right
        simp [NewService, Service.Create, Queries, Queries.Create, hf, h1, h2]
      · left
        simp [NewService, Service.Create, Queries, Queries.Create, hf, h1, h2]
    · left
      simp [NewService, Service.Create, Queries, Queries.Create, hf, h1]
  · left
    simp [NewService, Service.Create, Queries, Queries.Create, hf]

/-- An existence check that is answered is answered from the table. -/
theorem ExistsByEmail_answer (e : Env) (email : String) (db db1 : List User) (b : Bool)
    (h : (NewService e).ExistsByEmail email db = ((b, none), db1)) :
    b = db.any (fun x => x.Email == email) ∧ db1 = db := by
  rcases hf : e.existsFault with _ | err
  · simp [NewService, Service.ExistsByEmail, Queries, Queries.ExistsByEmail, hf] at h
    exact ⟨h.1.symm, h.2.symm⟩
  · simp [NewService, Service.ExistsByEmail, Queries, Queries.ExistsByEmail, hf] at h

/-- A user that was found by its email, or created with it after the lookup failed, is
in the table afterwards. -/
theorem resolved_in_table (e : Env) (email : String) (db db1 : List User) (u : User)
    (hres : (NewService e).GetByEmail email db = ((u, none), db1) ∨
      ∃ x err b, (NewService e).GetByEmail email db = ((x, some err), b) ∧
        (NewService e).Create email b = ((u, none), db1)) :
    db1.any (fun x => x.Email == email) = true := by
  rcases hres with hg | ⟨x, err, b, hg, hc⟩
  · have h1 := (GetByEmail_table e email db).1
    have h2 := (GetByEmail_table e email db).2 u (by rw [hg])
    rw [hg] at h1
    simp only at h1
    subst h1
    have h3 := List.find?_some h2
    have h4 := List.mem_of_find?_eq_some h2
    exact List.any_eq_true.mpr ⟨u, h4, h3⟩
  · rcases Create_user_table e email b with ⟨h1, -⟩ | ⟨-, -, h3⟩
    · rw [hc] at h1
      simp at h1
    · rw [hc] at h3
      simp only at h3
      subst h3
      simp

end user

namespace jwt

/-! ## Inserts and partial failure of the refresh endpoint -/

/-- A successful insert of a refresh token appends the one new row, made for the user
asked for. -/
theorem Create_token_table (e : Env) (userID : UUID) (time : Timestamptz) (db db1 : List Jwt)
    (j : Jwt) (h : (NewService e).Create userID time db = ((j, none), db1)) :
    j.UserID = userID ∧ j.ExpirationTime = time ∧ db1 = db ++ [j] := by
  rcases hc : e.createFault with _ | err
  · rcases hn : db.any (fun x => x.ID == e.newID) with _ | _
    · simp only [Service.Create, create_fresh e hc _ hn, Prod.mk.injEq, and_true] at h
      obtain ⟨h1, h2⟩ := h
      subst h1
      exact ⟨rfl, rfl, h2.symm⟩
    · simp [Service.Create, create_taken e hc _ hn] at h
  · simp [Service.Create, create_fault e hc] at h

/-- The insert that a call of `Service.IsAvailable` issues, if any, is for the user of
the record found and for the clock reading of line 179 plus 30 minutes. -/
theorem Service.IsAvailable_create_arg {σ : Type} (s : Service σ) (now : Clock) (id : UUID)
    (st : σ) (arg : CreateParams)
    (h : Call.Create arg ∈ (s.traced.IsAvailable now id (st, [])).2.2) :
    arg.ExpirationTime = ⟨now.issue + 30 * Minute, 0, true⟩ ∧
    arg.UserID = (s.queries.IsAvailable id st).1.1.UserID := by
  rcases hq : s.queries.IsAvailable id st with ⟨⟨r, _ | err⟩, st1⟩
  swap
  · simp [Service.IsAvailable, Service.traced, Querier.traced, hq] at h
  rcases ha : r.IsAvailable with _ | _
  · simp [Service.IsAvailable, Service.traced, Querier.traced, hq, ha] at h
  rcases hu : s.queries.Update ⟨id, false⟩ st1 with ⟨⟨u, _ | err⟩, st2⟩
  swap
  · by_cases hx : r.ExpirationTime.Time < now.check
    · simp [Service.IsAvailable, Service.Update, Service.traced, Querier.traced, hq, ha, hx,
        hu] at h
    · simp [Service.IsAvailable, Service.Update, Service.traced, Querier.traced, hq, ha, hx,
        hu] at h
  by_cases hx : r.ExpirationTime.Time < now.check
  · simp [Service.IsAvailable, Service.Update, Service.traced, Querier.traced, hq, ha, hx,
      hu] at h
  rcases hc : s.queries.Create ⟨r.UserID, ⟨now.issue + 30 * Minute, 0, true⟩⟩ st2 with
    ⟨⟨c, _ | err⟩, st3⟩
  · simp [Service.IsAvailable, Service.Update, Service.Create, Service.traced, Querier.traced,
      hq, ha, hx, hu, hc] at h
    subst h
    exact ⟨rfl, rfl⟩
  · simp [Service.IsAvailable, Service.Update, Service.Create, Service.traced, Querier.traced,
      hq, ha, hx, hu, hc] at h
    subst h
    exact ⟨rfl, rfl⟩

/-- A call of `Service.IsAvailable` that succeeds has issued the lookup, the update and
one insert, for the clock reading of line 179 plus 30 minutes. -/
theorem Service.IsAvailable_success_calls {σ : Type} (s : Service σ) (now : Clock) (id : UUID)
    (st : σ) (h : (s.traced.IsAvailable now id (st, [])).1.2 = none) :
    (s.traced.IsAvailable now id (st, [])).2.2 =
      [Call.IsAvailable id, Call.Update ⟨id, false⟩,
        Call.Create ⟨(s.queries.IsAvailable id st).1.1.UserID,
          ⟨now.issue + 30 * Minute, 0, true⟩⟩] := by
  rcases hq : s.queries.IsAvailable id st with ⟨⟨r, _ | err⟩, st1⟩
  swap
  · simp [Service.IsAvailable, Service.traced, Querier.traced, hq] at h
  rcases ha : r.IsAvailable with _ | _
  · simp [Service.IsAvailable, Service.traced, Querier.traced, hq, ha] at h
  rcases hu : s.queries.Update ⟨id, false⟩ st1 with ⟨⟨u, _ | err⟩, st2⟩
  swap
  · by_cases hx : r.ExpirationTime.Time < now.check
    · simp [Service.IsAvailable, Service.Update, Service.traced, Querier.traced, hq, ha, hx,
        hu] at h
    · simp [Service.IsAvailable, Service.Update, Service.traced, Querier.traced, hq, ha, hx,
        hu] at h
  by_cases hx : r.ExpirationTime.Time < now.check
  · simp [Service.IsAvailable, Service.Update, Service.traced, Querier.traced, hq, ha, hx,
      hu] at h
  rcases hc : s.queries.Create ⟨r.UserID, ⟨now.issue + 30 * Minute, 0, true⟩⟩ st2 with
    ⟨⟨c, _ | err⟩, st3⟩
  · simp [Service.IsAvailable, Service.Update, Service.Create, Service.traced, Querier.traced,
      hq, ha, hx, hu, hc]
  · simp [Service.IsAvailable, Service.Update, Service.Create, Service.traced, Querier.traced,
      hq, ha, hx, hu, hc] at h

/-- C30: on the table, when rotation succeeds and then the user lookup or the minting
fails, `Handler.Refresh` answers `http.Error` 500 "Failed to create new access token"
(no token in the body) while the table has changed: the presented token is unavailable,
the successor is stored, available, and returned to nobody; a retry of the same
request, whatever the storage layer and the clock then do, is answered 401. -/
theorem Refresh_partial_failure {υ : Type} (e : Env) (lib : Library) (now : Clock)
    (issue : IssueClock) (jwtID : UUID) (us : userService υ) (wire : Wire)
    (w : http.ResponseWriter) (r : http.Request) (db db1 : List Jwt) (u0 : υ)
    (req : RefreshRequest) (tokenID : UUID) (j : Jwt)
    (hdec : wire.Decode r.Body = (req, none)) (hval : wire.Struct req = none)
    (hparse : wire.Parse req.RefreshToken = (tokenID, none))
    (hrot : (NewService e).IsAvailable now tokenID db = ((j, none), db1))
    (hfail : (us.GetByID j.UserID u0).1.2 ≠ none ∨
      ((NewService e).New lib issue jwtID j.UserID (us.GetByID j.UserID u0).1.1.Email).2 ≠ none)
    (hw : w.status = none) :
    (Handler.Refresh ⟨(NewService e).wired lib now issue jwtID, us.onRest⟩ wire w r (db, u0)).1 =
      http.Error w "Failed to create new access token" http.StatusInternalServerError ∧
    (Handler.Refresh ⟨(NewService e).wired lib now issue jwtID, us.onRest⟩ wire w r
      (db, u0)).1.status = some 500 ∧
    (Handler.Refresh ⟨(NewService e).wired lib now issue jwtID, us.onRest⟩ wire w r
      (db, u0)).1.body = w.body ++ "Failed to create new access token\n" ∧
    (Handler.Refresh ⟨(NewService e).wired lib now issue jwtID, us.onRest⟩ wire w r
      (db, u0)).2.1 = db1 ∧
    unavailable db1 tokenID ∧ j ∈ db1 ∧ j.IsAvailable = true ∧ j.ID ≠ tokenID ∧
    ∀ (e2 : Env) (lib2 : Library) (now2 : Clock) (issue2 : IssueClock) (jwtID2 : UUID)
      (us2 : userService υ) (u1 : υ),
      Handler.Refresh ⟨(NewService e2).wired lib2 now2 issue2 jwtID2, us2.onRest⟩ wire w r
          (db1, u1) =
        (http.Error w "Invalid or expired refresh token" http.StatusUnauthorized, (db1, u1)) := by
  have hres : (Handler.Refresh ⟨(NewService e).wired lib now issue jwtID, us.onRest⟩ wire w r
        (db, u0)).1 =
        http.Error w "Failed to create new access token" http.StatusInternalServerError ∧
      (Handler.Refresh ⟨(NewService e).wired lib now issue jwtID, us.onRest⟩ wire w r
        (db, u0)).2.1 = db1 := by
    rcases hu : us.GetByID j.UserID u0 with ⟨⟨usr, _ | uerr⟩, u1⟩
    · rw [hu] at hfail
      simp only [ne_eq, not_true_eq_false, false_or] at hfail
      rcases hn : (NewService e).New lib issue jwtID j.UserID usr.Email with ⟨tok, _ | nerr⟩
      · rw [hn] at hfail
        exact absurd rfl hfail
      · simp [Handler.Refresh, hdec, hval, hparse, Service.wired, userService.onRest, hrot, hu,
          hn]
    · simp [Handler.Refresh, hdec, hval, hparse, Service.wired, userService.onRest, hrot, hu]
  obtain ⟨old, -, -, -, hf, -, -, hn, hout, hdb⟩ := table_success hrot
  obtain ⟨hid, hmem⟩ := find_some hf
  have hun := unavailable_of_success hrot
  have hne : j.ID ≠ tokenID := by
    intro hc
    have hc2 : e.newID = tokenID := by
      rw [hout] at hc
      exact hc
    have : db.any (fun x => x.ID == e.newID) = true := by
      simp only [List.any_eq_true]
      exact ⟨old, hmem, by simp [hid, hc2]⟩
    rw [hn] at this
    exact Bool.false_ne_true this
  refine ⟨hres.1, ?_, ?_, hres.2, hun, ?_, by rw [hout], hne, ?_⟩
  · rw [hres.1]
    exact (Error_fresh hw _ _).1
  · rw [hres.1]
    exact (Error_fresh hw _ _).2
  · rw [hdb]
    simp
  · intro e2 lib2 now2 issue2 jwtID2 us2 u1
    obtain ⟨h1, h2, h3, -⟩ := unavailable_call hun e2 now2
    rcases hr : (NewService e2).IsAvailable now2 tokenID db1 with ⟨⟨j2, _ | err2⟩, db2⟩
    · rw [hr] at h2
      exact absurd rfl h2
    · rw [hr] at h3
      simp only at h3
      subst h3
      simp [Handler.Refresh, hdec, hval, hparse, Service.wired, hr]

/-- C30, on a table with the available token `1` of a user that the user store does not
know: the response is 500 and the table holds the used token and its successor. -/
theorem Refresh_partial_failure_witness :
    Handler.Refresh
        ⟨(NewService (Env.ok 2)).wired
          (Library.single ⟨"", 0, "", "", "", none, none, none, ""⟩ "t")
          ⟨50, 51⟩ ⟨50, 50, 50⟩ 5,
          userService.onRest (userService.fixed (user.User.zero, some Error.ErrNoRows))⟩
        (Wire.single "one" "id-1" 1) http.ResponseWriter.fresh ⟨[], [], [], "one", []⟩
        ([⟨1, 7, ⟨900, 0, true⟩, true⟩], ()) =
      (http.Error http.ResponseWriter.fresh "Failed to create new access token" 500,
        ([⟨1, 7, ⟨900, 0, true⟩, false⟩, ⟨2, 7, ⟨51 + 30 * Minute, 0, true⟩, true⟩], ())) ∧
    (Handler.Refresh
        ⟨(NewService (Env.ok 2)).wired
          (Library.single ⟨"", 0, "", "", "", none, none, none, ""⟩ "t")
          ⟨50, 51⟩ ⟨50, 50, 50⟩ 5,
          userService.onRest (userService.fixed (user.User.zero, some Error.ErrNoRows))⟩
        (Wire.single "one" "id-1" 1) http.ResponseWriter.fresh ⟨[], [], [], "one", []⟩
        ([⟨1, 7, ⟨900, 0, true⟩, true⟩], ())).1.status = some 500 :=
  ⟨by decide,
    (Refresh_partial_failure (Env.ok 2)
      (Library.single ⟨"", 0, "", "", "", none, none, none, ""⟩ "t") ⟨50, 51⟩ ⟨50, 50, 50⟩ 5
      (userService.fixed (user.User.zero, some Error.ErrNoRows)) (Wire.single "one" "id-1" 1)
      http.ResponseWriter.fresh ⟨[], [], [], "one", []⟩ [⟨1, 7, ⟨900, 0, true⟩, true⟩]
      [⟨1, 7, ⟨900, 0, true⟩, false⟩, ⟨2, 7, ⟨51 + 30 * Minute, 0, true⟩, true⟩] ()
      ⟨"id-1"⟩ 1 ⟨2, 7, ⟨51 + 30 * Minute, 0, true⟩, true⟩ (by decide) (by decide) (by decide)
      rfl (Or.inl (by decide)) rfl).2.1⟩

end jwt

/-! ## The callback -/

namespace auth

open jwt (UUID Time Timestamptz Jwt Error Minute)

/-! ## Successful callbacks -/

/-- A URL that ends in the error parameter is not one that carries the tokens. -/
theorem error_url_ne (t x rest : String) :
    t ++ "?error=" ++ x ≠ t ++ "?access_token=" ++ rest := by
  intro h
  have h2 := congrArg String.data h
  simp only [String.data_append, List.append_assoc] at h2
  have h3 := List.append_cancel_left h2
  simp at h3

/-- The empty string is not a URL that carries the tokens. -/
theorem empty_ne (t rest : String) : "" ≠ t ++ "?access_token=" ++ rest := by
  intro h
  have h2 := congrArg String.data h
  simp only [String.data_append, List.append_assoc] at h2
  have h3 := congrArg List.length h2
  simp at h3
  omega

/-- The response of `http.Error` on a fresh writer has no `Location`. -/
theorem Location_Error (error : String) (code : Nat) :
    http.Get (http.Error http.ResponseWriter.fresh error code).header "Location" = "" := by
  simp [http.Error, http.ResponseWriter.Set, http.ResponseWriter.WriteHeader,
    http.ResponseWriter.Write, http.ResponseWriter.fresh, http.Get, List.lookup]

/-- The response of `http.Redirect` on a fresh writer has the URL as its `Location`. -/
theorem Location_Redirect (url : String) (code : Nat) :
    http.Get (http.Redirect http.ResponseWriter.fresh url code).header "Location" = url := by
  simp [http.Redirect, http.ResponseWriter.Set, http.ResponseWriter.WriteHeader,
    http.ResponseWriter.fresh, http.Get, List.lookup]

/-- The response of `http.Error` does not send the tokens. -/
theorem not_sent_Error (t error : String) (code : Nat) :
    ¬ ∃ rest : String, http.Get (http.Error http.ResponseWriter.fresh error code).header
      "Location" = t ++ "?access_token=" ++ rest := by
  rintro ⟨rest, h⟩
  rw [Location_Error] at h
  exact empty_ne t rest h

/-- The redirect with the error parameter does not send the tokens. -/
theorem not_sent_Redirect (t x : String) (code : Nat) :
    ¬ ∃ rest : String,
      http.Get (http.Redirect http.ResponseWriter.fresh (t ++ "?error=" ++ x) code).header
        "Location" = t ++ "?access_token=" ++ rest := by
  rintro ⟨rest, h⟩
  rw [Location_Redirect] at h
  exact error_url_ne t x rest h

/-- A response of lines 151 to 193 that sends the tokens comes from a run in which the
minting, the existence check, the creation after a negative check and the creation of
the refresh token all succeeded. -/
theorem issue_sent {α : Type} (h : Handler α) (now : Time) (t : String) (info : UserInfo)
    (dbUser : user.User) (a : α)
    (hs : ∃ rest : String,
      http.Get (h.issue now t info dbUser http.ResponseWriter.fresh a).1.header "Location" =
        t ++ "?access_token=" ++ rest) :
    ∃ tok a1 b a2 a3 j a4,
      h.jwtService.New dbUser.ID dbUser.Email a = ((tok, none), a1) ∧
      h.userService.ExistsByEmail info.Email a1 = ((b, none), a2) ∧
      ((b = true ∧ a3 = a2) ∨
        (b = false ∧ ∃ u, h.userService.Create info.Email a2 = ((u, none), a3))) ∧
      h.rtService.Create dbUser.ID ⟨now + 30 * Minute, 0, true⟩ a3 = ((j, none), a4) ∧
      (h.issue now t info dbUser http.ResponseWriter.fresh a).2 = a4 := by
  rcases hn : h.jwtService.New dbUser.ID dbUser.Email a with ⟨⟨tok, _ | nerr⟩, a1⟩
  swap
  · simp only [Handler.issue, hn] at hs
    exact absurd hs (not_sent_Redirect _ _ _)
  rcases he : h.userService.ExistsByEmail info.Email a1 with ⟨⟨b, _ | eerr⟩, a2⟩
  swap
  · simp only [Handler.issue, hn, he] at hs
    exact absurd hs (not_sent_Redirect _ _ _)
  cases b
  · rcases hu : h.userService.Create info.Email a2 with ⟨⟨u, _ | uerr⟩, a3⟩
    swap
    · simp only [Handler.issue, hn, he, hu, Bool.not_false, if_true] at hs
      exact absurd hs (not_sent_Error _ _ _)
    rcases hc : h.rtService.Create dbUser.ID ⟨now + 30 * Minute, 0, true⟩ a3 with
      ⟨⟨j, _ | cerr⟩, a4⟩
    · exact ⟨tok, a1, false, a2, a3, j, a4, rfl, he, Or.inr ⟨rfl, u, hu⟩, hc,
        by simp [Handler.issue, hn, he, hu, hc]⟩
    · simp only [Handler.issue, hn, he, hu, hc, Bool.not_false, if_true] at hs
      exact absurd hs (not_sent_Redirect _ _ _)
  · rcases hc : h.rtService.Create dbUser.ID ⟨now + 30 * Minute, 0, true⟩ a2 with
      ⟨⟨j, _ | cerr⟩, a4⟩
    · exact ⟨tok, a1, true, a2, a2, j, a4, rfl, he, Or.inl ⟨rfl, rfl⟩, hc,
        by simp [Handler.issue, hn, he, hc]⟩
    · simp only [Handler.issue, hn, he, hc, Bool.not_true, Bool.false_eq_true, if_false] at hs
      exact absurd hs (not_sent_Redirect _ _ _)

/-- A callback that has succeeded went through every step without an error: the user
was found, or not found and then created. -/
theorem Callback_sent {α : Type} (h : Handler α) (now : Time) (r : http.Request) (a : α)
    (hs : succeeded h.baseURL r (h.Callback now http.ResponseWriter.fresh r a).1) :
    ∃ provider token a1 info a2 dbUser a3,
      h.provider (http.Get r.Path "provider") = some provider ∧
      provider.Exchange (http.Get r.Query "code") a = ((token, none), a1) ∧
      provider.GetUserInfo token a1 = ((info, none), a2) ∧
      (h.userService.GetByEmail info.Email a2 = ((dbUser, none), a3) ∨
        ∃ x err a2', h.userService.GetByEmail info.Email a2 = ((x, some err), a2') ∧
          h.userService.Create info.Email a2' = ((dbUser, none), a3)) ∧
      h.Callback now http.ResponseWriter.fresh r a =
        h.issue now (target h.baseURL r) info dbUser http.ResponseWriter.fresh a3 ∧
      ∃ rest : String,
        http.Get (h.issue now (target h.baseURL r) info dbUser http.ResponseWriter.fresh
          a3).1.header "Location" = target h.baseURL r ++ "?access_token=" ++ rest := by
  unfold succeeded at hs
  rcases hp : h.provider (http.Get r.Path "provider") with _ | provider
  · simp only [Handler.Callback, hp] at hs
    exact absurd hs (not_sent_Error _ _ _)
  by_cases herr : http.Get r.Query "error" = ""
  swap
  · have hne : (http.Get r.Query "error" != "") = true := by simpa using herr
    simp only [Handler.Callback, hp, hne, if_true] at hs
    exact absurd hs (not_sent_Redirect (target h.baseURL r) _ _)
  have herr2 : (http.Get r.Query "error" != "") = false := by simp [herr]
  by_cases hcode : http.Get r.Query "code" = ""
  · have hc2 : (http.Get r.Query "code" == "") = true := by simp [hcode]
    simp only [Handler.Callback, hp, herr2, hc2, if_true, Bool.false_eq_true, if_false] at hs
    exact absurd hs (not_sent_Redirect (target h.baseURL r) _ _)
  have hcode2 : (http.Get r.Query "code" == "") = false := by simpa using hcode
  rcases hx : provider.Exchange (http.Get r.Query "code") a with ⟨⟨token, _ | xerr⟩, a1⟩
  swap
  · simp only [Handler.Callback, hp, herr2, hcode2, hx, Bool.false_eq_true, if_false] at hs
    exact absurd hs (not_sent_Redirect (target h.baseURL r) _ _)
  rcases hi : provider.GetUserInfo token a1 with ⟨⟨info, _ | ierr⟩, a2⟩
  swap
  · simp only [Handler.Callback, hp, herr2, hcode2, hx, hi, Bool.false_eq_true, if_false] at hs
    exact absurd hs (not_sent_Redirect (target h.baseURL r) _ _)
  rcases hg : h.userService.GetByEmail info.Email a2 with ⟨⟨dbUser, _ | gerr⟩, a3⟩
  · have heq : h.Callback now http.ResponseWriter.fresh r a =
        h.issue now (target h.baseURL r) info dbUser http.ResponseWriter.fresh a3 := by
      simp [Handler.Callback, hp, herr2, hcode2, hx, hi, hg, target]
    rw [heq] at hs
    exact ⟨provider, token, a1, info, a2, dbUser, a3, rfl, hx, hi, Or.inl hg, heq, hs⟩
  · rcases hc : h.userService.Create info.Email a3 with ⟨⟨dbUser2, _ | cerr⟩, a4⟩
    · have heq : h.Callback now http.ResponseWriter.fresh r a =
          h.issue now (target h.baseURL r) info dbUser2 http.ResponseWriter.fresh a4 := by
        simp [Handler.Callback, hp, herr2, hcode2, hx, hi, hg, hc, target]
      rw [heq] at hs
      exact ⟨provider, token, a1, info, a2, dbUser2, a4, rfl, hx, hi,
        Or.inr ⟨dbUser, gerr, a3, hg, hc⟩, heq, hs⟩
    · simp only [Handler.Callback, hp, herr2, hcode2, hx, hi, hg, hc, Bool.false_eq_true,
        if_false] at hs
      exact absurd hs (not_sent_Redirect (target h.baseURL r) _ _)

/-- A row found by its email is a row of the table with that email. -/
theorem any_of_find {db : List user.User} {email : String} {u : user.User}
    (h : db.find? (fun x => x.Email == email) = some u) :
    db.any (fun x => x.Email == email) = true ∧ u.Email = email := by
  have h1 := List.find?_some h
  have h2 := List.mem_of_find?_eq_some h
  have h3 : u.Email = email := by simpa using h1
  exact ⟨List.any_eq_true.mpr ⟨u, h2, by simp [h3]⟩, h3⟩

/-- What a successful callback does to the two tables of the wired handler: the user
with the email of the identity is the one found, or is created when none is found, and
one refresh-token record is added, for that user. -/
theorem NewHandler_sent (baseURL : String) (e : Env) (now : Time) (r : http.Request)
    (users : List user.User) (jwts : List Jwt) (email : String)
    (hinfo : ∀ tok, (e.userinfo tok).1.Email = email)
    (hs : succeeded baseURL r
      ((NewHandler baseURL e).Callback now http.ResponseWriter.fresh r (users, jwts)).1) :
    ∃ dbUser j,
      ((users.find? (fun x => x.Email == email) = some dbUser ∧
          ((NewHandler baseURL e).Callback now http.ResponseWriter.fresh r
            (users, jwts)).2.1 = users) ∨
        (users.any (fun x => x.Email == email) = false ∧ dbUser.Email = email ∧
          ((NewHandler baseURL e).Callback now http.ResponseWriter.fresh r
            (users, jwts)).2.1 = users ++ [dbUser])) ∧
      j.UserID = dbUser.ID ∧
      ((NewHandler baseURL e).Callback now http.ResponseWriter.fresh r (users, jwts)).2.2 =
        jwts ++ [j] := by
  obtain ⟨provider, token, a1, info, a2, dbUser, a3, hp, hx, hi, hres, heq, hsent⟩ :=
    Callback_sent (NewHandler baseURL e) now r (users, jwts) hs
  -- the provider of the wired handler
  have hprov : provider = ⟨"google", e.authCodeURL, fun code a => (e.exchange code, a),
      fun token a => (e.userinfo token, a)⟩ := by
    simp only [NewHandler] at hp
    split at hp
    · exact (Option.some.inj hp).symm
    · simp at hp
  subst hprov
  simp only [Prod.mk.injEq] at hx hi
  obtain ⟨hx1, hx2⟩ := hx
  obtain ⟨hi1, hi2⟩ := hi
  subst hx2
  subst hi2
  have hmail : info.Email = email := by
    have hthis := hinfo token
    rw [Prod.ext_iff] at hi1
    have h1 : (e.userinfo token).1 = info := hi1.1
    rw [← h1]
    exact hthis
  -- the minting and what follows
  obtain ⟨tok, a4, b, a5, a6, j, a7, hn, he, hb, hc, hfin⟩ :=
    issue_sent (NewHandler baseURL e) now (target (NewHandler baseURL e).baseURL r) info dbUser
      a3 hsent
  have hn2 : a4 = a3 := by
    simp only [NewHandler, Prod.mk.injEq] at hn
    exact hn.2.symm
  subst hn2
  have ha5 : a5 = a4 := by
    simp only [NewHandler, Prod.mk.injEq] at he
    rw [← he.2, user.ExistsByEmail_table]
  subst ha5
  -- the resolution of the user
  have hresolve : (users.find? (fun x => x.Email == email) = some dbUser ∧ a5.1 = users ∧
        a5.2 = jwts) ∨
      (users.any (fun x => x.Email == email) = false ∧ dbUser.Email = email ∧
        a5.1 = users ++ [dbUser] ∧ a5.2 = jwts) := by
    rcases hres with hg | ⟨x, err, a2', hg, hcr⟩
    · simp only [NewHandler, Prod.mk.injEq] at hg
      obtain ⟨hg1, hg2⟩ := hg
      have hst := (user.GetByEmail_table e.users info.Email users).1
      have hfound := (user.GetByEmail_table e.users info.Email users).2 dbUser hg1
      rw [hmail] at hfound
      left
      refine ⟨hfound, ?_, ?_⟩
      · rw [← hg2]; exact hst
      · rw [← hg2]
    · simp only [NewHandler, Prod.mk.injEq] at hg hcr
      obtain ⟨-, hg2⟩ := hg
      obtain ⟨hc1, hc2⟩ := hcr
      have hst := (user.GetByEmail_table e.users info.Email users).1
      have ha2 : a2'.1 = users ∧ a2'.2 = jwts := by
        rw [← hg2]; exact ⟨hst, rfl⟩
      rcases user.Create_user_table e.users info.Email a2'.1 with ⟨hfail, -⟩ | ⟨hany, hu, hdb⟩
      · rw [hc1] at hfail
        exact absurd rfl hfail
      · right
        rw [hc1] at hu
        have hu2 : dbUser = ⟨e.users.newID, info.Email, e.users.createdAt⟩ :=
          (Prod.ext_iff.mp hu).1
        rw [ha2.1, hmail] at hany
        refine ⟨hany, by rw [hu2]; exact hmail, ?_, ?_⟩
        · rw [← hc2]
          show ((user.NewService e.users).Create info.Email a2'.1).2 = users ++ [dbUser]
          rw [hdb, ha2.1, hu2]
        · rw [← hc2]
          exact ha2.2
  -- the existence check cannot lead to a second creation
  have hexists : a5.1.any (fun x => x.Email == info.Email) = true := by
    rw [hmail]
    rcases hresolve with ⟨hf, h1, -⟩ | ⟨-, hm, h1, -⟩
    · rw [h1]; exact (any_of_find hf).1
    · rw [h1]
      simp only [List.any_append, List.any_cons, List.any_nil, Bool.or_false]
      simp [hm]
  have ha6 : a6 = a5 := by
    rcases hb with ⟨-, h6⟩ | ⟨-, u, hu⟩
    · exact h6
    · exfalso
      simp only [NewHandler, Prod.mk.injEq] at hu
      rcases user.Create_user_table e.users info.Email a5.1 with ⟨hfail, -⟩ | ⟨hany, -, -⟩
      · rw [hu.1] at hfail
        exact absurd rfl hfail
      · rw [hexists] at hany
        exact Bool.noConfusion hany
  subst ha6
  -- the refresh token
  simp only [NewHandler, Prod.mk.injEq] at hc
  obtain ⟨hc1, hc2⟩ := hc
  rcases hcr : (jwt.NewService e.tokens).Create dbUser.ID
      ⟨now + 30 * Minute, 0, true⟩ a6.2 with ⟨⟨j2, jerr⟩, db1⟩
  rw [hcr] at hc1 hc2
  simp only [Prod.mk.injEq] at hc1
  obtain ⟨hj, hjerr⟩ := hc1
  subst hj
  subst hjerr
  obtain ⟨hj1, -, hj3⟩ := jwt.Create_token_table e.tokens _ _ _ _ _ hcr
  have hfinal : ((NewHandler baseURL e).Callback now http.ResponseWriter.fresh r
      (users, jwts)).2 = a7 := by
    rw [heq]; exact hfin
  rw [hfinal, ← hc2]
  refine ⟨dbUser, j2, ?_, hj1, ?_⟩
  · rcases hresolve with ⟨hf, h1, -⟩ | ⟨hany, hm, h1, -⟩
    · exact Or.inl ⟨hf, h1⟩
    · exact Or.inr ⟨hany, hm, h1⟩
  · show db1 = jwts ++ [j2]
    rw [hj3]
    rcases hresolve with ⟨-, -, h2⟩ | ⟨-, -, -, h2⟩ <;> rw [h2]

/-- Once the provider is known, the request carries a code and no error, and the
exchange, the identity fetch and the resolution of the user have succeeded,
`Handler.Callback` is lines 151 to 193 run for the resolved user. -/
theorem Callback_resolved {α : Type} (h : Handler α) (now : Time) (w : http.ResponseWriter)
    (r : http.Request) (a a1 a2 a3 : α) (provider : OAuthProvider α) (token : String)
    (info : UserInfo) (dbUser : user.User)
    (hprov : h.provider (http.Get r.Path "provider") = some provider)
    (herr : http.Get r.Query "error" = "") (hcode : http.Get r.Query "code" ≠ "")
    (hex : provider.Exchange (http.Get r.Query "code") a = ((token, none), a1))
    (hinfo : provider.GetUserInfo token a1 = ((info, none), a2))
    (hres : h.userService.GetByEmail info.Email a2 = ((dbUser, none), a3) ∨
      ∃ x err b, h.userService.GetByEmail info.Email a2 = ((x, some err), b) ∧
        h.userService.Create info.Email b = ((dbUser, none), a3)) :
    h.Callback now w r a = h.issue now (target h.baseURL r) info dbUser w a3 := by
  have hcode2 : (http.Get r.Query "code" == "") = false := by simpa using hcode
  rcases hres with hg | ⟨x, err, b, hg, hc⟩
  · simp [Handler.Callback, hprov, herr, hcode2, hex, hinfo, hg, target]
  · simp [Handler.Callback, hprov, herr, hcode2, hex, hinfo, hg, hc, target]

/-- Lines 151 to 193 on the handler with the token service traced: the service is asked
for one insert, for the resolved user and the expiration `now + 30 minutes`, or for
none, and then the response is an error redirect or the 500. -/
theorem withTokens_issue {α σ : Type} (h : Handler α) (s : jwt.Service σ) (now : Time)
    (t : String) (info : UserInfo) (dbUser : user.User) (w : http.ResponseWriter) (a : α)
    (st : σ) (log : List jwt.Call) :
    ((h.withTokens s).issue now t info dbUser w (a, st, log)).2.2.2 =
        log ++ [jwt.Call.Create ⟨dbUser.ID, ⟨now + 30 * Minute, 0, true⟩⟩] ∨
    (((h.withTokens s).issue now t info dbUser w (a, st, log)).2.2.2 = log ∧
      ((∃ x, ((h.withTokens s).issue now t info dbUser w (a, st, log)).1 =
          http.Redirect w (t ++ "?error=" ++ x) http.StatusTemporaryRedirect) ∨
        ((h.withTokens s).issue now t info dbUser w (a, st, log)).1 =
          http.Error w "Failed to create user" http.StatusInternalServerError)) := by
  rcases hn : h.jwtService.New dbUser.ID dbUser.Email a with ⟨⟨tok, _ | nerr⟩, a1⟩
  swap
  · exact Or.inr ⟨by simp [Handler.issue, Handler.withTokens, hn],
      Or.inl ⟨nerr.text, by simp [Handler.issue, Handler.withTokens, hn]⟩⟩
  rcases he : h.userService.ExistsByEmail info.Email a1 with ⟨⟨b, _ | eerr⟩, a2⟩
  swap
  · exact Or.inr ⟨by simp [Handler.issue, Handler.withTokens, hn, he],
      Or.inl ⟨eerr.text, by simp [Handler.issue, Handler.withTokens, hn, he]⟩⟩
  cases b
  · rcases hu : h.userService.Create info.Email a2 with ⟨⟨u, _ | uerr⟩, a3⟩
    swap
    · exact Or.inr ⟨by simp [Handler.issue, Handler.withTokens, hn, he, hu],
        Or.inr (by simp [Handler.issue, Handler.withTokens, hn, he, hu])⟩
    rcases hc : s.queries.Create ⟨dbUser.ID, ⟨now + 30 * Minute, 0, true⟩⟩ st with
      ⟨⟨j, _ | cerr⟩, st1⟩ <;>
      exact Or.inl (by simp [Handler.issue, Handler.withTokens, hn, he, hu, hc,
        jwt.Service.Create, jwt.Service.traced, jwt.Querier.traced])
  · rcases hc : s.queries.Create ⟨dbUser.ID, ⟨now + 30 * Minute, 0, true⟩⟩ st with
      ⟨⟨j, _ | cerr⟩, st1⟩ <;>
      exact Or.inl (by simp [Handler.issue, Handler.withTokens, hn, he, hc,
        jwt.Service.Create, jwt.Service.traced, jwt.Querier.traced])

/-- On the handler with the token service traced, a callback whose steps up to the
existence check (and the creation after a negative check) have succeeded hands the
store one insert, for the resolved user and the expiration `now + 30 minutes`. -/
theorem withTokens_reached {α σ : Type} (h : Handler α) (s : jwt.Service σ) (now : Time)
    (w : http.ResponseWriter) (r : http.Request) (a a1 a2 a3 a4 a5 : α) (st : σ)
    (log : List jwt.Call) (p : OAuthProvider α) (token tok : String) (info : UserInfo)
    (dbUser : user.User) (b : Bool)
    (hprov : h.provider (http.Get r.Path "provider") = some p)
    (herr : http.Get r.Query "error" = "") (hcode : http.Get r.Query "code" ≠ "")
    (hex : p.Exchange (http.Get r.Query "code") a = ((token, none), a1))
    (hinfo : p.GetUserInfo token a1 = ((info, none), a2))
    (hres : h.userService.GetByEmail info.Email a2 = ((dbUser, none), a3) ∨
      ∃ x err c, h.userService.GetByEmail info.Email a2 = ((x, some err), c) ∧
        h.userService.Create info.Email c = ((dbUser, none), a3))
    (hnew : h.jwtService.New dbUser.ID dbUser.Email a3 = ((tok, none), a4))
    (hexists : h.userService.ExistsByEmail info.Email a4 = ((b, none), a5))
    (hb : b = true ∨ ∃ u a6, h.userService.Create info.Email a5 = ((u, none), a6)) :
    ((h.withTokens s).Callback now w r (a, st, log)).2.2.2 =
      log ++ [jwt.Call.Create ⟨dbUser.ID, ⟨now + 30 * Minute, 0, true⟩⟩] := by
  have hcode2 : (http.Get r.Query "code" == "") = false := by simpa using hcode
  have hissue : ((h.withTokens s).issue now (target h.baseURL r) info dbUser w
      (a3, st, log)).2.2.2 =
        log ++ [jwt.Call.Create ⟨dbUser.ID, ⟨now + 30 * Minute, 0, true⟩⟩] := by
    cases b
    · rcases hb with hb | ⟨u, a6, hu⟩
      · exact absurd hb (by decide)
      · rcases hc : s.queries.Create ⟨dbUser.ID, ⟨now + 30 * Minute, 0, true⟩⟩ st with
          ⟨⟨j, _ | cerr⟩, st1⟩ <;>
          simp [Handler.issue, Handler.withTokens, hnew, hexists, hu, hc,
            jwt.Service.Create, jwt.Service.traced, jwt.Querier.traced]
    · rcases hc : s.queries.Create ⟨dbUser.ID, ⟨now + 30 * Minute, 0, true⟩⟩ st with
        ⟨⟨j, _ | cerr⟩, st1⟩ <;>
        simp [Handler.issue, Handler.withTokens, hnew, hexists, hc,
          jwt.Service.Create, jwt.Service.traced, jwt.Querier.traced]
  rw [← hissue]
  rcases hres with hg | ⟨x, err, c, hg, hc⟩
  · simp [Handler.Callback, Handler.withTokens, hprov, herr, hcode2, hex, hinfo, hg, target]
  · simp [Handler.Callback, Handler.withTokens, hprov, herr, hcode2, hex, hinfo, hg, hc, target]

/-- The callback on the handler with the token service traced: the service is asked for
one insert, with the expiration `now + 30 minutes`, or for none, and then the response
is an `http.Error` or an error redirect. -/
theorem withTokens_Callback {α σ : Type} (h : Handler α) (s : jwt.Service σ) (now : Time)
    (w : http.ResponseWriter) (r : http.Request) (a : α) (st : σ) (log : List jwt.Call) :
    (∃ userID, ((h.withTokens s).Callback now w r (a, st, log)).2.2.2 =
        log ++ [jwt.Call.Create ⟨userID, ⟨now + 30 * Minute, 0, true⟩⟩]) ∨
    (((h.withTokens s).Callback now w r (a, st, log)).2.2.2 = log ∧
      ((∃ x, ((h.withTokens s).Callback now w r (a, st, log)).1 =
          http.Redirect w (target h.baseURL r ++ "?error=" ++ x)
            http.StatusTemporaryRedirect) ∨
        ∃ text code, ((h.withTokens s).Callback now w r (a, st, log)).1 =
          http.Error w text code)) := by
  rcases hp : h.provider (http.Get r.Path "provider") with _ | p
  · exact Or.inr ⟨by simp [Handler.Callback, Handler.withTokens, hp],
      Or.inr ⟨_, _, by simp [Handler.Callback, Handler.withTokens, hp]; rfl⟩⟩
  by_cases herr : http.Get r.Query "error" = ""
  swap
  · exact Or.inr ⟨by simp [Handler.Callback, Handler.withTokens, hp, herr],
      Or.inl ⟨http.Get r.Query "error",
        by simp [Handler.Callback, Handler.withTokens, hp, herr, target]⟩⟩
  by_cases hcode : http.Get r.Query "code" = ""
  · exact Or.inr ⟨by simp [Handler.Callback, Handler.withTokens, hp, herr, hcode],
      Or.inl ⟨"missing_code",
        by simp [Handler.Callback, Handler.withTokens, hp, herr, hcode, target]⟩⟩
  rcases hx : p.Exchange (http.Get r.Query "code") a with ⟨⟨token, _ | xerr⟩, a1⟩
  swap
  · exact Or.inr ⟨by simp [Handler.Callback, Handler.withTokens, hp, herr, hcode, hx],
      Or.inl ⟨xerr.text,
        by simp [Handler.Callback, Handler.withTokens, hp, herr, hcode, hx, target]⟩⟩
  rcases hi : p.GetUserInfo token a1 with ⟨⟨info, _ | ierr⟩, a2⟩
  swap
  · exact Or.inr ⟨by simp [Handler.Callback, Handler.withTokens, hp, herr, hcode, hx, hi],
      Or.inl ⟨ierr.text,
        by simp [Handler.Callback, Handler.withTokens, hp, herr, hcode, hx, hi, target]⟩⟩
  have hissue : ∀ (dbUser : user.User) (a3 : α),
      (h.withTokens s).Callback now w r (a, st, log) =
        (h.withTokens s).issue now (target h.baseURL r) info dbUser w (a3, st, log) →
      (∃ userID, ((h.withTokens s).Callback now w r (a, st, log)).2.2.2 =
          log ++ [jwt.Call.Create ⟨userID, ⟨now + 30 * Minute, 0, true⟩⟩]) ∨
      (((h.withTokens s).Callback now w r (a, st, log)).2.2.2 = log ∧
        ((∃ x, ((h.withTokens s).Callback now w r (a, st, log)).1 =
            http.Redirect w (target h.baseURL r ++ "?error=" ++ x)
              http.StatusTemporaryRedirect) ∨
          ∃ text code, ((h.withTokens s).Callback now w r (a, st, log)).1 =
            http.Error w text code)) := by
    intro dbUser a3 heq
    rw [heq]
    rcases withTokens_issue h s now (target h.baseURL r) info dbUser w a3 st log with
      h1 | ⟨h1, h2 | h2⟩
    · exact Or.inl ⟨dbUser.ID, h1⟩
    · exact Or.inr ⟨h1, Or.inl h2⟩
    · exact Or.inr ⟨h1, Or.inr ⟨_, _, h2⟩⟩
  rcases hg : h.userService.GetByEmail info.Email a2 with ⟨⟨dbUser, _ | gerr⟩, a3⟩
  · exact hissue dbUser a3 (by
      simp [Handler.Callback, Handler.withTokens, hp, herr, hcode, hx, hi, hg, target])
  rcases hc : h.userService.Create info.Email a3 with ⟨⟨dbUser, _ | cerr⟩, a4⟩
  · exact hissue dbUser a4 (by
      simp [Handler.Callback, Handler.withTokens, hp, herr, hcode, hx, hi, hg, hc, target])
  · exact Or.inr
      ⟨by simp [Handler.Callback, Handler.withTokens, hp, herr, hcode, hx, hi, hg, hc],
        Or.inl ⟨cerr.text, by
          simp [Handler.Callback, Handler.withTokens, hp, herr, hcode, hx, hi, hg, hc,
            target]⟩⟩

/-- C20: on the handler as `main.go` wires it, for every callback to the provider
"google", every failing step is answered by the redirect to the target with the error
appended and nothing else: an error parameter of the request, a missing code, a failed
exchange, a failed identity fetch, a failed creation of the user after a failed lookup,
a failed minting, a failed existence check and a failed creation of the refresh token.
Once the user is resolved an answered existence check says that the user exists, so
the creation of lines 168 to 175 is not attempted; and every response is a redirect,
with the error or with the tokens. -/
theorem Callback_failure_redirects (baseURL : String) (e : Env) (now : Time)
    (w : http.ResponseWriter) (r : http.Request) (users : List user.User) (jwts : List Jwt)
    (hprov : http.Get r.Path "provider" = "google") :
    (http.Get r.Query "error" ≠ "" →
      (NewHandler baseURL e).Callback now w r (users, jwts) =
        (http.Redirect w (target baseURL r ++ "?error=" ++ http.Get r.Query "error")
          http.StatusTemporaryRedirect, (users, jwts))) ∧
    (http.Get r.Query "error" = "" → http.Get r.Query "code" = "" →
      (NewHandler baseURL e).Callback now w r (users, jwts) =
        (http.Redirect w (target baseURL r ++ "?error=" ++ "missing_code")
          http.StatusTemporaryRedirect, (users, jwts))) ∧
    (∀ token err, http.Get r.Query "error" = "" → http.Get r.Query "code" ≠ "" →
      e.exchange (http.Get r.Query "code") = (token, some err) →
      (NewHandler baseURL e).Callback now w r (users, jwts) =
        (http.Redirect w (target baseURL r ++ "?error=" ++ err.text)
          http.StatusTemporaryRedirect, (users, jwts))) ∧
    (∀ token info err, http.Get r.Query "error" = "" → http.Get r.Query "code" ≠ "" →
      e.exchange (http.Get r.Query "code") = (token, none) →
      e.userinfo token = (info, some err) →
      (NewHandler baseURL e).Callback now w r (users, jwts) =
        (http.Redirect w (target baseURL r ++ "?error=" ++ err.text)
          http.StatusTemporaryRedirect, (users, jwts))) ∧
    (∀ token info, http.Get r.Query "error" = "" → http.Get r.Query "code" ≠ "" →
      e.exchange (http.Get r.Query "code") = (token, none) →
      e.userinfo token = (info, none) →
      (∀ x err0 users1 y err users2,
        (user.NewService e.users).GetByEmail info.Email users = ((x, some err0), users1) →
        (user.NewService e.users).Create info.Email users1 = ((y, some err), users2) →
        (NewHandler baseURL e).Callback now w r (users, jwts) =
          (http.Redirect w (target baseURL r ++ "?error=" ++ err.text)
            http.StatusTemporaryRedirect, (users2, jwts))) ∧
      (∀ dbUser users1,
        ((user.NewService e.users).GetByEmail info.Email users = ((dbUser, none), users1) ∨
          ∃ x err0 b,
            (user.NewService e.users).GetByEmail info.Email users = ((x, some err0), b) ∧
            (user.NewService e.users).Create info.Email b = ((dbUser, none), users1)) →
        (∀ tok err,
          (jwt.NewService e.tokens).New e.lib e.issue e.jwtID dbUser.ID dbUser.Email =
            (tok, some err) →
          (NewHandler baseURL e).Callback now w r (users, jwts) =
            (http.Redirect w (target baseURL r ++ "?error=" ++ err.text)
              http.StatusTemporaryRedirect, (users1, jwts))) ∧
        (∀ tok b err users2,
          (jwt.NewService e.tokens).New e.lib e.issue e.jwtID dbUser.ID dbUser.Email =
            (tok, none) →
          (user.NewService e.users).ExistsByEmail info.Email users1 =
            ((b, some err), users2) →
          (NewHandler baseURL e).Callback now w r (users, jwts) =
            (http.Redirect w (target baseURL r ++ "?error=" ++ err.text)
              http.StatusTemporaryRedirect, (users2, jwts))) ∧
        (∀ b users2,
          (user.NewService e.users).ExistsByEmail info.Email users1 = ((b, none), users2) →
          b = true ∧ users2 = users1) ∧
        (∀ tok b users2 j err jwts1,
          (jwt.NewService e.tokens).New e.lib e.issue e.jwtID dbUser.ID dbUser.Email =
            (tok, none) →
          (user.NewService e.users).ExistsByEmail info.Email users1 = ((b, none), users2) →
          (jwt.NewService e.tokens).Create dbUser.ID ⟨now + 30 * Minute, 0, true⟩ jwts =
            ((j, some err), jwts1) →
          (NewHandler baseURL e).Callback now w r (users, jwts) =
            (http.Redirect w (target baseURL r ++ "?error=" ++ err.text)
              http.StatusTemporaryRedirect, (users2, jwts1))))) ∧
    ((∃ x, ((NewHandler baseURL e).Callback now w r (users, jwts)).1 =
        http.Redirect w (target baseURL r ++ "?error=" ++ x) http.StatusTemporaryRedirect) ∨
      ∃ tok id, ((NewHandler baseURL e).Callback now w r (users, jwts)).1 =
        http.Redirect w (target baseURL r ++ "?access_token=" ++ tok ++ "&refresh_token=" ++ id)
          http.StatusTemporaryRedirect) := by
  have h1 : http.Get r.Query "error" ≠ "" →
      (NewHandler baseURL e).Callback now w r (users, jwts) =
        (http.Redirect w (target baseURL r ++ "?error=" ++ http.Get r.Query "error")
          http.StatusTemporaryRedirect, (users, jwts)) := by
    intro herr
    simp [Handler.Callback, NewHandler, hprov, herr, target]
  have h2 : http.Get r.Query "error" = "" → http.Get r.Query "code" = "" →
      (NewHandler baseURL e).Callback now w r (users, jwts) =
        (http.Redirect w (target baseURL r ++ "?error=" ++ "missing_code")
          http.StatusTemporaryRedirect, (users, jwts)) := by
    intro herr hcode
    simp [Handler.Callback, NewHandler, hprov, herr, hcode, target]
  have h3 : ∀ token err, http.Get r.Query "error" = "" → http.Get r.Query "code" ≠ "" →
      e.exchange (http.Get r.Query "code") = (token, some err) →
      (NewHandler baseURL e).Callback now w r (users, jwts) =
        (http.Redirect w (target baseURL r ++ "?error=" ++ err.text)
          http.StatusTemporaryRedirect, (users, jwts)) := by
    intro token err herr hcode hx
    simp [Handler.Callback, NewHandler, hprov, herr, hcode, hx, target]
  have h4 : ∀ token info err, http.Get r.Query "error" = "" → http.Get r.Query "code" ≠ "" →
      e.exchange (http.Get r.Query "code") = (token, none) →
      e.userinfo token = (info, some err) →
      (NewHandler baseURL e).Callback now w r (users, jwts) =
        (http.Redirect w (target baseURL r ++ "?error=" ++ err.text)
          http.StatusTemporaryRedirect, (users, jwts)) := by
    intro token info err herr hcode hx hi
    simp [Handler.Callback, NewHandler, hprov, herr, hcode, hx, hi, target]
  have h5 : ∀ token info, http.Get r.Query "error" = "" → http.Get r.Query "code" ≠ "" →
      e.exchange (http.Get r.Query "code") = (token, none) →
      e.userinfo token = (info, none) →
      ∀ x err0 users1 y err users2,
        (user.NewService e.users).GetByEmail info.Email users = ((x, some err0), users1) →
        (user.NewService e.users).Create info.Email users1 = ((y, some err), users2) →
        (NewHandler baseURL e).Callback now w r (users, jwts) =
          (http.Redirect w (target baseURL r ++ "?error=" ++ err.text)
            http.StatusTemporaryRedirect, (users2, jwts)) := by
    intro token info herr hcode hx hi x err0 users1 y err users2 hg hc
    simp [Handler.Callback, NewHandler, hprov, herr, hcode, hx, hi, hg, hc, target]
  have hres : ∀ token info, http.Get r.Query "error" = "" → http.Get r.Query "code" ≠ "" →
      e.exchange (http.Get r.Query "code") = (token, none) →
      e.userinfo token = (info, none) →
      ∀ dbUser users1,
        ((user.NewService e.users).GetByEmail info.Email users = ((dbUser, none), users1) ∨
          ∃ x err0 b,
            (user.NewService e.users).GetByEmail info.Email users = ((x, some err0), b) ∧
            (user.NewService e.users).Create info.Email b = ((dbUser, none), users1)) →
        (NewHandler baseURL e).Callback now w r (users, jwts) =
          (NewHandler baseURL e).issue now (target baseURL r) info dbUser w (users1, jwts) := by
    intro token info herr hcode hx hi dbUser users1 hr
    rcases hr with hg | ⟨x, err0, b, hg, hc⟩
    · simp [Handler.Callback, NewHandler, hprov, herr, hcode, hx, hi, hg, target]
    · simp [Handler.Callback, NewHandler, hprov, herr, hcode, hx, hi, hg, hc, target]
  have hexists : ∀ (info : UserInfo) (dbUser : user.User) (users1 : List user.User),
      ((user.NewService e.users).GetByEmail info.Email users = ((dbUser, none), users1) ∨
        ∃ x err0 b,
          (user.NewService e.users).GetByEmail info.Email users = ((x, some err0), b) ∧
          (user.NewService e.users).Create info.Email b = ((dbUser, none), users1)) →
      ∀ b users2,
        (user.NewService e.users).ExistsByEmail info.Email users1 = ((b, none), users2) →
        b = true ∧ users2 = users1 := by
    intro info dbUser users1 hr b users2 he
    have h := user.ExistsByEmail_answer e.users info.Email users1 users2 b he
    rw [user.resolved_in_table e.users info.Email users users1 dbUser hr] at h
    exact h
  have hissue : ∀ (info : UserInfo) (dbUser : user.User) (users1 : List user.User),
      ((user.NewService e.users).GetByEmail info.Email users = ((dbUser, none), users1) ∨
        ∃ x err0 b,
          (user.NewService e.users).GetByEmail info.Email users = ((x, some err0), b) ∧
          (user.NewService e.users).Create info.Email b = ((dbUser, none), users1)) →
      (∀ tok err,
        (jwt.NewService e.tokens).New e.lib e.issue e.jwtID dbUser.ID dbUser.Email =
          (tok, some err) →
        (NewHandler baseURL e).issue now (target baseURL r) info dbUser w (users1, jwts) =
          (http.Redirect w (target baseURL r ++ "?error=" ++ err.text)
            http.StatusTemporaryRedirect, (users1, jwts))) ∧
      (∀ tok b err users2,
        (jwt.NewService e.tokens).New e.lib e.issue e.jwtID dbUser.ID dbUser.Email =
          (tok, none) →
        (user.NewService e.users).ExistsByEmail info.Email users1 = ((b, some err), users2) →
        (NewHandler baseURL e).issue now (target baseURL r) info dbUser w (users1, jwts) =
          (http.Redirect w (target baseURL r ++ "?error=" ++ err.text)
            http.StatusTemporaryRedirect, (users2, jwts))) ∧
      (∀ tok b users2 j err jwts1,
        (jwt.NewService e.tokens).New e.lib e.issue e.jwtID dbUser.ID dbUser.Email =
          (tok, none) →
        (user.NewService e.users).ExistsByEmail info.Email users1 = ((b, none), users2) →
        (jwt.NewService e.tokens).Create dbUser.ID ⟨now + 30 * Minute, 0, true⟩ jwts =
          ((j, some err), jwts1) →
        (NewHandler baseURL e).issue now (target baseURL r) info dbUser w (users1, jwts) =
          (http.Redirect w (target baseURL r ++ "?error=" ++ err.text)
            http.StatusTemporaryRedirect, (users2, jwts1))) ∧
      (∀ tok b users2 j jwts1,
        (jwt.NewService e.tokens).New e.lib e.issue e.jwtID dbUser.ID dbUser.Email =
          (tok, none) →
        (user.NewService e.users).ExistsByEmail info.Email users1 = ((b, none), users2) →
        (jwt.NewService e.tokens).Create dbUser.ID ⟨now + 30 * Minute, 0, true⟩ jwts =
          ((j, none), jwts1) →
        (NewHandler baseURL e).issue now (target baseURL r) info dbUser w (users1, jwts) =
          (http.Redirect w
            (target baseURL r ++ "?access_token=" ++ tok ++ "&refresh_token=" ++
              e.lib.uuidString j.ID)
            http.StatusTemporaryRedirect, (users2, jwts1))) := by
    intro info dbUser users1 hr
    refine ⟨?_, ?_, ?_, ?_⟩
    · intro tok err hn
      simp [Handler.issue, NewHandler, hn]
    · intro tok b err users2 hn he
      simp [Handler.issue, NewHandler, hn, he]
    · intro tok b users2 j err jwts1 hn he hc
      obtain ⟨rfl, rfl⟩ := hexists info dbUser users1 hr b users2 he
      simp [Handler.issue, NewHandler, hn, he, hc]
    · intro tok b users2 j jwts1 hn he hc
      obtain ⟨rfl, rfl⟩ := hexists info dbUser users1 hr b users2 he
      simp [Handler.issue, NewHandler, hn, he, hc]
  refine ⟨h1, h2, h3, h4, ?_, ?_⟩
  · intro token info herr hcode hx hi
    refine ⟨h5 token info herr hcode hx hi, ?_⟩
    intro dbUser users1 hr
    have hcb := hres token info herr hcode hx hi dbUser users1 hr
    obtain ⟨i1, i2, i3, -⟩ := hissue info dbUser users1 hr
    refine ⟨?_, ?_, hexists info dbUser users1 hr, ?_⟩
    · intro tok err hn
      rw [hcb]
      exact i1 tok err hn
    · intro tok b err users2 hn he
      rw [hcb]
      exact i2 tok b err users2 hn he
    · intro tok b users2 j err jwts1 hn he hc
      rw [hcb]
      exact i3 tok b users2 j err jwts1 hn he hc
  · by_cases herr : http.Get r.Query "error" = ""
    swap
    · exact Or.inl ⟨_, by rw [h1 herr]⟩
    by_cases hcode : http.Get r.Query "code" = ""
    · exact Or.inl ⟨_, by rw [h2 herr hcode]⟩
    rcases hx : e.exchange (http.Get r.Query "code") with ⟨token, _ | xerr⟩
    swap
    · exact Or.inl ⟨_, by rw [h3 token xerr herr hcode hx]⟩
    rcases hi : e.userinfo token with ⟨info, _ | ierr⟩
    swap
    · exact Or.inl ⟨_, by rw [h4 token info ierr herr hcode hx hi]⟩
    have hfrom : ∀ (dbUser : user.User) (users1 : List user.User),
        ((user.NewService e.users).GetByEmail info.Email users = ((dbUser, none), users1) ∨
          ∃ x err0 b,
            (user.NewService e.users).GetByEmail info.Email users = ((x, some err0), b) ∧
            (user.NewService e.users).Create info.Email b = ((dbUser, none), users1)) →
        (∃ x, ((NewHandler baseURL e).Callback now w r (users, jwts)).1 =
          http.Redirect w (target baseURL r ++ "?error=" ++ x)
            http.StatusTemporaryRedirect) ∨
        ∃ tok id, ((NewHandler baseURL e).Callback now w r (users, jwts)).1 =
          http.Redirect w
            (target baseURL r ++ "?access_token=" ++ tok ++ "&refresh_token=" ++ id)
            http.StatusTemporaryRedirect := by
      intro dbUser users1 hr
      rw [hres token info herr hcode hx hi dbUser users1 hr]
      obtain ⟨i1, i2, i3, i4⟩ := hissue info dbUser users1 hr
      rcases hn : (jwt.NewService e.tokens).New e.lib e.issue e.jwtID dbUser.ID dbUser.Email
        with ⟨tok, _ | nerr⟩
      swap
      · exact Or.inl ⟨_, by rw [i1 tok nerr hn]⟩
      rcases he : (user.NewService e.users).ExistsByEmail info.Email users1 with
        ⟨⟨b, _ | eerr⟩, users2⟩
      swap
      · exact Or.inl ⟨_, by rw [i2 tok b eerr users2 hn he]⟩
      rcases hc : (jwt.NewService e.tokens).Create dbUser.ID ⟨now + 30 * Minute, 0, true⟩ jwts
        with ⟨⟨j, _ | cerr⟩, jwts1⟩
      · exact Or.inr ⟨_, _, by rw [i4 tok b users2 j jwts1 hn he hc]⟩
      · exact Or.inl ⟨_, by rw [i3 tok b users2 j cerr jwts1 hn he hc]⟩
    rcases hg : (user.NewService e.users).GetByEmail info.Email users with
      ⟨⟨dbUser, _ | gerr⟩, users1⟩
    · exact hfrom dbUser users1 (Or.inl hg)
    rcases hc : (user.NewService e.users).Create info.Email users1 with
      ⟨⟨dbUser, _ | cerr⟩, users2⟩
    · exact hfrom dbUser users2 (Or.inr ⟨_, _, _, hg, hc⟩)
    · exact Or.inl ⟨_, by rw [h5 token info herr hcode hx hi _ gerr users1 _ cerr users2 hg hc]⟩

/-- C20, on the wired handler: a callback without a code is redirected with
`?error=missing_code`; a callback for the stored user `9`, whose token the library
refuses to sign, is redirected with the error of the minting; the tables stay as they
were. -/
theorem Callback_failure_redirects_witness :
    (NewHandler "http://localhost:8080" (Env.reliable "a@example.com" 7 2 "eyJ.e30.c2ln")).Callback
        500 http.ResponseWriter.fresh
        ⟨[], [("provider", "google")], [("state", "http://localhost:3000/cb")], "", []⟩
        ([], []) =
      (http.Redirect http.ResponseWriter.fresh
        (target "http://localhost:8080"
            ⟨[], [("provider", "google")], [("state", "http://localhost:3000/cb")], "", []⟩ ++
          "?error=" ++ "missing_code") http.StatusTemporaryRedirect, ([], [])) ∧
    (NewHandler "http://localhost:8080" (Env.reliable "a@example.com" 7 2 "eyJ.e30.c2ln")).Callback
        500 http.ResponseWriter.fresh
        ⟨[], [("provider", "google")],
          [("code", "c0de"), ("state", "http://localhost:3000/cb")], "", []⟩
        ([⟨9, "a@example.com", ⟨0, 0, true⟩⟩], []) =
      (http.Redirect http.ResponseWriter.fresh
        (target "http://localhost:8080"
            ⟨[], [("provider", "google")],
              [("code", "c0de"), ("state", "http://localhost:3000/cb")], "", []⟩ ++
          "?error=" ++ (Error.library [] "signing failed").text)
        http.StatusTemporaryRedirect, ([⟨9, "a@example.com", ⟨0, 0, true⟩⟩], [])) :=
  ⟨(Callback_failure_redirects "http://localhost:8080"
      (Env.reliable "a@example.com" 7 2 "eyJ.e30.c2ln") 500 http.ResponseWriter.fresh
      ⟨[], [("provider", "google")], [("state", "http://localhost:3000/cb")], "", []⟩
      [] [] (by decide)).2.1 (by decide) (by decide),
    (((Callback_failure_redirects "http://localhost:8080"
      (Env.reliable "a@example.com" 7 2 "eyJ.e30.c2ln") 500 http.ResponseWriter.fresh
      ⟨[], [("provider", "google")],
        [("code", "c0de"), ("state", "http://localhost:3000/cb")], "", []⟩
      [⟨9, "a@example.com", ⟨0, 0, true⟩⟩] [] (by decide)).2.2.2.2.1 "ya29"
      ⟨"sub", "a@example.com", "A"⟩ (by decide) (by decide) rfl rfl).2
      ⟨9, "a@example.com", ⟨0, 0, true⟩⟩ [⟨9, "a@example.com", ⟨0, 0, true⟩⟩]
      (Or.inl (by decide))).1 "" (Error.library [] "signing failed") (by decide)⟩

/-- C21 fails on the code: `Handler.Login` called with `c` and `r` hands the provider
the state `c?r=...`; for that state a callback in which every step succeeds redirects
to the state followed by `?access_token=...&refresh_token=...`, a URL whose query has
no parameter `access_token`: the minted token is the tail of the value of `r`. -/
theorem Callback_state_with_query :
    (Handler.Login (NewHandler "http://localhost:8080"
          (Env.reliable "a@example.com" 7 2 "eyJ.e30.c2ln"))
        http.ResponseWriter.fresh
        ⟨[], [("provider", "google")], [("c", "http://localhost:3000/cb"), ("r", "/home")],
          "", []⟩ ([], [])).1 =
      http.Redirect http.ResponseWriter.fresh
        ((Env.reliable "a@example.com" 7 2 "eyJ.e30.c2ln").authCodeURL
          "http://localhost:3000/cb?r=/home") 307 ∧
    Handler.Callback (NewHandler "http://localhost:8080"
          (Env.reliable "a@example.com" 7 2 "eyJ.e30.c2ln")) 500
        http.ResponseWriter.fresh
        ⟨[], [("provider", "google")],
          [("code", "c0de"), ("state", "http://localhost:3000/cb?r=/home")], "", []⟩
        ([], []) =
      (⟨[("Location",
            "http://localhost:3000/cb?r=/home?access_token=eyJ.e30.c2ln&refresh_token=2")],
          some 307, ""⟩,
        ([⟨7, "a@example.com", ⟨0, 0, true⟩⟩], [⟨2, 7, ⟨500 + 30 * Minute, 0, true⟩, true⟩])) ∧
    url.Query "http://localhost:3000/cb?r=/home?access_token=eyJ.e30.c2ln&refresh_token=2" =
      [("r", "/home?access_token=eyJ.e30.c2ln"), ("refresh_token", "2")] ∧
    http.Get
      (url.Query "http://localhost:3000/cb?r=/home?access_token=eyJ.e30.c2ln&refresh_token=2")
      "access_token" = "" := by
  decide

/-- C22: in `Handler.Callback`, for every handler, once the user is resolved to
`dbUser`: when `jwtService.New` fails the response is the redirect with the error and
nothing else; when it succeeds and `rtService.Create` fails, whether the existence
check found the user or the user was created after it, the response is again the
redirect with the error alone, without the minted token; when both succeed the redirect
carries the minted token and the text of the new record's id.  Conversely, a callback
whose redirect carries an access token is one in which `jwtService.New` succeeded for
the resolved user's id and email and `rtService.Create` succeeded for the same id, and
the redirect carries that token and that record's id. -/
theorem Callback_both_or_neither {α : Type} (h : Handler α) (now : Time) (r : http.Request)
    (a : α) :
    (∀ (w : http.ResponseWriter) (provider : OAuthProvider α) (token : String)
        (info : UserInfo) (dbUser : user.User) (a1 a2 a3 : α),
      h.provider (http.Get r.Path "provider") = some provider →
      http.Get r.Query "error" = "" → http.Get r.Query "code" ≠ "" →
      provider.Exchange (http.Get r.Query "code") a = ((token, none), a1) →
      provider.GetUserInfo token a1 = ((info, none), a2) →
      (h.userService.GetByEmail info.Email a2 = ((dbUser, none), a3) ∨
        ∃ x err b, h.userService.GetByEmail info.Email a2 = ((x, some err), b) ∧
          h.userService.Create info.Email b = ((dbUser, none), a3)) →
      (∀ tok err a4, h.jwtService.New dbUser.ID dbUser.Email a3 = ((tok, some err), a4) →
        h.Callback now w r a =
          (http.Redirect w (target h.baseURL r ++ "?error=" ++ err.text)
            http.StatusTemporaryRedirect, a4)) ∧
      (∀ tok a4 b a5 a6 j err a7,
        h.jwtService.New dbUser.ID dbUser.Email a3 = ((tok, none), a4) →
        h.userService.ExistsByEmail info.Email a4 = ((b, none), a5) →
        ((b = true ∧ a6 = a5) ∨
          (b = false ∧ ∃ u, h.userService.Create info.Email a5 = ((u, none), a6))) →
        h.rtService.Create dbUser.ID ⟨now + 30 * Minute, 0, true⟩ a6 = ((j, some err), a7) →
        h.Callback now w r a =
          (http.Redirect w (target h.baseURL r ++ "?error=" ++ err.text)
            http.StatusTemporaryRedirect, a7)) ∧
      (∀ tok a4 b a5 a6 j a7,
        h.jwtService.New dbUser.ID dbUser.Email a3 = ((tok, none), a4) →
        h.userService.ExistsByEmail info.Email a4 = ((b, none), a5) →
        ((b = true ∧ a6 = a5) ∨
          (b = false ∧ ∃ u, h.userService.Create info.Email a5 = ((u, none), a6))) →
        h.rtService.Create dbUser.ID ⟨now + 30 * Minute, 0, true⟩ a6 = ((j, none), a7) →
        h.Callback now w r a =
          (http.Redirect w
            (target h.baseURL r ++ "?access_token=" ++ tok ++ "&refresh_token=" ++
              h.uuidString j.ID)
            http.StatusTemporaryRedirect, a7))) ∧
    (succeeded h.baseURL r (h.Callback now http.ResponseWriter.fresh r a).1 →
      ∃ (info : UserInfo) (a2 : α) (dbUser : user.User) (a3 : α) (tok : String) (a4 a6 : α)
          (j : Jwt) (a7 : α),
        (h.userService.GetByEmail info.Email a2 = ((dbUser, none), a3) ∨
          ∃ x err b, h.userService.GetByEmail info.Email a2 = ((x, some err), b) ∧
            h.userService.Create info.Email b = ((dbUser, none), a3)) ∧
        h.jwtService.New dbUser.ID dbUser.Email a3 = ((tok, none), a4) ∧
        h.rtService.Create dbUser.ID ⟨now + 30 * Minute, 0, true⟩ a6 = ((j, none), a7) ∧
        h.Callback now http.ResponseWriter.fresh r a =
          (http.Redirect http.ResponseWriter.fresh
            (target h.baseURL r ++ "?access_token=" ++ tok ++ "&refresh_token=" ++
              h.uuidString j.ID)
            http.StatusTemporaryRedirect, a7)) := by
  refine ⟨?_, ?_⟩
  · intro w provider token info dbUser a1 a2 a3 hprov herr hcode hex hinfo hres
    rw [Callback_resolved h now w r a a1 a2 a3 provider token info dbUser hprov herr hcode hex
      hinfo hres]
    refine ⟨?_, ?_, ?_⟩
    · intro tok err a4 hn
      simp [Handler.issue, hn]
    · intro tok a4 b a5 a6 j err a7 hn he hb hc
      rcases hb with ⟨rfl, rfl⟩ | ⟨rfl, u, hu⟩
      · simp [Handler.issue, hn, he, hc]
      · simp [Handler.issue, hn, he, hu, hc]
    · intro tok a4 b a5 a6 j a7 hn he hb hc
      rcases hb with ⟨rfl, rfl⟩ | ⟨rfl, u, hu⟩
      · simp [Handler.issue, hn, he, hc]
      · simp [Handler.issue, hn, he, hu, hc]
  · intro hs
    obtain ⟨provider, token, a1, info, a2, dbUser, a3, -, -, -, hres, hcb, hsent⟩ :=
      Callback_sent h now r a hs
    obtain ⟨tok, a4, b, a5, a6, j, a7, hn, he, hb, hc, -⟩ :=
      issue_sent h now (target h.baseURL r) info dbUser a3 hsent
    refine ⟨info, a2, dbUser, a3, tok, a4, a6, j, a7, ?_, hn, hc, ?_⟩
    · rcases hres with hg | ⟨x, err, b2, hg, hcr⟩
      · exact Or.inl hg
      · exact Or.inr ⟨x, err, b2, hg, hcr⟩
    · rw [hcb]
      rcases hb with ⟨rfl, rfl⟩ | ⟨rfl, u, hu⟩
      · simp [Handler.issue, hn, he, hc]
      · simp [Handler.issue, hn, he, hu, hc]

/-- C22, on the wired handler for a new user: over an empty token table both calls
succeed and the redirect carries the token and the id `2`; over a table that already
holds the id `2` the insert fails and the redirect carries the error only. -/
theorem Callback_both_or_neither_witness :
    (NewHandler "http://localhost:8080" (Env.reliable "a@example.com" 7 2 "eyJ.e30.c2ln")).Callback
        500 http.ResponseWriter.fresh
        ⟨[], [("provider", "google")],
          [("code", "c0de"), ("state", "http://localhost:3000/cb")], "", []⟩ ([], []) =
      (http.Redirect http.ResponseWriter.fresh
        ("http://localhost:3000/cb" ++ "?access_token=" ++ "eyJ.e30.c2ln" ++ "&refresh_token=" ++
          "2") http.StatusTemporaryRedirect,
        ([⟨7, "a@example.com", ⟨0, 0, true⟩⟩], [⟨2, 7, ⟨500 + 30 * Minute, 0, true⟩, true⟩])) ∧
    (NewHandler "http://localhost:8080" (Env.reliable "a@example.com" 7 2 "eyJ.e30.c2ln")).Callback
        500 http.ResponseWriter.fresh
        ⟨[], [("provider", "google")],
          [("code", "c0de"), ("state", "http://localhost:3000/cb")], "", []⟩
        ([], [⟨2, 9, ⟨900, 0, true⟩, true⟩]) =
      (http.Redirect http.ResponseWriter.fresh
        ("http://localhost:3000/cb" ++ "?error=" ++
          "duplicate key value violates unique constraint") http.StatusTemporaryRedirect,
        ([⟨7, "a@example.com", ⟨0, 0, true⟩⟩], [⟨2, 9, ⟨900, 0, true⟩, true⟩])) :=
  ⟨((Callback_both_or_neither
        (NewHandler "http://localhost:8080" (Env.reliable "a@example.com" 7 2 "eyJ.e30.c2ln"))
        500
        ⟨[], [("provider", "google")],
          [("code", "c0de"), ("state", "http://localhost:3000/cb")], "", []⟩
        ([], [])).1 http.ResponseWriter.fresh _ "ya29" ⟨"sub", "a@example.com", "A"⟩
        ⟨7, "a@example.com", ⟨0, 0, true⟩⟩ ([], []) ([], [])
        ([⟨7, "a@example.com", ⟨0, 0, true⟩⟩], []) rfl (by decide) (by decide) rfl rfl
        (Or.inr ⟨user.User.zero, Error.ErrNoRows, ([], []), by decide, by decide⟩)).2.2
      "eyJ.e30.c2ln" ([⟨7, "a@example.com", ⟨0, 0, true⟩⟩], []) true
      ([⟨7, "a@example.com", ⟨0, 0, true⟩⟩], []) ([⟨7, "a@example.com", ⟨0, 0, true⟩⟩], [])
      ⟨2, 7, ⟨500 + 30 * Minute, 0, true⟩, true⟩
      ([⟨7, "a@example.com", ⟨0, 0, true⟩⟩], [⟨2, 7, ⟨500 + 30 * Minute, 0, true⟩, true⟩])
      (by decide) (by decide) (Or.inl ⟨rfl, rfl⟩) (by decide),
    ((Callback_both_or_neither
        (NewHandler "http://localhost:8080" (Env.reliable "a@example.com" 7 2 "eyJ.e30.c2ln"))
        500
        ⟨[], [("provider", "google")],
          [("code", "c0de"), ("state", "http://localhost:3000/cb")], "", []⟩
        ([], [⟨2, 9, ⟨900, 0, true⟩, true⟩])).1 http.ResponseWriter.fresh _ "ya29"
        ⟨"sub", "a@example.com", "A"⟩
        ⟨7, "a@example.com", ⟨0, 0, true⟩⟩ ([], [⟨2, 9, ⟨900, 0, true⟩, true⟩])
        ([], [⟨2, 9, ⟨900, 0, true⟩, true⟩])
        ([⟨7, "a@example.com", ⟨0, 0, true⟩⟩], [⟨2, 9, ⟨900, 0, true⟩, true⟩]) rfl
        (by decide) (by decide) rfl rfl
        (Or.inr ⟨user.User.zero, Error.ErrNoRows, ([], [⟨2, 9, ⟨900, 0, true⟩, true⟩]),
          by decide, by decide⟩)).2.1
      "eyJ.e30.c2ln" ([⟨7, "a@example.com", ⟨0, 0, true⟩⟩], [⟨2, 9, ⟨900, 0, true⟩, true⟩]) true
      ([⟨7, "a@example.com", ⟨0, 0, true⟩⟩], [⟨2, 9, ⟨900, 0, true⟩, true⟩])
      ([⟨7, "a@example.com", ⟨0, 0, true⟩⟩], [⟨2, 9, ⟨900, 0, true⟩, true⟩])
      Jwt.zero (Error.storage "duplicate key value violates unique constraint")
      ([⟨7, "a@example.com", ⟨0, 0, true⟩⟩], [⟨2, 9, ⟨900, 0, true⟩, true⟩])
      (by decide) (by decide) (Or.inl ⟨rfl, rfl⟩) (by decide)⟩

/-- C23 fails on the code: the identity endpoint answers the fetch with status 401 and
an error body; `GoogleConfig.GetUserInfo` does not read the status, the decoder finds no
field of `googleUserResponse` in the body, and the identity returned has the empty
email and no error.  `Handler.Callback` then looks the user up by the empty email,
creates a user with it, and redirects with an access token and a refresh token. -/
theorem Callback_empty_email :
    oauthprovider.GoogleConfig.GetUserInfo
        ⟨fun _ _ => (⟨401, "\x7b\"error\":\"invalid_request\"\x7d"⟩, none),
          fun body =>
            if body = "\x7b\"error\":\"invalid_request\"\x7d" then
              (⟨"", "", "", "", "", "", false, ""⟩, none)
            else (⟨"", "", "", "", "", "", false, ""⟩, some (Error.upstream "unexpected EOF"))⟩
        "ya29" = (⟨"", "", ""⟩, none) ∧
    Handler.Callback
        (NewHandler "http://localhost:8080"
          { Env.reliable "" 7 2 "eyJ.e30.c2ln" with
            userinfo := oauthprovider.GoogleConfig.GetUserInfo
              ⟨fun _ _ => (⟨401, "\x7b\"error\":\"invalid_request\"\x7d"⟩, none),
                fun body =>
                  if body = "\x7b\"error\":\"invalid_request\"\x7d" then
                    (⟨"", "", "", "", "", "", false, ""⟩, none)
                  else
                    (⟨"", "", "", "", "", "", false, ""⟩,
                      some (Error.upstream "unexpected EOF"))⟩ })
        500 http.ResponseWriter.fresh
        ⟨[], [("provider", "google")],
          [("code", "c0de"), ("state", "http://localhost:3000/cb")], "", []⟩
        ([], []) =
      (⟨[("Location",
            "http://localhost:3000/cb?access_token=eyJ.e30.c2ln&refresh_token=2")],
          some 307, ""⟩,
        ([⟨7, "", ⟨0, 0, true⟩⟩], [⟨2, 7, ⟨500 + 30 * Minute, 0, true⟩, true⟩])) := by
  decide

/-- C24: on the wired handler, from a user table in which the email is unknown, two
successful callbacks in a row whose identity has that email resolve to one user: the
first creates it, the second finds it, both refresh-token records are made for its id,
and the table ends with exactly one user of that email. -/
theorem Callback_twice_same_user (baseURL : String) (e1 e2 : Env) (now1 now2 : Time)
    (r1 r2 : http.Request) (users : List user.User) (jwts : List Jwt) (email : String)
    (hunknown : ∀ u ∈ users, u.Email ≠ email)
    (hinfo1 : ∀ tok, (e1.userinfo tok).1.Email = email)
    (hinfo2 : ∀ tok, (e2.userinfo tok).1.Email = email)
    (hs1 : succeeded baseURL r1
      ((NewHandler baseURL e1).Callback now1 http.ResponseWriter.fresh r1 (users, jwts)).1)
    (hs2 : succeeded baseURL r2
      ((NewHandler baseURL e2).Callback now2 http.ResponseWriter.fresh r2
        ((NewHandler baseURL e1).Callback now1 http.ResponseWriter.fresh r1
          (users, jwts)).2).1) :
    ∃ u j1 j2, u.Email = email ∧
      ((NewHandler baseURL e1).Callback now1 http.ResponseWriter.fresh r1
        (users, jwts)).2 = (users ++ [u], jwts ++ [j1]) ∧
      ((NewHandler baseURL e2).Callback now2 http.ResponseWriter.fresh r2
        ((NewHandler baseURL e1).Callback now1 http.ResponseWriter.fresh r1
          (users, jwts)).2).2 = (users ++ [u], jwts ++ [j1, j2]) ∧
      j1.UserID = u.ID ∧ j2.UserID = u.ID ∧
      (users ++ [u]).filter (fun x => x.Email == email) = [u] := by
  have hnone : users.find? (fun x => x.Email == email) = none := by
    simp only [List.find?_eq_none]
    intro x hx
    simpa using hunknown x hx
  obtain ⟨u, j1, hu, hj1, hdb1⟩ := NewHandler_sent baseURL e1 now1 r1 users jwts email hinfo1 hs1
  rcases hu with ⟨hfound, -⟩ | ⟨-, hmail, husers⟩
  · rw [hnone] at hfound
    exact absurd hfound (by simp)
  have hst1 : ((NewHandler baseURL e1).Callback now1 http.ResponseWriter.fresh r1
      (users, jwts)).2 = (users ++ [u], jwts ++ [j1]) := Prod.ext husers hdb1
  rw [hst1] at hs2 ⊢
  have hfind : (users ++ [u]).find? (fun x => x.Email == email) = some u := by
    rw [List.find?_append, hnone]
    simp [hmail]
  obtain ⟨u2, j2, hu2, hj2, hdb2⟩ :=
    NewHandler_sent baseURL e2 now2 r2 (users ++ [u]) (jwts ++ [j1]) email hinfo2 hs2
  rcases hu2 with ⟨hfound2, husers2⟩ | ⟨hany, -, -⟩
  · rw [hfind] at hfound2
    have hsame : u2 = u := (Option.some.inj hfound2).symm
    subst hsame
    refine ⟨u2, j1, j2, hmail, rfl, ?_, hj1, hj2, ?_⟩
    · refine Prod.ext husers2 ?_
      rw [hdb2]
      simp
    · rw [List.filter_append]
      have hf : users.filter (fun x => x.Email == email) = [] := by
        simp only [List.filter_eq_nil_iff]
        intro x hx
        simpa using hunknown x hx
      rw [hf]
      simp [hmail]
  · exfalso
    rw [(any_of_find hfind).1] at hany
    exact Bool.noConfusion hany

/-- C24, from empty tables: two callbacks for "a@example.com", the first giving the new
user the id `7`, both succeed, and both refresh-token records belong to user `7`. -/
theorem Callback_twice_same_user_witness :
    ∃ u j1 j2, u.Email = "a@example.com" ∧
      ((NewHandler "http://localhost:8080"
          (Env.reliable "a@example.com" 7 2 "eyJ.e30.c2ln")).Callback 500
        http.ResponseWriter.fresh
        ⟨[], [("provider", "google")], [("code", "c0de"), ("state", "http://localhost:3000/cb")],
          "", []⟩ ([], [])).2 = ([] ++ [u], [] ++ [j1]) ∧
      ((NewHandler "http://localhost:8080"
          (Env.reliable "a@example.com" 7 3 "eyJ.e30.c2ln")).Callback 900
        http.ResponseWriter.fresh
        ⟨[], [("provider", "google")], [("code", "c0de"), ("state", "http://localhost:3000/cb")],
          "", []⟩
        ((NewHandler "http://localhost:8080"
          (Env.reliable "a@example.com" 7 2 "eyJ.e30.c2ln")).Callback 500
        http.ResponseWriter.fresh
        ⟨[], [("provider", "google")], [("code", "c0de"), ("state", "http://localhost:3000/cb")],
          "", []⟩ ([], [])).2).2 = ([] ++ [u], [] ++ [j1, j2]) ∧
      j1.UserID = u.ID ∧ j2.UserID = u.ID ∧
      ([] ++ [u]).filter (fun x => x.Email == "a@example.com") = [u] :=
  Callback_twice_same_user "http://localhost:8080"
    (Env.reliable "a@example.com" 7 2 "eyJ.e30.c2ln")
    (Env.reliable "a@example.com" 7 3 "eyJ.e30.c2ln") 500 900
    ⟨[], [("provider", "google")], [("code", "c0de"), ("state", "http://localhost:3000/cb")],
      "", []⟩
    ⟨[], [("provider", "google")], [("code", "c0de"), ("state", "http://localhost:3000/cb")],
      "", []⟩
    [] [] "a@example.com" (by simp) (fun _ => rfl) (fun _ => rfl)
    ⟨"eyJ.e30.c2ln&refresh_token=2", by decide⟩ ⟨"eyJ.e30.c2ln&refresh_token=3", by decide⟩

/-- C25: whatever the stored record (its expiration included), the querier and the
service's configured `expiration`, every insert that `Service.IsAvailable` hands to
the store carries the expiration `now.issue + 30 minutes`, and a rotation that succeeds
has handed over exactly one.  For every handler whose refresh-token service is a
`jwt.Service`, every request and every outcome of every step, every insert that
`Handler.Callback` hands to the store carries the expiration `now + 30 minutes`; a
callback that succeeds has handed over exactly one; and a callback that reaches line
178, the existence check having found the user or the user having been created after
it, hands over the insert for the resolved user with that expiration. -/
theorem refresh_lifetime_fixed :
    (∀ (σ : Type) (s : jwt.Service σ) (now : jwt.Clock) (id : UUID) (st : σ)
        (arg : jwt.CreateParams),
      jwt.Call.Create arg ∈ (s.traced.IsAvailable now id (st, [])).2.2 →
        arg.ExpirationTime = ⟨now.issue + 30 * Minute, 0, true⟩) ∧
    (∀ (σ : Type) (s : jwt.Service σ) (now : jwt.Clock) (id : UUID) (st : σ),
      (s.traced.IsAvailable now id (st, [])).1.2 = none →
        ∃ userID, (s.traced.IsAvailable now id (st, [])).2.2 =
          [jwt.Call.IsAvailable id, jwt.Call.Update ⟨id, false⟩,
            jwt.Call.Create ⟨userID, ⟨now.issue + 30 * Minute, 0, true⟩⟩]) ∧
    (∀ (α σ : Type) (h : Handler α) (s : jwt.Service σ) (now : Time)
        (w : http.ResponseWriter) (r : http.Request) (a : α) (st : σ)
        (arg : jwt.CreateParams),
      jwt.Call.Create arg ∈ ((h.withTokens s).Callback now w r (a, st, [])).2.2.2 →
        arg.ExpirationTime = ⟨now + 30 * Minute, 0, true⟩) ∧
    (∀ (α σ : Type) (h : Handler α) (s : jwt.Service σ) (now : Time) (r : http.Request)
        (a : α) (st : σ),
      succeeded h.baseURL r
          ((h.withTokens s).Callback now http.ResponseWriter.fresh r (a, st, [])).1 →
        ∃ userID,
          ((h.withTokens s).Callback now http.ResponseWriter.fresh r (a, st, [])).2.2.2 =
            [jwt.Call.Create ⟨userID, ⟨now + 30 * Minute, 0, true⟩⟩]) ∧
    (∀ (α σ : Type) (h : Handler α) (s : jwt.Service σ) (now : Time)
        (w : http.ResponseWriter) (r : http.Request) (a a1 a2 a3 a4 a5 : α) (st : σ)
        (p : OAuthProvider α) (token tok : String) (info : UserInfo) (dbUser : user.User)
        (b : Bool),
      h.provider (http.Get r.Path "provider") = some p →
      http.Get r.Query "error" = "" → http.Get r.Query "code" ≠ "" →
      p.Exchange (http.Get r.Query "code") a = ((token, none), a1) →
      p.GetUserInfo token a1 = ((info, none), a2) →
      (h.userService.GetByEmail info.Email a2 = ((dbUser, none), a3) ∨
        ∃ x err c, h.userService.GetByEmail info.Email a2 = ((x, some err), c) ∧
          h.userService.Create info.Email c = ((dbUser, none), a3)) →
      h.jwtService.New dbUser.ID dbUser.Email a3 = ((tok, none), a4) →
      h.userService.ExistsByEmail info.Email a4 = ((b, none), a5) →
      (b = true ∨ ∃ u a6, h.userService.Create info.Email a5 = ((u, none), a6)) →
      ((h.withTokens s).Callback now w r (a, st, [])).2.2.2 =
        [jwt.Call.Create ⟨dbUser.ID, ⟨now + 30 * Minute, 0, true⟩⟩]) := by
  refine ⟨fun σ s now id st arg h => (jwt.Service.IsAvailable_create_arg s now id st arg h).1,
    fun σ s now id st h => ⟨_, jwt.Service.IsAvailable_success_calls s now id st h⟩, ?_, ?_,
    fun α σ h s now w r a a1 a2 a3 a4 a5 st p token tok info dbUser b hprov herr hcode hex
      hinfo hres hnew hexists hb =>
      withTokens_reached h s now w r a a1 a2 a3 a4 a5 st [] p token tok info dbUser b hprov
        herr hcode hex hinfo hres hnew hexists hb⟩
  · intro α σ h s now w r a st arg hmem
    rcases withTokens_Callback h s now w r a st [] with ⟨userID, h1⟩ | ⟨h1, -⟩
    · rw [h1] at hmem
      simp only [List.nil_append, List.mem_singleton, jwt.Call.Create.injEq] at hmem
      rw [hmem]
    · rw [h1] at hmem
      simp at hmem
  · intro α σ h s now r a st hs
    rcases withTokens_Callback h s now http.ResponseWriter.fresh r a st [] with
      ⟨userID, h1⟩ | ⟨-, ⟨x, h2⟩ | ⟨text, code, h2⟩⟩
    · exact ⟨userID, h1⟩
    · unfold succeeded at hs
      rw [h2] at hs
      exact absurd hs (not_sent_Redirect _ _ _)
    · unfold succeeded at hs
      rw [h2] at hs
      exact absurd hs (not_sent_Error _ _ _)

/-- C25, on the table service with the configured expiration of 15 minutes and the
stored token `1` that expires at 900: redeemed at 50, the insert carries the expiration
`51 + 30 minutes`; a callback at 500 for a new user hands over one insert, with the
expiration `500 + 30 minutes`. -/
theorem refresh_lifetime_fixed_witness :
    ((jwt.NewService (jwt.Env.ok 2)).traced.IsAvailable ⟨50, 51⟩ 1
        ([⟨1, 7, ⟨900, 0, true⟩, true⟩], [])).2.2 =
      [jwt.Call.IsAvailable 1, jwt.Call.Update ⟨1, false⟩,
        jwt.Call.Create ⟨7, ⟨51 + 30 * Minute, 0, true⟩⟩] ∧
    (⟨7, ⟨51 + 30 * Minute, 0, true⟩⟩ : jwt.CreateParams).ExpirationTime =
      ⟨(⟨50, 51⟩ : jwt.Clock).issue + 30 * Minute, 0, true⟩ ∧
    (((NewHandler "http://localhost:8080"
          (Env.reliable "a@example.com" 7 2 "eyJ.e30.c2ln")).withTokens
        (jwt.NewService (jwt.Env.ok 2))).Callback 500 http.ResponseWriter.fresh
        ⟨[], [("provider", "google")],
          [("code", "c0de"), ("state", "http://localhost:3000/cb")], "", []⟩
        (([], []), [], [])).2.2.2 =
      [jwt.Call.Create ⟨7, ⟨500 + 30 * Minute, 0, true⟩⟩] ∧
    (⟨7, ⟨500 + 30 * Minute, 0, true⟩⟩ : jwt.CreateParams).ExpirationTime =
      ⟨500 + 30 * Minute, 0, true⟩ :=
  ⟨by decide,
    refresh_lifetime_fixed.1 (List Jwt) (jwt.NewService (jwt.Env.ok 2)) ⟨50, 51⟩ 1
      [⟨1, 7, ⟨900, 0, true⟩, true⟩] ⟨7, ⟨51 + 30 * Minute, 0, true⟩⟩ (by decide),
    by decide,
    refresh_lifetime_fixed.2.2.1 (List user.User × List Jwt) (List Jwt)
      (NewHandler "http://localhost:8080" (Env.reliable "a@example.com" 7 2 "eyJ.e30.c2ln"))
      (jwt.NewService (jwt.Env.ok 2)) 500 http.ResponseWriter.fresh
      ⟨[], [("provider", "google")],
        [("code", "c0de"), ("state", "http://localhost:3000/cb")], "", []⟩
      ([], []) [] ⟨7, ⟨500 + 30 * Minute, 0, true⟩⟩ (by decide)⟩

end auth

/-! ## The bookmark toggle -/

namespace bookmark

open jwt (UUID Error)

/-- C26: `Service.ToggleBookmark` asks `Exist` for the pair first.  When that fails it
returns false and the error.  When the bookmark exists it calls `Delete` for the pair
and returns false, with the error of `Delete` if any.  When it does not exist it calls
`Create` for the same pair, never `Delete`, and returns true if `Create` succeeds and
false with the error otherwise.  So it returns true exactly when `Exist` answered no
and `Create` succeeded. -/
theorem ToggleBookmark_cases {σ β : Type} (s : Service σ β) (userID formID : UUID) (st : σ)
    (log : List Call) :
    (∀ b err st1, s.queries.Exist ⟨userID, formID⟩ st = ((b, some err), st1) →
      (⟨s.queries.traced⟩ : Service (σ × List Call) β).ToggleBookmark userID formID (st, log) =
        ((false, some err), (st1, log ++ [Call.Exist ⟨userID, formID⟩]))) ∧
    (∀ st1 st2, s.queries.Exist ⟨userID, formID⟩ st = ((true, none), st1) →
      ∀ derr, s.queries.Delete ⟨userID, formID⟩ st1 = (derr, st2) →
      (⟨s.queries.traced⟩ : Service (σ × List Call) β).ToggleBookmark userID formID (st, log) =
        ((false, derr),
          (st2, log ++ [Call.Exist ⟨userID, formID⟩, Call.Delete ⟨userID, formID⟩]))) ∧
    (∀ st1 st2 row, s.queries.Exist ⟨userID, formID⟩ st = ((false, none), st1) →
      ∀ cerr, s.queries.Create ⟨userID, formID⟩ st1 = ((row, cerr), st2) →
      (⟨s.queries.traced⟩ : Service (σ × List Call) β).ToggleBookmark userID formID (st, log) =
        ((cerr.isNone, cerr),
          (st2, log ++ [Call.Exist ⟨userID, formID⟩, Call.Create ⟨userID, formID⟩]))) ∧
    ((s.ToggleBookmark userID formID st).1.1 = true ↔
      (s.queries.Exist ⟨userID, formID⟩ st).1 = (false, none) ∧
      (s.queries.Create ⟨userID, formID⟩ (s.queries.Exist ⟨userID, formID⟩ st).2).1.2 = none) := by
  refine ⟨?_, ?_, ?_, ?_⟩
  · intro b err st1 h
    simp [Service.ToggleBookmark, Querier.traced, h]
  · intro st1 st2 h derr hd
    cases derr <;> simp [Service.ToggleBookmark, Querier.traced, h, hd]
  · intro st1 st2 row h cerr hc
    cases cerr <;> simp [Service.ToggleBookmark, Querier.traced, h, hc]
  · rcases he : s.queries.Exist ⟨userID, formID⟩ st with ⟨⟨b, _ | err⟩, st1⟩
    · cases b
      · rcases hc : s.queries.Create ⟨userID, formID⟩ st1 with ⟨⟨row, _ | cerr⟩, st2⟩ <;>
          simp [Service.ToggleBookmark, he, hc]
      · rcases hd : s.queries.Delete ⟨userID, formID⟩ st1 with ⟨_ | derr, st2⟩ <;>
          simp [Service.ToggleBookmark, he, hd]
    · simp [Service.ToggleBookmark, he]

/-- C26, for a store that keeps the bookmarked pairs in a list: toggling the pair
`(7, 3)` on the empty store adds it and returns true, with `Exist` then `Create` called
for that pair. -/
theorem ToggleBookmark_cases_witness :
    (⟨Querier.traced
        (⟨fun arg st => (((), none), st ++ [(arg.UserID, arg.FormID)]),
          fun arg st => (none, st.filter (fun p => p != (arg.UserID, arg.FormID))),
          fun arg st => ((st.contains (arg.UserID, arg.FormID), none), st)⟩ :
          Querier (List (UUID × UUID)) Unit)⟩ :
        Service (List (UUID × UUID) × List Call) Unit).ToggleBookmark 7 3 ([], []) =
      ((true, none), ([(7, 3)], [Call.Exist ⟨7, 3⟩, Call.Create ⟨7, 3⟩])) :=
  (ToggleBookmark_cases
      (⟨⟨fun arg st => (((), none), st ++ [(arg.UserID, arg.FormID)]),
          fun arg st => (none, st.filter (fun p => p != (arg.UserID, arg.FormID))),
          fun arg st => ((st.contains (arg.UserID, arg.FormID), none), st)⟩⟩ :
        Service (List (UUID × UUID)) Unit) 7 3 [] []).2.2.1 [] [(7, 3)] () rfl none rfl

end bookmark

/-! ## The form handlers -/

namespace form

open jwt (UUID Time Timestamptz Error)

/-- On a writer on which no status was written, `http.Error` sets the status. -/
theorem Error_status {w : http.ResponseWriter} (hw : w.status = none) (error : String)
    (code : Nat) : (http.Error w error code).status = some code := by
  simp [http.Error, http.ResponseWriter.Set, http.ResponseWriter.WriteHeader,
    http.ResponseWriter.Write, hw]

/-- On a writer on which no status was written, writing a JSON response sets the
status and appends the text to the body. -/
theorem json_status {w : http.ResponseWriter} (hw : w.status = none) (code : Nat)
    (text : String) :
    (((w.Set "Content-Type" "application/json").WriteHeader code).Write text).status =
      some code ∧
    (((w.Set "Content-Type" "application/json").WriteHeader code).Write text).body =
      w.body ++ text := by
  simp [http.ResponseWriter.Set, http.ResponseWriter.WriteHeader, http.ResponseWriter.Write, hw]

/-- What `Handler.Create` does when the body decodes: 400 without a call of the store
when a field is empty; with a user id in the context, 500 when `store.Create` fails and
201 when it succeeds and the response encodes. -/
theorem Create_decoded {α : Type} (h : Handler α) (wire : Wire) (w : http.ResponseWriter)
    (r : http.Request) (a : α) (req : Request) (hw : w.status = none)
    (hdec : wire.Decode r.Body = (req, none)) :
    (Struct req ≠ none →
      h.Create wire w r a = (http.Error w "Validation failed" http.StatusBadRequest, a)) ∧
    (∀ token f err a1, Struct req = none →
      context.Value r.ctx jwt.UserContextKey = some token →
      h.store.Create req.Title req.Description token a = ((f, some err), a1) →
      (h.Create wire w r a).1.status = some 500) ∧
    (∀ token f a1 text, Struct req = none →
      context.Value r.ctx jwt.UserContextKey = some token →
      h.store.Create req.Title req.Description token a = ((f, none), a1) →
      wire.Encode ⟨wire.uuidString f.ID, f.Title, f.Description.String, false,
        f.CreatedAt.Time⟩ = (text, none) →
      (h.Create wire w r a).1.status = some 201) := by
  refine ⟨?_, ?_, ?_⟩
  · intro hs
    rcases hv : Struct req with _ | verr
    · exact absurd hv hs
    · simp [Handler.Create, hdec, hv]
  · intro token f err a1 hv hctx hc
    simp only [Handler.Create, hdec, hv, hctx, hc]
    exact Error_status hw _ _
  · intro token f a1 text hv hctx hc henc
    simp only [Handler.Create, hdec, hv, hctx, hc, henc]
    exact (json_status hw _ _).1

/-- C27 fails on the code: for a body on which the decoder reports an error after it
has filled in a title and a description, `Handler.Create` answers 400 and still calls
`store.Create` (once), whose row is created. -/
theorem Create_after_failed_decode :
    (Handler.Create
        (⟨Store.counted
          ⟨fun name description authorId (a : List Form) =>
              ((⟨9, name, ⟨description, true⟩, ⟨toString authorId, true⟩, ⟨0, 0, true⟩⟩, none),
                a ++ [⟨9, name, ⟨description, true⟩, ⟨toString authorId, true⟩, ⟨0, 0, true⟩⟩]),
            fun a => ((a, none), a),
            fun _ _ _ a => ((⟨0, "", ⟨"", false⟩, ⟨"", false⟩, ⟨0, 0, false⟩⟩, none), a),
            fun _ a => (none, a),
            fun _ _ a => ((false, none), a)⟩⟩ : Handler (List Form × Nat))
        ⟨fun body =>
            if body = "\x7b\"title\":\"T\",\"description\":\"D\",\"title\":1\x7d" then
              (⟨"T", "D"⟩, some (Error.upstream "json: cannot unmarshal number into Go struct field Request.title of type string"))
            else (⟨"", ""⟩, some (Error.upstream "unexpected EOF")),
          fun _ => (⟨"", "", ""⟩, some (Error.upstream "unexpected EOF")),
          fun _ => (0, none), fun u => toString u, fun resp => (resp.Title, none),
          fun _ => ("", none)⟩
        http.ResponseWriter.fresh
        ⟨[], [], [], "\x7b\"title\":\"T\",\"description\":\"D\",\"title\":1\x7d", [("user", 7)]⟩
        ([], 0)) =
      (⟨[("X-Content-Type-Options", "nosniff"), ("Content-Type", "text/plain; charset=utf-8")],
          some 400, "Invalid request body\nT"⟩,
        ([⟨9, "T", ⟨"D", true⟩, ⟨"7", true⟩, ⟨0, 0, true⟩⟩], 1)) := by
  decide

/-- C28: `Handler.Update` answers 400, without a call of the store, when the body does
not decode or the decoded request has an empty id, title or description; otherwise it
calls `store.Update` (with the id `uuid.Parse` gives for the text) and answers 500 when
that fails and 200 when it succeeds, the body being the encoding of the response made
of the updated form's id, title and description. -/
theorem Update_cases {α : Type} (h : Handler α) (wire : Wire) (w : http.ResponseWriter)
    (r : http.Request) (a : α) (hw : w.status = none) :
    (((wire.DecodeUpdate r.Body).2 ≠ none ∨
        (wire.DecodeUpdate r.Body).1.ID = "" ∨ (wire.DecodeUpdate r.Body).1.Title = "" ∨
        (wire.DecodeUpdate r.Body).1.Description = "") →
      (∃ text, h.Update wire w r a = (http.Error w text http.StatusBadRequest, a)) ∧
      (h.Update wire w r a).1.status = some 400 ∧ (h.Update wire w r a).2 = a) ∧
    (∀ req f err a1, wire.DecodeUpdate r.Body = (req, none) →
      req.ID ≠ "" → req.Title ≠ "" → req.Description ≠ "" →
      h.store.Update (wire.Parse req.ID).1 req.Title req.Description a = ((f, some err), a1) →
      h.Update wire w r a =
        (http.Error w "Failed to update form" http.StatusInternalServerError, a1) ∧
      (h.Update wire w r a).1.status = some 500) ∧
    (∀ req f a1 text, wire.DecodeUpdate r.Body = (req, none) →
      req.ID ≠ "" → req.Title ≠ "" → req.Description ≠ "" →
      h.store.Update (wire.Parse req.ID).1 req.Title req.Description a = ((f, none), a1) →
      wire.Encode ⟨wire.uuidString f.ID, f.Title, f.Description.String, false,
        f.CreatedAt.Time⟩ = (text, none) →
      (h.Update wire w r a).1.status = some 200 ∧
      (h.Update wire w r a).1.body = w.body ++ text ∧ (h.Update wire w r a).2 = a1) := by
  refine ⟨?_, ?_, ?_⟩
  · intro hbad
    have hex : ∃ text, h.Update wire w r a = (http.Error w text http.StatusBadRequest, a) := by
      rcases hd : wire.DecodeUpdate r.Body with ⟨req, _ | derr⟩
      swap
      · exact ⟨"Invalid request body", by simp [Handler.Update, hd]⟩
      rcases hv : StructUpdate req with _ | verr
      swap
      · exact ⟨"Validation failed", by simp [Handler.Update, hd, hv]⟩
      exfalso
      simp only [hd, ne_eq, not_true_eq_false, false_or] at hbad
      simp only [StructUpdate] at hv
      split at hv
      · simp at hv
      · rename_i hne
        simp only [Bool.or_eq_true, decide_eq_true_eq, not_or] at hne
        rcases hbad with h1 | h1 | h1
        · exact hne.1.1 h1
        · exact hne.1.2 h1
        · exact hne.2 h1
    obtain ⟨text, heq⟩ := hex
    refine ⟨⟨text, heq⟩, ?_, by rw [heq]⟩
    rw [heq]
    exact Error_status hw _ _
  · intro req f err a1 hd h1 h2 h3 hu
    have hv : StructUpdate req = none := by simp [StructUpdate, h1, h2, h3]
    have heq : h.Update wire w r a =
        (http.Error w "Failed to update form" http.StatusInternalServerError, a1) := by
      simp [Handler.Update, hd, hv, hu]
    refine ⟨heq, ?_⟩
    rw [heq]
    exact Error_status hw _ _
  · intro req f a1 text hd h1 h2 h3 hu henc
    have hv : StructUpdate req = none := by simp [StructUpdate, h1, h2, h3]
    have heq : h.Update wire w r a =
        ((((w.Set "Content-Type" "application/json").WriteHeader http.StatusOK).Write text),
          a1) := by
      simp [Handler.Update, hd, hv, hu, henc]
    rw [heq]
    exact ⟨(json_status hw _ _).1, (json_status hw _ _).2, rfl⟩

/-- C28, for a store that keeps no forms and answers every update with the form it is
given: a request without a title is answered 400, a complete one 200. -/
theorem Update_cases_witness :
    ((Handler.Update
        (⟨⟨fun _ _ _ a => ((⟨0, "", ⟨"", false⟩, ⟨"", false⟩, ⟨0, 0, false⟩⟩, none), a),
            fun a => (([], none), a),
            fun id name description a =>
              ((⟨id, name, ⟨description, true⟩, ⟨"", false⟩, ⟨0, 0, true⟩⟩, none), a),
            fun _ a => (none, a), fun _ _ a => ((false, none), a)⟩⟩ : Handler Unit)
        ⟨fun _ => (⟨"", ""⟩, none),
          fun body => if body = "full" then (⟨"id-9", "T", "D"⟩, none) else (⟨"id-9", "", "D"⟩, none),
          fun _ => (9, none), fun u => toString u,
          fun resp => (resp.ID ++ "," ++ resp.Title ++ "," ++ resp.Description, none),
          fun _ => ("", none)⟩
        http.ResponseWriter.fresh ⟨[], [], [], "no title", []⟩ ()).1.status = some 400) ∧
    ((Handler.Update
        (⟨⟨fun _ _ _ a => ((⟨0, "", ⟨"", false⟩, ⟨"", false⟩, ⟨0, 0, false⟩⟩, none), a),
            fun a => (([], none), a),
            fun id name description a =>
              ((⟨id, name, ⟨description, true⟩, ⟨"", false⟩, ⟨0, 0, true⟩⟩, none), a),
            fun _ a => (none, a), fun _ _ a => ((false, none), a)⟩⟩ : Handler Unit)
        ⟨fun _ => (⟨"", ""⟩, none),
          fun body => if body = "full" then (⟨"id-9", "T", "D"⟩, none) else (⟨"id-9", "", "D"⟩, none),
          fun _ => (9, none), fun u => toString u,
          fun resp => (resp.ID ++ "," ++ resp.Title ++ "," ++ resp.Description, none),
          fun _ => ("", none)⟩
        http.ResponseWriter.fresh ⟨[], [], [], "full", []⟩ ()).1.body = "" ++ "9,T,D") :=
  ⟨((Update_cases _ _ http.ResponseWriter.fresh ⟨[], [], [], "no title", []⟩ () rfl).1
      (Or.inr (Or.inr (Or.inl (by decide))))).2.1,
    ((Update_cases _ _ http.ResponseWriter.fresh ⟨[], [], [], "full", []⟩ () rfl).2.2
      ⟨"id-9", "T", "D"⟩ ⟨9, "T", ⟨"D", true⟩, ⟨"", false⟩, ⟨0, 0, true⟩⟩ () "9,T,D"
      (by decide) (by decide) (by decide) (by decide) rfl (by decide)).2.1⟩

/-- When the bookmark check of one of the forms fails on every state, the loop of
`Handler.List` (lines 120 to 134) ends without a list. -/
theorem entries_fail {α : Type} (h : Handler α) (wire : Wire) (userId : UUID)
    (forms : List Form)
    (hbad : ∃ f ∈ forms, ∀ st, (h.store.IsBookmarked f.ID userId st).1.2 ≠ none) :
    ∀ (resp : List Response) (a : α), (h.entries wire userId forms resp a).1 = none := by
  induction forms with
  | nil => simp at hbad
  | cons form rest ih =>
    intro resp a
    rcases hc : h.store.IsBookmarked form.ID userId a with ⟨⟨b, _ | err⟩, a1⟩
    · obtain ⟨f, hf, hfail⟩ := hbad
      rcases List.mem_cons.mp hf with rfl | hrest
      · exact absurd (by rw [hc]) (hfail a)
      · simp only [Handler.entries, hc]
        exact ih ⟨f, hrest, hfail⟩ _ _
    · simp [Handler.entries, hc]

/-- When no bookmark check fails, the loop of `Handler.List` appends one entry per form,
in order, each built from the form and the answer of the check. -/
theorem entries_ok {α : Type} (h : Handler α) (wire : Wire) (userId : UUID)
    (forms : List Form)
    (hgood : ∀ f ∈ forms, ∀ st, (h.store.IsBookmarked f.ID userId st).1.2 = none) :
    ∀ (resp : List Response) (a : α),
      ∃ added, (h.entries wire userId forms resp a).1 = some (resp ++ added) ∧
        List.Forall₂ (fun (form : Form) (entry : Response) =>
          entry.ID = wire.uuidString form.ID ∧ entry.Title = form.Title ∧
          entry.Description = form.Description.String ∧
          entry.CreatedAt = form.CreatedAt.Time ∧
          ∃ st st1, h.store.IsBookmarked form.ID userId st = ((entry.IsBookmarked, none), st1))
          forms added := by
  induction forms with
  | nil => intro resp a; exact ⟨[], by simp [Handler.entries], List.Forall₂.nil⟩
  | cons form rest ih =>
    intro resp a
    rcases hc : h.store.IsBookmarked form.ID userId a with ⟨⟨b, _ | err⟩, a1⟩
    · obtain ⟨added, h1, h2⟩ := ih (fun f hf => hgood f (List.mem_cons_of_mem _ hf))
        (resp ++ [⟨wire.uuidString form.ID, form.Title, form.Description.String, b,
          form.CreatedAt.Time⟩]) a1
      refine ⟨⟨wire.uuidString form.ID, form.Title, form.Description.String, b,
          form.CreatedAt.Time⟩ :: added, ?_, ?_⟩
      · simp only [Handler.entries, hc, h1]
        simp
      · exact List.Forall₂.cons ⟨rfl, rfl, rfl, rfl, a, a1, hc⟩ h2
    · have := hgood form (List.mem_cons_self _ _) a
      rw [hc] at this
      simp at this

/-- Every run of the loop of `Handler.List` either ends without a list, a bookmark check
of one of the forms having failed, or appends one entry per form, in order, each built
from the form and the answer of the check. -/
theorem entries_cases {α : Type} (h : Handler α) (wire : Wire) (userId : UUID)
    (forms : List Form) :
    ∀ (resp : List Response) (a : α),
      ((h.entries wire userId forms resp a).1 = none ∧
        ∃ f ∈ forms, ∃ st, (h.store.IsBookmarked f.ID userId st).1.2 ≠ none) ∨
      ∃ added, (h.entries wire userId forms resp a).1 = some (resp ++ added) ∧
        List.Forall₂ (fun (form : Form) (entry : Response) =>
          entry.ID = wire.uuidString form.ID ∧ entry.Title = form.Title ∧
          entry.Description = form.Description.String ∧
          entry.CreatedAt = form.CreatedAt.Time ∧
          ∃ st st1, h.store.IsBookmarked form.ID userId st = ((entry.IsBookmarked, none), st1))
          forms added := by
  induction forms with
  | nil => intro resp a; exact Or.inr ⟨[], by simp [Handler.entries], List.Forall₂.nil⟩
  | cons form rest ih =>
    intro resp a
    rcases hc : h.store.IsBookmarked form.ID userId a with ⟨⟨b, _ | err⟩, a1⟩
    · rcases ih (resp ++ [⟨wire.uuidString form.ID, form.Title, form.Description.String, b,
          form.CreatedAt.Time⟩]) a1 with ⟨h1, f, hf, st, hst⟩ | ⟨added, h1, h2⟩
      · left
        refine ⟨?_, f, List.mem_cons_of_mem _ hf, st, hst⟩
        simp only [Handler.entries, hc]
        exact h1
      · right
        refine ⟨⟨wire.uuidString form.ID, form.Title, form.Description.String, b,
            form.CreatedAt.Time⟩ :: added, ?_, ?_⟩
        · simp only [Handler.entries, hc, h1]
          simp
        · exact List.Forall₂.cons ⟨rfl, rfl, rfl, rfl, a, a1, hc⟩ h2
    · left
      refine ⟨by simp [Handler.entries, hc], form, List.mem_cons_self _ _, a, ?_⟩
      rw [hc]
      simp

/-- C29: with the user id in the context, when `store.List` returns the forms and no
bookmark check fails, `Handler.List` answers 200 with the encoding of a list that has
one entry per form, in the order of the store, each with the text of the form's id, its
title, its description and an answer of `store.IsBookmarked` for that form and the
user; it answers 500 when `store.List` fails, and when the check of one of the forms
fails.  Every run in which `store.List` succeeds is of one of these two kinds: 500
after a failed check, or 200 with such a list. -/
theorem List_cases {α : Type} (h : Handler α) (wire : Wire) (w : http.ResponseWriter)
    (r : http.Request) (a : α) (userId : UUID) (hw : w.status = none)
    (hctx : context.Value r.ctx jwt.UserContextKey = some userId) :
    (∀ forms err a1, h.store.List a = ((forms, some err), a1) →
      h.List wire w r a =
        some (http.Error w "Failed to list forms" http.StatusInternalServerError, a1) ∧
      (http.Error w "Failed to list forms" http.StatusInternalServerError).status = some 500) ∧
    (∀ forms a1, h.store.List a = ((forms, none), a1) →
      (∃ f ∈ forms, ∀ st, (h.store.IsBookmarked f.ID userId st).1.2 ≠ none) →
      ∃ a2, h.List wire w r a =
        some (http.Error w "Failed to check bookmark" http.StatusInternalServerError, a2) ∧
      (http.Error w "Failed to check bookmark" http.StatusInternalServerError).status =
        some 500) ∧
    (∀ forms a1, h.store.List a = ((forms, none), a1) →
      (∀ f ∈ forms, ∀ st, (h.store.IsBookmarked f.ID userId st).1.2 = none) →
      ∃ resp out, h.List wire w r a = some out ∧ out.1.status = some 200 ∧
        (∀ text, wire.EncodeList resp = (text, none) → out.1.body = w.body ++ text) ∧
        List.Forall₂ (fun (form : Form) (entry : Response) =>
          entry.ID = wire.uuidString form.ID ∧ entry.Title = form.Title ∧
          entry.Description = form.Description.String ∧
          entry.CreatedAt = form.CreatedAt.Time ∧
          ∃ st st1, h.store.IsBookmarked form.ID userId st = ((entry.IsBookmarked, none), st1))
          forms resp) ∧
    (∀ forms a1, h.store.List a = ((forms, none), a1) →
      (∃ a2, h.List wire w r a =
          some (http.Error w "Failed to check bookmark" http.StatusInternalServerError, a2) ∧
        ∃ f ∈ forms, ∃ st, (h.store.IsBookmarked f.ID userId st).1.2 ≠ none) ∨
      ∃ resp out, h.List wire w r a = some out ∧ out.1.status = some 200 ∧
        (∀ text, wire.EncodeList resp = (text, none) → out.1.body = w.body ++ text) ∧
        List.Forall₂ (fun (form : Form) (entry : Response) =>
          entry.ID = wire.uuidString form.ID ∧ entry.Title = form.Title ∧
          entry.Description = form.Description.String ∧
          entry.CreatedAt = form.CreatedAt.Time ∧
          ∃ st st1, h.store.IsBookmarked form.ID userId st = ((entry.IsBookmarked, none), st1))
          forms resp) := by
  have hsome : ∀ (forms : List Form) (a1 a2 : α) (added : List Response),
      h.store.List a = ((forms, none), a1) →
      h.entries wire userId forms [] a1 = (some added, a2) →
      ∃ out, h.List wire w r a = some out ∧ out.1.status = some 200 ∧
        (∀ text, wire.EncodeList added = (text, none) → out.1.body = w.body ++ text) := by
    intro forms a1 a2 added hl he
    rcases henc : wire.EncodeList added with ⟨text, _ | eerr⟩
    · refine ⟨_, by simp [Handler.List, hl, hctx, he, henc]; rfl, (json_status hw _ _).1, ?_⟩
      intro text2 ht
      simp only [Prod.mk.injEq, and_true] at ht
      subst ht
      exact (json_status hw _ _).2
    · refine ⟨_, by simp [Handler.List, hl, hctx, he, henc]; rfl, ?_, ?_⟩
      · simp [http.Error, http.ResponseWriter.Set, http.ResponseWriter.WriteHeader,
          http.ResponseWriter.Write, hw, http.StatusOK]
      · intro text2 ht
        simp at ht
  refine ⟨?_, ?_, ?_, ?_⟩
  · intro forms err a1 hl
    exact ⟨by simp [Handler.List, hl], Error_status hw _ _⟩
  · intro forms a1 hl hbad
    have hnone := entries_fail h wire userId forms hbad [] a1
    rcases he : h.entries wire userId forms [] a1 with ⟨res, a2⟩
    rw [he] at hnone
    simp only at hnone
    subst hnone
    exact ⟨a2, by simp [Handler.List, hl, hctx, he], Error_status hw _ _⟩
  · intro forms a1 hl hgood
    obtain ⟨added, h1, h2⟩ := entries_ok h wire userId forms hgood [] a1
    rcases he : h.entries wire userId forms [] a1 with ⟨res, a2⟩
    rw [he] at h1
    simp only [List.nil_append] at h1
    subst h1
    obtain ⟨out, h3, h4, h5⟩ := hsome forms a1 a2 added hl he
    exact ⟨added, out, h3, h4, h5, h2⟩
  · intro forms a1 hl
    rcases he : h.entries wire userId forms [] a1 with ⟨res, a2⟩
    rcases entries_cases h wire userId forms [] a1 with ⟨h1, hbad⟩ | ⟨added, h1, h2⟩
    · rw [he] at h1
      simp only at h1
      subst h1
      exact Or.inl ⟨a2, by simp [Handler.List, hl, hctx, he], hbad⟩
    · rw [he] at h1
      simp only [List.nil_append] at h1
      subst h1
      obtain ⟨out, h3, h4, h5⟩ := hsome forms a1 a2 added hl he
      exact Or.inr ⟨added, out, h3, h4, h5, h2⟩

/-- C29, for a store with the forms `1` and `2` of which the user `7` has bookmarked the
first: the response is 200 and lists both, in that order. -/
theorem List_cases_witness :
    Handler.List
        (⟨⟨fun _ _ _ a => ((⟨0, "", ⟨"", false⟩, ⟨"", false⟩, ⟨0, 0, false⟩⟩, none), a),
            fun a => (([⟨1, "one", ⟨"first", true⟩, ⟨"7", true⟩, ⟨10, 0, true⟩⟩,
              ⟨2, "two", ⟨"second", true⟩, ⟨"7", true⟩, ⟨20, 0, true⟩⟩], none), a),
            fun _ _ _ a => ((⟨0, "", ⟨"", false⟩, ⟨"", false⟩, ⟨0, 0, false⟩⟩, none), a),
            fun _ a => (none, a), fun formId _ a => ((formId == 1, none), a)⟩⟩ : Handler Unit)
        ⟨fun _ => (⟨"", ""⟩, none), fun _ => (⟨"", "", ""⟩, none), fun _ => (0, none),
          fun u => toString u, fun resp => (resp.Title, none),
          fun (resp : List Response) => (String.intercalate ","
            (resp.map (fun e => e.ID ++ ":" ++ e.Title ++ ":" ++ toString e.IsBookmarked)), none)⟩
        http.ResponseWriter.fresh ⟨[], [], [], "", [("user", 7)]⟩ () =
      some (⟨[("Content-Type", "application/json")], some 200, "1:one:true,2:two:false"⟩, ()) ∧
    ∃ (resp : List Response) (out : http.ResponseWriter × Unit),
      Handler.List
        (⟨⟨fun _ _ _ a => ((⟨0, "", ⟨"", false⟩, ⟨"", false⟩, ⟨0, 0, false⟩⟩, none), a),
            fun a => (([⟨1, "one", ⟨"first", true⟩, ⟨"7", true⟩, ⟨10, 0, true⟩⟩,
              ⟨2, "two", ⟨"second", true⟩, ⟨"7", true⟩, ⟨20, 0, true⟩⟩], none), a),
            fun _ _ _ a => ((⟨0, "", ⟨"", false⟩, ⟨"", false⟩, ⟨0, 0, false⟩⟩, none), a),
            fun _ a => (none, a), fun formId _ a => ((formId == 1, none), a)⟩⟩ : Handler Unit)
        ⟨fun _ => (⟨"", ""⟩, none), fun _ => (⟨"", "", ""⟩, none), fun _ => (0, none),
          fun u => toString u, fun resp => (resp.Title, none),
          fun (resp : List Response) => (String.intercalate ","
            (resp.map (fun e => e.ID ++ ":" ++ e.Title ++ ":" ++ toString e.IsBookmarked)), none)⟩
        http.ResponseWriter.fresh ⟨[], [], [], "", [("user", 7)]⟩ () = some out ∧
      out.1.status = some 200 ∧ resp.length = 2 :=
  ⟨by decide, by
    obtain ⟨resp, out, h1, h2, -, h4⟩ :=
      (List_cases
        (⟨⟨fun _ _ _ a => ((⟨0, "", ⟨"", false⟩, ⟨"", false⟩, ⟨0, 0, false⟩⟩, none), a),
            fun a => (([⟨1, "one", ⟨"first", true⟩, ⟨"7", true⟩, ⟨10, 0, true⟩⟩,
              ⟨2, "two", ⟨"second", true⟩, ⟨"7", true⟩, ⟨20, 0, true⟩⟩], none), a),
            fun _ _ _ a => ((⟨0, "", ⟨"", false⟩, ⟨"", false⟩, ⟨0, 0, false⟩⟩, none), a),
            fun _ a => (none, a), fun formId _ a => ((formId == 1, none), a)⟩⟩ : Handler Unit)
        ⟨fun _ => (⟨"", ""⟩, none), fun _ => (⟨"", "", ""⟩, none), fun _ => (0, none),
          fun u => toString u, fun resp => (resp.Title, none),
          fun (resp : List Response) => (String.intercalate ","
            (resp.map (fun e => e.ID ++ ":" ++ e.Title ++ ":" ++ toString e.IsBookmarked)), none)⟩
        http.ResponseWriter.fresh ⟨[], [], [], "", [("user", 7)]⟩ () 7 rfl rfl).2.2.1 _ () rfl
        (fun _ _ _ => rfl)
    exact ⟨resp, out, h1, h2, (List.Forall₂.length_eq h4).symm⟩⟩

end form
